import Mathlib

/-!
# Vulkan 2-D convolution: weight packing, validation and operator context

A shallow embedding of `aten/src/ATen/native/vulkan/ops/Convolution.cpp`.

Conventions of the embedding.

* Tensor elements are values of an arbitrary type `α` with a zero; `memcpy`
  and `memset` move whole elements, so nothing depends on what a float is.
* Tensor sizes are natural numbers (a tensor never has a negative size);
  stride, padding, dilation and groups are `int64_t` values, embedded as `Int`.
  The `int64_t` arithmetic of `pack_filter` wraps modulo `2^64`
  (`wrap_int64`); the narrowing to `int32_t` is modelled explicitly
  (`to_int32`, `safe_downcast`).  Offsets into buffers are exact.
* Memory reached through a `float*` is a function from element offsets
  (relative to the pointer, possibly outside the allocation) to elements.
* A C++ evaluation without a defined result (an `IntArrayRef` read out of
  range, a remainder by zero) is the error `Error.undefined`; exceptions are
  the other constructors of `Error`.
-/

namespace Conv

/-! ## Errors -/

/-- The ways an operation of the file fails. -/
inductive Error where
  /-- Raised by `TORCH_CHECK(available(...))` in `Context::create`. -/
  | not_available
  /-- Raised by `TORCH_CHECK(usable(input))` in `Context::run`. -/
  | not_usable
  /-- Raised by `TORCH_CHECK(false, "Not implemented!")`. -/
  | not_implemented
  /-- Raised by `TORCH_INTERNAL_ASSERT(src_kernel == dst_kernel, "Internal error!")`. -/
  | internal_error
  /-- Raised by `TORCH_INTERNAL_ASSERT(2u == vector.size(), "Invalid usage!")`. -/
  | invalid_usage
  /-- Raised by `expand_param_if_needed` on a list of the wrong length. -/
  | bad_param_length
  /-- Raised by `Tensor::size` on a dimension the tensor does not have. -/
  | index_error
  /-- Raised by `safe_downcast` when the value does not fit the target type. -/
  | downcast_overflow
  /-- No defined result in C++ (out-of-range array read, remainder by zero). -/
  | undefined
  deriving DecidableEq, Repr

/-! ## Tensors -/

/-- Device classes a tensor can live on (`c10::DeviceType`). -/
inductive DeviceType where
  | CPU
  | CUDA
  | Vulkan
  deriving DecidableEq, Repr

/-- Element types of a tensor (`c10::ScalarType`); `Float` is `kFloat`. -/
inductive ScalarType where
  | Byte
  | Int
  | Long
  | Half
  | Float
  | Double
  | Bool
  deriving DecidableEq, Repr

/-- A host-visible view of an `at::Tensor`: its metadata and its elements in
contiguous row-major order.  The flag `defined` is what `Tensor::defined()`
returns; it is only consulted by `available`.  Exceptions that ATen raises
inside its own accessors are outside this embedding. -/
structure Tensor (α : Type) where
  defined : Bool
  sizes : List Nat
  device : DeviceType
  scalar_type : ScalarType
  requires_grad : Bool
  data : List α
  deriving DecidableEq, Repr

/-- A device tensor (`vTensor`): its sizes and the elements of its buffer. -/
structure vTensor (α : Type) where
  sizes : List Nat
  data : List α
  deriving DecidableEq, Repr

/-- Number of elements of a tensor of the given sizes. -/
def numel : List Nat → Nat
  | [] => 1
  | d :: ds => d * numel ds

/-- Memory seen through a pointer: the element at each offset from it. -/
abbrev Mem (α : Type) := Int → α

/-- The resource pool, as far as packing can observe it: the contents that the
memory handed out for a new tensor of the given sizes has before anything is
written to it. -/
structure Pool (α : Type) where
  fresh : List Nat → Mem α

variable {α : Type}

/-- `Tensor::ndimension()`. -/
def Tensor.ndimension (t : Tensor α) : Nat := t.sizes.length

/-- `Tensor::size(dim)`: fails on a dimension the tensor does not have. -/
def Tensor.size (t : Tensor α) (dim : Nat) : Except Error Nat :=
  match t.sizes[dim]? with
  | some n => .ok n
  | none => .error .index_error

/-- `Tensor::is_vulkan()`. -/
def Tensor.is_vulkan (t : Tensor α) : Bool := t.device == DeviceType.Vulkan

/-- `Tensor::contiguous()`: the elements are already kept in contiguous order. -/
def Tensor.contiguous (t : Tensor α) : Tensor α := t

/-- `Tensor::vulkan()`: the same tensor, resident on the Vulkan device. -/
def Tensor.vulkan (t : Tensor α) : Tensor α := { t with device := DeviceType.Vulkan }

/-- `Tensor::data_ptr<float>()`: the tensor elements as memory; offsets outside
the tensor read as zero. -/
def Tensor.data_ptr [Zero α] (t : Tensor α) : Mem α :=
  fun i => if 0 ≤ i then t.data.getD i.toNat 0 else 0

/-- `convert`: the device tensor behind a Vulkan-resident tensor. -/
def convert (t : Tensor α) : vTensor α := { sizes := t.sizes, data := t.data }

/-- A new `vTensor` of the given sizes whose buffer holds the first
`numel sizes` elements of the mapped memory `mem`. -/
def vTensor.of_mem (sizes : List Nat) (mem : Mem α) : vTensor α :=
  { sizes := sizes, data := (List.range (numel sizes)).map (fun (i : Nat) => mem (i : Int)) }

/-- An `IntArrayRef` read `a[i]`; out of range it has no defined result. -/
def at_index {β : Type} (a : List β) (i : Nat) : Except Error β :=
  match a[i]? with
  | some v => .ok v
  | none => .error .undefined

/-! ## Memory primitives -/

/-- The call `memcpy(dst + d, src + s, n * sizeof(float))`. -/
def memcpy (dst : Mem α) (d : Int) (src : Mem α) (s : Int) (n : Nat) : Mem α :=
  fun i => if d ≤ i ∧ i < d + n then src (s + (i - d)) else dst i

/-- The call `memset(dst + d, 0, n * sizeof(float))`. -/
def memset [Zero α] (dst : Mem α) (d : Int) (n : Nat) : Mem α :=
  fun i => if d ≤ i ∧ i < d + n then 0 else dst i

/-- The loop `for (int64_t i = 0; i < n; ++i) body(i)` acting on a state. -/
def for_loop {σ : Type} (n : Nat) (body : Nat → σ → σ) (s : σ) : σ :=
  match n with
  | 0 => s
  | k + 1 => body k (for_loop k body s)

/-! ## Layout descriptors -/

/-- Modelled from the spec: `Layout::Filter` of `Common.h` is not among the
sources; the weight axes are (output_channels, input_channels, kernel_height,
kernel_width). -/
def Layout.Filter.output : Nat := 0

/-- Modelled from the spec: second weight axis, the input channels. -/
def Layout.Filter.input : Nat := 1

/-- Modelled from the spec: third weight axis, the kernel height. -/
def Layout.Filter.height : Nat := 2

/-- Modelled from the spec: fourth weight axis, the kernel width. -/
def Layout.Filter.width : Nat := 3

/-- Modelled from the spec: `Layout::Parameter` of `Common.h` is not among the
sources; stride, padding and dilation are (height, width) pairs. -/
def Layout.Parameter.height : Nat := 0

/-- Modelled from the spec: second entry of a parameter pair, the width. -/
def Layout.Parameter.width : Nat := 1

/-- Modelled from the spec: `Layout::Activation4D` of `Common.h` is not among
the sources; activations are (batch, channels, height, width). -/
def Layout.Activation4D.batch : Nat := 0

/-- Modelled from the spec: second activation axis, the channels. -/
def Layout.Activation4D.channels : Nat := 1

/-- Modelled from the spec: third activation axis, the height. -/
def Layout.Activation4D.height : Nat := 2

/-- Modelled from the spec: fourth activation axis, the width. -/
def Layout.Activation4D.width : Nat := 3

/-! ## Helpers of `api::utils` -/

/-- Modelled from the spec: `api::utils::div_up` is not among the sources; the
spec gives the first packed axis as `ceil(output_channels/4)`. -/
def div_up (numerator denominator : Nat) : Nat :=
  (numerator + denominator - 1) / denominator

/-- Modelled from the spec: `api::utils::align_up` is not among the sources;
the spec gives `output_channels rounded up to next multiple of 4`. -/
def align_up (number multiple : Nat) : Nat :=
  ((number + multiple - 1) / multiple) * multiple

/-! ## Shape predicates -/

/-- The source function `is_depthwise`: `filter[Layout::Filter::output] == groups`. -/
def is_depthwise (filter : List Nat) (groups : Int) : Except Error Bool := do
  let oc ← at_index filter Layout.Filter.output
  pure (decide ((oc : Int) = groups))

/-- The source function `is_pointwise`: kernel height and width are both 1. -/
def is_pointwise (filter : List Nat) : Except Error Bool := do
  let h ← at_index filter Layout.Filter.height
  if 1 = h then
    let w ← at_index filter Layout.Filter.width
    pure (decide (1 = w))
  else
    pure false

/-! ## Packing -/

/-- The bulk loop of `pack_weights`: for each source output channel and each
source input channel, one `memcpy` of a kernel block. -/
def pack_weights_bulk (src_filter : List Nat) (src_weight_ptr : Mem α)
    (src_kernel src_block dst_kernel dst_block : Nat) (dst_weight_ptr : Mem α) :
    Except Error (Mem α) := do
  let oc ← at_index src_filter Layout.Filter.output
  let ic ← at_index src_filter Layout.Filter.input
  pure <| for_loop oc (fun src_oc mem =>
    let src_weight_oc_ptr : Int := (src_oc : Int) * src_block
    let dst_oc : Int := (src_oc : Int) / 4
    let dst_weight_oc_ptr : Int := dst_oc * dst_block
    for_loop ic (fun src_ic mem =>
      let dst_ic : Int := 4 * (src_ic : Int)
      memcpy mem (dst_weight_oc_ptr + dst_ic * dst_kernel)
        src_weight_ptr (src_weight_oc_ptr + (src_ic : Int) * src_kernel)
        dst_kernel) mem) dst_weight_ptr

/-- The remainder loop of `pack_weights`: four `memset` calls of
`sizeof(float) * (4 - rem_ic)` bytes each. -/
def pack_weights_remainder [Zero α] (src_filter dst_filter : List Nat)
    (dst_kernel dst_block : Nat) (dst_weight_ptr : Mem α) : Except Error (Mem α) := do
  let rem_block : Int := 4 * (dst_kernel : Int)
  let ic ← at_index src_filter Layout.Filter.input
  let rem_ic : Nat := ic % 4
  let d_oc ← at_index dst_filter Layout.Filter.output
  let rem_weight_ptr : Int :=
    ((d_oc : Int) - 1) * dst_block + (rem_ic : Int) * dst_kernel
  pure <| for_loop 4 (fun rem_oc mem =>
    memset mem (rem_weight_ptr + (rem_oc : Int) * rem_block) (4 - rem_ic)) dst_weight_ptr

/-- The general path of `pack_weights`, up to and including the bulk copy:
allocation of the tiled buffer, the consistency assertion and the bulk loop.
Returns the sizes of the new tensor and its mapped memory. -/
def pack_weights_general_bulk [Zero α] (pool : Pool α) (weight : Tensor α) :
    Except Error (List Nat × Mem α) := do
  let src_filter := weight.sizes
  let src_weight_ptr := weight.data_ptr
  let v_sizes : List Nat := [
    div_up (← at_index src_filter Layout.Filter.output) 4,
    4 * (← at_index src_filter Layout.Filter.input),
    (← at_index src_filter Layout.Filter.height),
    (← at_index src_filter Layout.Filter.width)]
  let v_weight_payload := pool.fresh v_sizes
  let src_kernel := (← at_index src_filter Layout.Filter.height) *
    (← at_index src_filter Layout.Filter.width)
  let src_block := src_kernel * (← at_index src_filter Layout.Filter.input)
  let dst_filter := v_sizes
  let dst_kernel := (← at_index dst_filter Layout.Filter.height) *
    (← at_index dst_filter Layout.Filter.width)
  let dst_block := dst_kernel * (← at_index dst_filter Layout.Filter.input)
  if src_kernel = dst_kernel then
    let mem ← pack_weights_bulk src_filter src_weight_ptr src_kernel src_block
      dst_kernel dst_block v_weight_payload
    pure (v_sizes, mem)
  else
    throw Error.internal_error

/-- The general path of `pack_weights`: bulk copy followed by the remainder
zero-fill. -/
def pack_weights_general [Zero α] (pool : Pool α) (weight : Tensor α) :
    Except Error (vTensor α) := do
  let (v_sizes, mem) ← pack_weights_general_bulk pool weight
  let dst_filter := v_sizes
  let dst_kernel := (← at_index dst_filter Layout.Filter.height) *
    (← at_index dst_filter Layout.Filter.width)
  let dst_block := dst_kernel * (← at_index dst_filter Layout.Filter.input)
  let mem ← pack_weights_remainder weight.sizes dst_filter dst_kernel dst_block mem
  pure (vTensor.of_mem v_sizes mem)

/-- The source function `pack_weights`. -/
def pack_weights [Zero α] (pool : Pool α) (weight_arg : Tensor α) (groups : Int) :
    Except Error (vTensor α) := do
  if weight_arg.is_vulkan then
    pure (convert weight_arg)
  else
    let weight := weight_arg.contiguous
    let src_filter := weight.sizes
    let src_weight_ptr := weight.data_ptr
    if (← is_depthwise src_filter groups) then
      let v_sizes := src_filter
      let v_weight_payload := pool.fresh v_sizes
      let mem := memcpy v_weight_payload 0 src_weight_ptr 0
        (min (numel weight.sizes) (numel v_sizes))
      pure (vTensor.of_mem v_sizes mem)
    else
      pack_weights_general pool weight

/-- The source function `pack_biases`. -/
def pack_biases [Zero α] (pool : Pool α) (bias : Option (Tensor α)) (weight : Tensor α) :
    Except Error (vTensor α) := do
  match bias with
  | some b =>
    if b.is_vulkan then
      pure (convert b)
    else
      let v_sizes := [← weight.size Layout.Filter.output]
      let v_bias_payload := pool.fresh v_sizes
      let mem := memcpy v_bias_payload 0 b.contiguous.data_ptr 0
        (min (numel b.sizes) (numel v_sizes))
      pure (vTensor.of_mem v_sizes mem)
  | none =>
    let v_sizes := [← weight.size Layout.Filter.output]
    let v_bias_payload := pool.fresh v_sizes
    let mem := memset v_bias_payload 0 (numel v_sizes)
    pure (vTensor.of_mem v_sizes mem)

/-- Modelled from the spec: `expand_param_if_needed` of `ParamUtils.h` is not
among the sources.  A single value `v` becomes `expected_dim` copies of `v`
(broadcast); a list that already has `expected_dim` entries is returned as it
is; any other length is rejected.  The name of the parameter, used only in the
error text, is left out. -/
def expand_param_if_needed (list_param : List Int) (expected_dim : Nat) :
    Except Error (List Int) :=
  match list_param with
  | [v] => .ok (List.replicate expected_dim v)
  | _ =>
    if list_param.length = expected_dim then .ok list_param
    else .error .bad_param_length

/-- The result of an operation on `int64_t`: the exact value modulo `2^64`,
read as a signed 64-bit integer (two's-complement wrap-around). -/
def wrap_int64 (v : Int) : Int :=
  (v + 9223372036854775808) % 18446744073709551616 - 9223372036854775808

/-- The source function `pack_filter`; the lambda `effective` computes
`k + (k - 1) * (d - 1)` on `int64_t`, each operation wrapping. -/
def pack_filter (weight : Tensor α) (dilation : List Int) : Except Error (List Int) := do
  let filter := weight.sizes
  let effective := fun (k d : Int) =>
    wrap_int64 (k + wrap_int64 (wrap_int64 (k - 1) * wrap_int64 (d - 1)))
  let oc ← at_index filter Layout.Filter.output
  let ic ← at_index filter Layout.Filter.input
  let kh ← at_index filter Layout.Filter.height
  let dh ← at_index dilation Layout.Parameter.height
  let kw ← at_index filter Layout.Filter.width
  let dw ← at_index dilation Layout.Parameter.width
  pure [((align_up oc 4 : Nat) : Int), (ic : Int), effective kh dh, effective kw dw]

/-- The source function `pack_params`. -/
def pack_params (vector : List Int) : Except Error (List Int) := do
  if 2 = vector.length then
    pure [← at_index vector 0, ← at_index vector 1]
  else
    throw Error.invalid_usage

/-! ## Scalars -/

/-- A `c10::Scalar`: a tagged value; a double is kept as its bit pattern. -/
inductive Scalar where
  | floating (bits : Nat)
  | integral (value : Int)
  | boolean (value : Bool)
  | complex (re im : Nat)
  deriving DecidableEq, Repr

/-- `Scalar::isFloatingPoint()`. -/
def Scalar.isFloatingPoint : Scalar → Bool
  | .floating _ => true
  | _ => false

/-- A C++ `float` as the constructor of `Context` produces it: one of the two
infinities, or the conversion `to<float>()` of a scalar, kept symbolic. -/
inductive FloatValue where
  | neg_infinity
  | pos_infinity
  | of_scalar (s : Scalar)
  deriving DecidableEq, Repr

/-- Conversion of an `int64_t` to `int32_t` as an implicit narrowing does it:
the value modulo `2^32`, read as a signed 32-bit integer. -/
def to_int32 (v : Int) : Int := (v + 2147483648) % 4294967296 - 2147483648

/-! ## The operator context -/

/-- The member `packed_` of `Context`. -/
structure Packed (α : Type) where
  v_weight : vTensor α
  v_bias : vTensor α
  filter : List Int
  stride : List Int
  padding : List Int
  dilation : List Int
  groups : Int
  output_min : FloatValue
  output_max : FloatValue
  deriving DecidableEq, Repr

/-- The member `unpacked_` of `Context`. -/
structure Unpacked (α : Type) where
  weight : Tensor α
  bias : Option (Tensor α)
  filter : List Nat
  stride : List Int
  padding : List Int
  dilation : List Int
  groups : Int
  output_min : Option Scalar
  output_max : Option Scalar
  deriving DecidableEq, Repr

/-- The class `Context`. -/
structure Context (α : Type) where
  packed_ : Packed α
  unpacked_ : Unpacked α
  deriving DecidableEq, Repr

/-- The constructor `Context::Context` (the class name itself is taken by the
structure); the member initialisers run in the order of the source. -/
def Context.construct [Zero α] (pool : Pool α) (weight : Tensor α) (bias : Option (Tensor α))
    (stride padding dilation : List Int) (_transposed : Bool)
    (_output_padding : List Int) (groups : Int)
    (output_min output_max : Option Scalar) : Except Error (Context α) := do
  let v_weight ← pack_weights pool weight groups
  let v_bias ← pack_biases pool bias weight
  let p_filter ← pack_filter weight (← expand_param_if_needed dilation 2)
  let p_stride ← pack_params (← expand_param_if_needed stride 2)
  let p_padding ← pack_params (← expand_param_if_needed padding 2)
  let p_dilation ← pack_params (← expand_param_if_needed dilation 2)
  pure {
    packed_ := {
      v_weight := v_weight
      v_bias := v_bias
      filter := p_filter
      stride := p_stride
      padding := p_padding
      dilation := p_dilation
      groups := to_int32 groups
      output_min :=
        match output_min with
        | some s => FloatValue.of_scalar s
        | none => FloatValue.neg_infinity
      output_max :=
        match output_max with
        | some s => FloatValue.of_scalar s
        | none => FloatValue.pos_infinity }
    unpacked_ := {
      weight := weight
      bias := bias
      filter := weight.sizes
      stride := stride
      padding := padding
      dilation := dilation
      groups := groups
      output_min := output_min
      output_max := output_max } }

/-! ## Validation -/

/-- A chain `c1 && c2 && ... && true` of C++: the clauses are evaluated from
the left, and evaluation stops at the first one that is false. -/
def sc_all : List (Except Error Bool) → Except Error Bool
  | [] => pure true
  | c :: cs => do
    if (← c) then sc_all cs else pure false

/-- The remainder `a % b` of C++ on `int64_t`: truncated, undefined for `b = 0`. -/
def int_rem (a b : Int) : Except Error Int :=
  if b = 0 then .error .undefined else .ok (Int.tmod a b)

/-- The bias clause of `available`:
`(bias && bias->defined()) ? (...) : true`. -/
def available_bias (weight : Tensor α) (bias : Option (Tensor α)) (transposed : Bool) :
    Except Error Bool :=
  match bias with
  | some b =>
    if b.defined then
      sc_all [
        pure (decide (1 = b.ndimension)),
        pure (decide (DeviceType.CPU = b.device) || decide (DeviceType.Vulkan = b.device)),
        pure (decide (ScalarType.Float = b.scalar_type)),
        if transposed then pure false
        else do
          let oc ← weight.size Layout.Filter.output
          let n ← b.size Layout.Filter.output
          pure (decide (oc = n))]
    else pure true
  | none => pure true

/-- The source function `available`; `api_available` is the value of
`api::available()`. -/
def available (api_available : Bool) (weight : Tensor α) (bias : Option (Tensor α))
    (stride padding dilation : List Int) (transposed : Bool)
    (_output_padding : List Int) (groups : Int)
    (output_min output_max : Option Scalar) : Except Error Bool :=
  sc_all [
    pure api_available,
    -- Weight
    pure (decide (4 = weight.ndimension)),
    do pure (decide ((← weight.size Layout.Filter.height) > 0)),
    do pure (decide ((← weight.size Layout.Filter.width) > 0)),
    pure (decide (DeviceType.CPU = weight.device) ||
      decide (DeviceType.Vulkan = weight.device)),
    pure (decide (ScalarType.Float = weight.scalar_type)),
    -- Bias
    available_bias weight bias transposed,
    -- Stride
    do pure (decide ((← at_index stride Layout.Parameter.height) > 0)),
    do pure (decide ((← at_index stride Layout.Parameter.width) > 0)),
    -- Padding
    do pure (decide ((← at_index padding Layout.Parameter.height) ≥ 0)),
    do pure (decide ((← at_index padding Layout.Parameter.width) ≥ 0)),
    -- Dilation
    do pure (decide ((← at_index dilation Layout.Parameter.height) > 0)),
    do pure (decide ((← at_index dilation Layout.Parameter.width) > 0)),
    -- Groups
    pure (decide (groups > 0)),
    -- Input
    do pure (decide ((← weight.size Layout.Filter.input) > 0)),
    -- Output
    do pure (decide ((← weight.size Layout.Filter.output) > 0)),
    -- Output - Groups
    do
      let oc ← weight.size Layout.Filter.output
      let r ← int_rem (oc : Int) groups
      pure (decide (r = 0)),
    -- Output Min / Max
    pure (match output_min with
      | some s => s.isFloatingPoint
      | none => true),
    pure (match output_max with
      | some s => s.isFloatingPoint
      | none => true)]

/-- The factory `Context::create`. -/
def Context.create [Zero α] (api_available : Bool) (pool : Pool α) (weight : Tensor α)
    (bias : Option (Tensor α)) (stride_arg padding_arg dilation_arg : List Int)
    (transposed : Bool) (output_padding_arg : List Int) (groups : Int)
    (output_min output_max : Option Scalar) : Except Error (Context α) := do
  let stride ← expand_param_if_needed stride_arg 2
  let padding ← expand_param_if_needed padding_arg 2
  let dilation ← expand_param_if_needed dilation_arg 2
  let output_padding := output_padding_arg
  if (← available api_available weight bias stride padding dilation transposed
      output_padding groups output_min output_max) then
    -- Pass in the originals
    Context.construct pool weight bias stride_arg padding_arg dilation_arg transposed
      output_padding_arg groups output_min output_max
  else
    throw Error.not_available

/-- The source function `usable`. -/
def usable (input : Tensor α) : Except Error Bool :=
  sc_all [
    pure (decide (4 = input.ndimension)),
    pure (decide (DeviceType.Vulkan = input.device)),
    pure (decide (ScalarType.Float = input.scalar_type)),
    do pure (decide ((← input.size Layout.Activation4D.batch) ≥ 0)),
    do pure (decide ((← input.size Layout.Activation4D.channels) > 0)),
    do pure (decide ((← input.size Layout.Activation4D.height) > 0)),
    do pure (decide ((← input.size Layout.Activation4D.width) > 0)),
    pure (!input.requires_grad)]

/-! ## Kernel dispatch -/

/-- Modelled from the spec: `api::utils::safe_downcast<int32_t>` is not among
the sources; it is an overflow-checked narrowing conversion that fails on
truncation. -/
def safe_downcast (v : Int) : Except Error Int :=
  if -2147483648 ≤ v ∧ v ≤ 2147483647 then .ok v else .error .downcast_overflow

/-- The quotient `a / b` of C++ on `int64_t`: truncated, undefined for `b = 0`. -/
def int_div (a b : Int) : Except Error Int :=
  if b = 0 then .error .undefined else .ok (Int.tdiv a b)

/-- Modelled from the spec: `conv_output_size` of `ConvUtils.h` is not among
the sources; it is the standard convolution output-size formula, here for a
4-D input: batch of the input, output channels of the weight, and
`(in + 2 * padding - (dilation * (k - 1) + 1)) / stride + 1` per spatial axis. -/
def conv_output_size (input_size weight_size : List Nat) (padding stride dilation : List Int) :
    Except Error (List Int) := do
  let n ← at_index input_size 0
  let oc ← at_index weight_size 0
  let spatial := fun (d : Nat) => do
    let kernel : Int := (← at_index dilation (d - 2)) * (((← at_index weight_size d) : Int) - 1) + 1
    let num : Int := ((← at_index input_size d) : Int) + 2 * (← at_index padding (d - 2)) - kernel
    pure ((← int_div num (← at_index stride (d - 2))) + 1)
  pure [(n : Int), (oc : Int), ← spatial 2, ← spatial 3]

/-- The compute kernels named by `VK_KERNEL`. -/
inductive Kernel where
  | conv2d_dw
  | conv2d_pw
  | conv2d
  deriving DecidableEq, Repr

/-- The parameter block of a dispatch: its `int32_t` members and then its
`float` members, each in declaration order. -/
structure Block where
  ints : List Int
  floats : List FloatValue
  deriving DecidableEq, Repr

/-- One call of `context->dispatch`: the kernel, the work-group extents (the
sizes of the output tensor), the tensors bound and the parameter block. -/
structure Dispatch (α : Type) where
  kernel : Kernel
  extents : List Int
  v_input : vTensor α
  v_weight : vTensor α
  v_bias : vTensor α
  block : Block
  deriving DecidableEq, Repr

/-- The source function `conv2d_depthwise`; `images` is the value of
`v_output.has_image() && v_input.has_image() && v_weight.has_image()`, and the
result lists the dispatch calls issued. -/
def conv2d_depthwise (images : Bool) (v_output : List Int) (v_input v_weight v_bias : vTensor α)
    (filter stride padding dilation : List Int) (output_min output_max : FloatValue) :
    Except Error (List (Dispatch α)) := do
  if images then
    let block : Block := {
      ints := [
        ← safe_downcast (← at_index filter Layout.Filter.width),
        ← safe_downcast (← at_index filter Layout.Filter.height),
        ← safe_downcast (← at_index stride Layout.Parameter.width),
        ← safe_downcast (← at_index stride Layout.Parameter.height),
        ← safe_downcast (← at_index padding Layout.Parameter.width),
        ← safe_downcast (← at_index padding Layout.Parameter.height),
        ← safe_downcast (← at_index dilation Layout.Parameter.width),
        ← safe_downcast (← at_index dilation Layout.Parameter.height)]
      floats := [output_min, output_max] }
    pure [{ kernel := Kernel.conv2d_dw, extents := v_output, v_input := v_input,
            v_weight := v_weight, v_bias := v_bias, block := block }]
  else
    throw Error.not_implemented

/-- The source function `conv2d_pointwise`: the parameter block is built, and
the dispatch call is commented out in the source, so none is issued. -/
def conv2d_pointwise (images : Bool) (_v_output : List Int)
    (_v_input _v_weight _v_bias : vTensor α)
    (stride padding : List Int) (output_min output_max : FloatValue) :
    Except Error (List (Dispatch α)) := do
  if images then
    let _block : Block := {
      ints := [
        ← safe_downcast (← at_index stride Layout.Parameter.width),
        ← safe_downcast (← at_index stride Layout.Parameter.height),
        ← safe_downcast (← at_index padding Layout.Parameter.width),
        ← safe_downcast (← at_index padding Layout.Parameter.height)]
      floats := [output_min, output_max] }
    pure []
  else
    throw Error.not_implemented

/-- The source function `conv2d`. -/
def conv2d (images : Bool) (v_output : List Int) (v_input v_weight v_bias : vTensor α)
    (filter stride padding dilation : List Int) (output_min output_max : FloatValue) :
    Except Error (List (Dispatch α)) := do
  if images then
    let block : Block := {
      ints := [
        ← safe_downcast (← at_index filter Layout.Filter.width),
        ← safe_downcast (← at_index filter Layout.Filter.height),
        ← safe_downcast (← at_index filter Layout.Filter.input),
        ← safe_downcast (← at_index filter Layout.Filter.output),
        ← safe_downcast (← at_index stride Layout.Parameter.width),
        ← safe_downcast (← at_index stride Layout.Parameter.height),
        ← safe_downcast (← at_index padding Layout.Parameter.width),
        ← safe_downcast (← at_index padding Layout.Parameter.height),
        ← safe_downcast (← at_index dilation Layout.Parameter.width),
        ← safe_downcast (← at_index dilation Layout.Parameter.height)]
      floats := [output_min, output_max] }
    pure [{ kernel := Kernel.conv2d, extents := v_output, v_input := v_input,
            v_weight := v_weight, v_bias := v_bias, block := block }]
  else
    throw Error.not_implemented

/-- What a successful `Context::run` leaves behind: the sizes of the output
tensor it allocated and the dispatch calls it submitted. -/
structure RunResult (α : Type) where
  output_sizes : List Int
  dispatched : List (Dispatch α)
  deriving DecidableEq, Repr

/-- The member function `Context::run`; `images` as in `conv2d_depthwise`. -/
def Context.run (self : Context α) (images : Bool) (input_arg : Tensor α) :
    Except Error (RunResult α) := do
  let input := if input_arg.is_vulkan then input_arg else input_arg.vulkan
  let v_input := convert input
  if (← usable input) then
    let v_output ← conv_output_size v_input.sizes self.unpacked_.filter
      self.packed_.padding self.packed_.stride self.packed_.dilation
    let dispatched ←
      if (← is_depthwise self.unpacked_.filter self.packed_.groups) then
        conv2d_depthwise images v_output v_input self.packed_.v_weight self.packed_.v_bias
          self.packed_.filter self.packed_.stride self.packed_.padding self.packed_.dilation
          self.packed_.output_min self.packed_.output_max
      else if (← is_pointwise self.unpacked_.filter) then
        conv2d_pointwise images v_output v_input self.packed_.v_weight self.packed_.v_bias
          self.packed_.stride self.packed_.padding
          self.packed_.output_min self.packed_.output_max
      else
        conv2d images v_output v_input self.packed_.v_weight self.packed_.v_bias
          self.packed_.filter self.packed_.stride self.packed_.padding self.packed_.dilation
          self.packed_.output_min self.packed_.output_max
    pure { output_sizes := v_output, dispatched := dispatched }
  else
    throw Error.not_usable

/-- The tuple type `Context::State`. -/
abbrev State (α : Type) :=
  Tensor α × Option (Tensor α) × List Int × List Int × List Int × Int ×
    Option Scalar × Option Scalar

/-- The member function `Context::unpack`. -/
def Context.unpack (self : Context α) : State α :=
  (self.unpacked_.weight, self.unpacked_.bias, self.unpacked_.stride,
    self.unpacked_.padding, self.unpacked_.dilation, self.unpacked_.groups,
    self.unpacked_.output_min, self.unpacked_.output_max)

/-- A call of one of the two public member functions of a context. -/
inductive Call (α : Type) where
  | run (images : Bool) (input : Tensor α)
  | unpack

/-- What a member call hands back to its caller. -/
inductive Reply (α : Type) where
  | ran (result : Except Error (RunResult α))
  | unpacked (state : State α)

/-- One member call on a context object, in state-passing form: the reply and
the object after the call.  Both member functions are declared `const` in the
class, so the object is handed on as it was received. -/
def Context.call (self : Context α) : Call α → Reply α × Context α
  | .run images input => (.ran (self.run images input), self)
  | .unpack => (.unpacked self.unpack, self)

/-- The object left by a sequence of member calls. -/
def Context.calls (self : Context α) : List (Call α) → Context α
  | [] => self
  | c :: cs => Context.calls (self.call c).2 cs

/-- The source function `conv2_clamp_prepack`; `pool` is `persistent()->pool`. -/
def conv2_clamp_prepack [Zero α] (api_available : Bool) (pool : Pool α) (weight : Tensor α)
    (bias : Option (Tensor α)) (stride padding dilation : List Int) (groups : Int)
    (output_min _output_max : Option Scalar) : Except Error (Context α) :=
  Context.create api_available pool weight bias stride padding dilation
    false [] groups output_min output_min

/-- The source function `conv2d_clamp_run`. -/
def conv2d_clamp_run (images : Bool) (input : Tensor α) (context : Context α) :
    Except Error (RunResult α) :=
  context.run images input

/-- The source function `convolution`; the clamp bounds take their default
`c10::nullopt`. -/
def convolution [Zero α] (api_available images : Bool) (pool : Pool α) (input weight : Tensor α)
    (bias : Option (Tensor α)) (stride padding dilation : List Int) (transposed : Bool)
    (output_padding : List Int) (groups : Int) : Except Error (RunResult α) := do
  let context ← Context.create api_available pool weight bias stride padding dilation
    transposed output_padding groups none none
  context.run images input

/-! ## Serialization hooks -/

/-- The `__getstate__` hook registered by `def_pickle`: `context->unpack()`. -/
def getstate (context : Context α) : State α := context.unpack

/-- The `__setstate__` hook registered by `def_pickle`: `conv2_clamp_prepack`
applied to the eight entries of the state, in order. -/
def setstate [Zero α] (api_available : Bool) (pool : Pool α) (state : State α) :
    Except Error (Context α) :=
  conv2_clamp_prepack api_available pool state.1 state.2.1 state.2.2.1 state.2.2.2.1
    state.2.2.2.2.1 state.2.2.2.2.2.1 state.2.2.2.2.2.2.1 state.2.2.2.2.2.2.2

/-! ## The documented validation clauses -/

/-- The clauses that the specification lists for `available`, written after
its words, for stride (sh, sw), padding (ph, pw) and dilation (dh, dw):
backend present; weight 4-D with positive height, width, input and output
channel counts, float32, on CPU or Vulkan; a defined bias 1-D of length
output_channels, on CPU or Vulkan, float32 and not combined with transposed;
stride and dilation components positive, padding components non-negative;
groups positive and dividing output_channels; output_min and output_max
floating-point when given. -/
def available_spec (api_available : Bool) (weight : Tensor α) (bias : Option (Tensor α))
    (sh sw ph pw dh dw : Int) (transposed : Bool) (groups : Int)
    (output_min output_max : Option Scalar) : Prop :=
  api_available = true ∧
  (∃ OC IC KH KW : Nat, weight.sizes = [OC, IC, KH, KW] ∧
    0 < KH ∧ 0 < KW ∧ 0 < IC ∧ 0 < OC ∧ (OC : Int) % groups = 0 ∧
    ∀ b : Tensor α, bias = some b → b.defined = true →
      b.sizes = [OC] ∧ (b.device = DeviceType.CPU ∨ b.device = DeviceType.Vulkan) ∧
      b.scalar_type = ScalarType.Float ∧ transposed = false) ∧
  (weight.device = DeviceType.CPU ∨ weight.device = DeviceType.Vulkan) ∧
  weight.scalar_type = ScalarType.Float ∧
  0 < sh ∧ 0 < sw ∧ 0 ≤ ph ∧ 0 ≤ pw ∧ 0 < dh ∧ 0 < dw ∧ 0 < groups ∧
  (∀ s : Scalar, output_min = some s → s.isFloatingPoint = true) ∧
  (∀ s : Scalar, output_max = some s → s.isFloatingPoint = true)

/-! ## The documented usability clauses -/

/-- The clauses that the specification lists for `usable`, written after its
words: the input is 4-D, resident on the Vulkan device, float32, has batch ≥ 0
and channels, height and width > 0, and does not require gradients. -/
def usable_spec (input : Tensor α) : Prop :=
  (∃ N C H W : Nat, input.sizes = [N, C, H, W] ∧ 0 ≤ N ∧ 0 < C ∧ 0 < H ∧ 0 < W) ∧
  input.device = DeviceType.Vulkan ∧
  input.scalar_type = ScalarType.Float ∧
  input.requires_grad = false

/-- The values an `int32_t` can hold. -/
def fits_int32 (v : Int) : Prop := -2147483648 ≤ v ∧ v ≤ 2147483647

instance (v : Int) : Decidable (fits_int32 v) := by
  unfold fits_int32
  infer_instance

/-- The values an `int64_t` can hold. -/
def fits_int64 (v : Int) : Prop := -9223372036854775808 ≤ v ∧ v ≤ 9223372036854775807

instance (v : Int) : Decidable (fits_int64 v) := by
  unfold fits_int64
  infer_instance

/-! ## Concrete inputs -/

deriving instance DecidableEq for Except

/-- A defined, host-resident float tensor of the given sizes and elements. -/
def host_tensor (sizes : List Nat) (data : List Nat) : Tensor Nat :=
  { defined := true, sizes := sizes, device := DeviceType.CPU, scalar_type := ScalarType.Float,
    requires_grad := false, data := data }

/-- A pool whose memory holds the value `v` everywhere before it is written. -/
def stale_pool (v : Nat) : Pool Nat := { fresh := fun _ _ => v }

/-! ## Auxiliary facts -/

theorem ok_bind {ε β γ : Type} (a : β) (f : β → Except ε γ) :
    ((Except.ok a : Except ε β) >>= f) = f a := rfl

theorem error_bind {ε β γ : Type} (e : ε) (f : β → Except ε γ) :
    ((Except.error e : Except ε β) >>= f) = Except.error e := rfl

theorem at_index_zero {β : Type} (a : β) (l : List β) : at_index (a :: l) 0 = .ok a := by
  simp [at_index]

theorem at_index_one {β : Type} (a b : β) (l : List β) : at_index (a :: b :: l) 1 = .ok b := by
  simp [at_index]

theorem at_index_two {β : Type} (a b c : β) (l : List β) :
    at_index (a :: b :: c :: l) 2 = .ok c := by
  simp [at_index]

theorem at_index_three {β : Type} (a b c d : β) (l : List β) :
    at_index (a :: b :: c :: d :: l) 3 = .ok d := by
  simp [at_index]

theorem numel_four (a b c d : Nat) : numel [a, b, c, d] = a * b * c * d := by
  simp [numel, Nat.mul_assoc]

theorem numel_one (a : Nat) : numel [a] = a := by
  simp [numel]

theorem of_mem_eq (sizes : List Nat) (mem : Mem α) (l : List α)
    (hl : l.length = numel sizes)
    (h : ∀ (i : Nat) (hi : i < l.length), mem (i : Int) = l[i]) :
    vTensor.of_mem sizes mem = { sizes := sizes, data := l } := by
  unfold vTensor.of_mem
  congr 1
  apply List.ext_getElem
  · simp [hl]
  · intro i h1 h2
    simp only [List.getElem_map, List.getElem_range]
    exact h i h2

theorem of_mem_sizes (sizes : List Nat) (mem : Mem α) :
    (vTensor.of_mem sizes mem).sizes = sizes := rfl

theorem of_mem_length (sizes : List Nat) (mem : Mem α) :
    (vTensor.of_mem sizes mem).data.length = numel sizes := by
  simp [vTensor.of_mem]

theorem of_mem_get (sizes : List Nat) (mem : Mem α) (i : Nat) (hi : i < numel sizes) :
    (vTensor.of_mem sizes mem).data[i]? = some (mem (i : Int)) := by
  simp [vTensor.of_mem, List.getElem?_map, List.getElem?_range hi]

theorem data_ptr_cast [Zero α] (t : Tensor α) (i : Nat) (hi : i < t.data.length) :
    t.data_ptr (i : Int) = t.data[i] := by
  simp [Tensor.data_ptr, List.getD_eq_getElem?_getD, List.getElem?_eq_getElem hi]

theorem memcpy_zero_cast (dst src : Mem α) (n i : Nat) (hi : i < n) :
    memcpy dst 0 src 0 n (i : Int) = src (i : Int) := by
  simp [memcpy, hi]

theorem memset_zero_cast [Zero α] (dst : Mem α) (n i : Nat) (hi : i < n) :
    memset dst 0 n (i : Int) = 0 := by
  simp [memset, hi]

/-- The general path up to the bulk copy, on a 4-D weight, as one expression. -/
theorem pack_weights_general_bulk_eq [Zero α] (pool : Pool α) (w : Tensor α)
    (OC IC KH KW : Nat) (h : w.sizes = [OC, IC, KH, KW]) :
    pack_weights_general_bulk pool w = .ok ([div_up OC 4, 4 * IC, KH, KW],
      for_loop OC (fun src_oc mem =>
        for_loop IC (fun src_ic mem =>
          memcpy mem
            ((src_oc : Int) / 4 * ((KH * KW * (4 * IC) : Nat) : Int) +
              4 * (src_ic : Int) * ((KH * KW : Nat) : Int))
            w.data_ptr
            ((src_oc : Int) * ((KH * KW * IC : Nat) : Int) +
              (src_ic : Int) * ((KH * KW : Nat) : Int))
            (KH * KW)) mem)
        (pool.fresh [div_up OC 4, 4 * IC, KH, KW])) := by
  simp only [pack_weights_general_bulk, pack_weights_bulk, h, at_index_zero, at_index_one,
    at_index_two, at_index_three, Layout.Filter.output, Layout.Filter.input,
    Layout.Filter.height, Layout.Filter.width, bind, Except.bind, pure, Except.pure, if_true]

/-- The general path on a 4-D weight, as one expression: the buffer is read
off the memory left by the four `memset` calls applied after the bulk copy. -/
theorem pack_weights_general_eq [Zero α] (pool : Pool α) (w : Tensor α)
    (OC IC KH KW : Nat) (h : w.sizes = [OC, IC, KH, KW]) :
    pack_weights_general pool w = .ok (vTensor.of_mem [div_up OC 4, 4 * IC, KH, KW]
      (for_loop 4 (fun rem_oc mem =>
        memset mem
          ((((div_up OC 4 : Nat) : Int) - 1) * ((KH * KW * (4 * IC) : Nat) : Int) +
            ((IC % 4 : Nat) : Int) * ((KH * KW : Nat) : Int) +
            (rem_oc : Int) * (4 * ((KH * KW : Nat) : Int)))
          (4 - IC % 4))
        (for_loop OC (fun src_oc mem =>
          for_loop IC (fun src_ic mem =>
            memcpy mem
              ((src_oc : Int) / 4 * ((KH * KW * (4 * IC) : Nat) : Int) +
                4 * (src_ic : Int) * ((KH * KW : Nat) : Int))
              w.data_ptr
              ((src_oc : Int) * ((KH * KW * IC : Nat) : Int) +
                (src_ic : Int) * ((KH * KW : Nat) : Int))
              (KH * KW)) mem)
          (pool.fresh [div_up OC 4, 4 * IC, KH, KW])))) := by
  simp only [pack_weights_general, pack_weights_general_bulk, pack_weights_bulk,
    pack_weights_remainder, h, at_index_zero, at_index_one, at_index_two, at_index_three,
    Layout.Filter.output, Layout.Filter.input, Layout.Filter.height, Layout.Filter.width,
    bind, Except.bind, pure, Except.pure, if_true]

/-- On a host-resident 4-D weight whose output channels differ from `groups`,
`pack_weights` is its general path. -/
theorem pack_weights_eq_general [Zero α] (pool : Pool α) (w : Tensor α) (groups : Int)
    (OC IC KH KW : Nat) (hdev : w.device = DeviceType.CPU) (h : w.sizes = [OC, IC, KH, KW])
    (hg : (OC : Int) ≠ groups) :
    pack_weights pool w groups = pack_weights_general pool w := by
  simp [pack_weights, Tensor.is_vulkan, hdev, is_depthwise, h, at_index_zero,
    Layout.Filter.output, hg, Tensor.contiguous, bind, Except.bind, pure, Except.pure]

theorem div_up_four_le_iff (n m : Nat) : div_up n 4 ≤ m ↔ n ≤ 4 * m := by
  unfold div_up
  omega

/-! ## Packing: theorems -/

/-- C1, the code at a failing input: two host weights of shape (2,5,1,1) that
differ in every element of output channel 0 are packed, with groups 1 and from
any prior contents of the destination, to the same buffer: the bulk copy
writes both output channels of the tile to the same slots, so channel 0 is
overwritten by channel 1 and cannot be recovered from the packed buffer. -/
theorem pack_weights_overwrites_channel :
    host_tensor [2, 5, 1, 1] [1, 2, 3, 4, 5, 6, 7, 8, 9, 10] ≠
      host_tensor [2, 5, 1, 1] [11, 12, 13, 14, 15, 6, 7, 8, 9, 10] ∧
    ∀ pool : Pool Nat,
      pack_weights pool (host_tensor [2, 5, 1, 1] [1, 2, 3, 4, 5, 6, 7, 8, 9, 10]) 1 =
        pack_weights pool (host_tensor [2, 5, 1, 1] [11, 12, 13, 14, 15, 6, 7, 8, 9, 10]) 1 := by
  refine ⟨by decide, fun pool => ?_⟩
  simp [pack_weights, pack_weights_general, pack_weights_general_bulk, pack_weights_bulk,
    pack_weights_remainder, host_tensor, Tensor.is_vulkan, Tensor.contiguous, is_depthwise,
    at_index, Layout.Filter.output, Layout.Filter.input, Layout.Filter.height,
    Layout.Filter.width, bind, Except.bind, pure, Except.pure, div_up, vTensor.of_mem, numel,
    List.range, List.range.loop, for_loop, memcpy, memset, Tensor.data_ptr]

/-- C2: on a host-resident weight of shape (OC, IC, KH, KW) holding its
OC*IC*KH*KW elements, with output_channels equal to groups, `pack_weights`
returns a buffer of exactly the source sizes whose elements are the source
elements in the same order. -/
theorem pack_weights_depthwise_verbatim [Zero α] (pool : Pool α) (w : Tensor α) (groups : Int)
    (OC IC KH KW : Nat) (hdev : w.device = DeviceType.CPU) (h : w.sizes = [OC, IC, KH, KW])
    (hg : (OC : Int) = groups) (hlen : w.data.length = OC * IC * KH * KW) :
    pack_weights pool w groups = .ok { sizes := w.sizes, data := w.data } := by
  have hn : w.data.length = numel w.sizes := by rw [h, numel_four, hlen]
  simp only [pack_weights, Tensor.is_vulkan, hdev, is_depthwise, h, at_index_zero,
    Layout.Filter.output, hg, Tensor.contiguous, bind, Except.bind, pure, Except.pure]
  simp only [decide_True, if_true, min_self]
  rw [← h]
  rw [of_mem_eq w.sizes _ w.data hn]
  · simp
  · intro i hi
    rw [memcpy_zero_cast _ _ _ _ (by omega), data_ptr_cast _ _ hi]

/-- Witness of C2: the depthwise weight of shape (7,1,1,1) with groups 7. -/
theorem pack_weights_depthwise_verbatim_witness :
    pack_weights (stale_pool 9) (host_tensor [7, 1, 1, 1] [1, 2, 3, 4, 5, 6, 7]) 7 =
      .ok { sizes := [7, 1, 1, 1], data := [1, 2, 3, 4, 5, 6, 7] } :=
  pack_weights_depthwise_verbatim (stale_pool 9) (host_tensor [7, 1, 1, 1] [1, 2, 3, 4, 5, 6, 7])
    7 7 1 1 1 rfl rfl (by decide) (by decide)

/-- C3, the code at a failing input: for the host weight of shape (2,5,1,1)
with groups 1 (output channels not a multiple of 4), the packed buffer keeps,
at the slots of the missing lanes 2 and 3 of input channel 4 (indices 18 and
19 of the only tile), whatever the destination memory held before: neither the
bulk copy nor the zero-fill writes them, so they are not 0 when that memory
was not. -/
theorem pack_weights_missing_lane_stale :
    ∀ pool : Pool Nat,
      (pack_weights pool (host_tensor [2, 5, 1, 1] [1, 2, 3, 4, 5, 6, 7, 8, 9, 10]) 1).map
          (fun v => (v.sizes, v.data[18]?, v.data[19]?)) =
        .ok ([1, 20, 1, 1], some (pool.fresh [1, 20, 1, 1] 18),
          some (pool.fresh [1, 20, 1, 1] 19)) := by
  intro pool
  simp [pack_weights, pack_weights_general, pack_weights_general_bulk, pack_weights_bulk,
    pack_weights_remainder, host_tensor, Tensor.is_vulkan, Tensor.contiguous, is_depthwise,
    at_index, Layout.Filter.output, Layout.Filter.input, Layout.Filter.height,
    Layout.Filter.width, bind, Except.bind, pure, Except.pure, div_up, vTensor.of_mem, numel,
    List.range, List.range.loop, for_loop, memcpy, memset, Tensor.data_ptr, Except.map]

/-- C4, the code at a failing input: for the host weight of shape (2,4,3,3)
with every element 1 and groups 1 (input channels a multiple of 4), the bulk
copy leaves 1 in the first four elements of the packed buffer and the
remainder step then sets them to 0: with `input_channels % 4 == 0` each of
its four `memset` calls still clears `4 - 0` floats, so the zero-fill alters
elements that the bulk copy wrote. -/
theorem pack_weights_zero_fill_alters_bulk :
    ∀ pool : Pool Nat,
      (pack_weights_general_bulk pool (host_tensor [2, 4, 3, 3] (List.replicate 72 1))).map
          (fun r => (r.2 0, r.2 1, r.2 2, r.2 3)) = .ok (1, 1, 1, 1) ∧
      (pack_weights pool (host_tensor [2, 4, 3, 3] (List.replicate 72 1)) 1).map
          (fun v => (v.sizes, v.data.take 4)) = .ok ([1, 16, 3, 3], [0, 0, 0, 0]) := by
  intro pool
  constructor
  · simp [pack_weights_general_bulk, pack_weights_bulk, host_tensor, at_index,
      Layout.Filter.output, Layout.Filter.input, Layout.Filter.height, Layout.Filter.width,
      bind, Except.bind, pure, Except.pure, div_up, for_loop, memcpy, Tensor.data_ptr,
      Except.map]
  · rw [pack_weights_eq_general pool _ 1 2 4 3 3 rfl rfl (by decide),
      pack_weights_general_eq pool _ 2 4 3 3 rfl]
    simp [vTensor.of_mem, numel, List.range, List.range.loop, for_loop, memset, Except.map,
      div_up]

/-- C5: on a host-resident weight of shape (OC, IC, KH, KW) whose output
channels differ from groups, `pack_weights` succeeds with a buffer of sizes
(div_up OC 4, 4*IC, KH, KW) that has exactly div_up OC 4 * 4 * IC * KH * KW
elements, where div_up OC 4 is the ceiling of OC/4 (the least n with
OC ≤ 4*n). -/
theorem pack_weights_general_shape [Zero α] (pool : Pool α) (w : Tensor α) (groups : Int)
    (OC IC KH KW : Nat) (hdev : w.device = DeviceType.CPU) (h : w.sizes = [OC, IC, KH, KW])
    (hg : (OC : Int) ≠ groups) :
    ∃ v : vTensor α, pack_weights pool w groups = .ok v ∧
      v.sizes = [div_up OC 4, 4 * IC, KH, KW] ∧
      v.data.length = div_up OC 4 * 4 * IC * KH * KW ∧
      (∀ n : Nat, div_up OC 4 ≤ n ↔ OC ≤ 4 * n) := by
  rw [pack_weights_eq_general pool w groups OC IC KH KW hdev h hg,
    pack_weights_general_eq pool w OC IC KH KW h]
  refine ⟨_, rfl, of_mem_sizes _ _, ?_, div_up_four_le_iff OC⟩
  rw [of_mem_length, numel_four]
  simp [Nat.mul_assoc]

/-- Witness of C5: the weight of shape (2,4,3,3) with groups 1 is packed into
a buffer of sizes (1,16,3,3) with 144 elements. -/
theorem pack_weights_general_shape_witness :
    ∃ v : vTensor Nat,
      pack_weights (stale_pool 7) (host_tensor [2, 4, 3, 3] (List.replicate 72 1)) 1 = .ok v ∧
      v.sizes = [div_up 2 4, 4 * 4, 3, 3] ∧
      v.data.length = div_up 2 4 * 4 * 4 * 3 * 3 ∧
      (∀ n : Nat, div_up 2 4 ≤ n ↔ 2 ≤ 4 * n) :=
  pack_weights_general_shape (stale_pool 7) (host_tensor [2, 4, 3, 3] (List.replicate 72 1)) 1
    2 4 3 3 rfl rfl (by decide)

/-- C6: for a weight of shape (OC, IC, KH, KW), `pack_biases` returns, for no
bias and for every host-resident bias whatever its sizes, a 1-D buffer of
sizes (OC) holding exactly OC elements: all zeros when no bias is supplied;
with a bias, element i is element i of the bias as far as the bias reaches
(and the rest is what the new buffer held), so that a bias of length OC is
returned element for element; hence a host-resident all-zero bias of length
OC packs to the same buffer as no bias. -/
theorem pack_biases_host [Zero α] (pool : Pool α) (w : Tensor α) (OC IC KH KW : Nat)
    (h : w.sizes = [OC, IC, KH, KW]) :
    pack_biases pool none w = .ok { sizes := [OC], data := List.replicate OC 0 } ∧
    (∀ b : Tensor α, b.device = DeviceType.CPU →
      ∃ v : vTensor α, pack_biases pool (some b) w = .ok v ∧ v.sizes = [OC] ∧
        v.data.length = OC ∧
        ∀ i : Nat, i < OC → v.data[i]? =
          some (if i < numel b.sizes then b.data_ptr (i : Int)
            else pool.fresh [OC] (i : Int))) ∧
    (∀ b : Tensor α, b.device = DeviceType.CPU → b.sizes = [OC] → b.data.length = OC →
      pack_biases pool (some b) w = .ok { sizes := [OC], data := b.data }) ∧
    (∀ b : Tensor α, b.device = DeviceType.CPU → b.sizes = [OC] →
      b.data = List.replicate OC 0 →
      pack_biases pool (some b) w = pack_biases pool none w) := by
  have hnone : pack_biases pool none w =
      .ok { sizes := [OC], data := List.replicate OC 0 } := by
    simp only [pack_biases, Tensor.size, h, Layout.Filter.output, bind, Except.bind, pure,
      Except.pure, List.getElem?_cons_zero]
    rw [of_mem_eq [OC] _ (List.replicate OC 0) (by simp [numel_one])]
    intro i hi
    rw [numel_one, memset_zero_cast _ _ _ (by simpa using hi)]
    simp
  have hany : ∀ b : Tensor α, b.device = DeviceType.CPU →
      pack_biases pool (some b) w = .ok (vTensor.of_mem [OC]
        (memcpy (pool.fresh [OC]) 0 b.data_ptr 0 (min (numel b.sizes) (numel [OC])))) := by
    intro b hdev
    simp only [pack_biases, Tensor.is_vulkan, hdev, Tensor.size, h, Layout.Filter.output, bind,
      Except.bind, pure, Except.pure, List.getElem?_cons_zero, Tensor.contiguous]
    simp only [beq_iff_eq, reduceCtorEq, if_false]
  have hsome : ∀ b : Tensor α, b.device = DeviceType.CPU → b.sizes = [OC] →
      b.data.length = OC →
      pack_biases pool (some b) w = .ok { sizes := [OC], data := b.data } := by
    intro b hdev hs hlen
    rw [hany b hdev, hs, min_self]
    rw [of_mem_eq [OC] _ b.data (by simp [numel_one, hlen])]
    intro i hi
    rw [numel_one, memcpy_zero_cast _ _ _ _ (by omega), data_ptr_cast _ _ hi]
  refine ⟨hnone, ?_, hsome, ?_⟩
  · intro b hdev
    refine ⟨_, hany b hdev, of_mem_sizes _ _, ?_, ?_⟩
    · rw [of_mem_length, numel_one]
    · intro i hi
      rw [of_mem_get _ _ i (by rw [numel_one]; exact hi), numel_one]
      congr 1
      by_cases hb : i < numel b.sizes
      · rw [if_pos hb, memcpy_zero_cast _ _ _ _ (lt_min hb hi)]
      · rw [if_neg hb]
        have hlt : ¬ ((0 : Int) ≤ (i : Int) ∧
            (i : Int) < 0 + ((min (numel b.sizes) OC : Nat) : Int)) := by
          rintro ⟨-, h2⟩
          have h3 : min (numel b.sizes) OC ≤ numel b.sizes := min_le_left _ _
          omega
        simp only [memcpy, hlt, if_false]
  · intro b hdev hs hdata
    rw [hnone, hsome b hdev hs (by simp [hdata]), hdata]

/-- Witness of C6: for the weight of shape (2,4,3,3), no bias packs to
[0, 0], the host bias [3, 4] packs to [3, 4], and the host bias [5] of sizes
(1) packs to a buffer of sizes (2) with two elements. -/
theorem pack_biases_host_witness :
    pack_biases (stale_pool 7) none (host_tensor [2, 4, 3, 3] (List.replicate 72 1)) =
        .ok { sizes := [2], data := List.replicate 2 0 } ∧
      pack_biases (stale_pool 7) (some (host_tensor [2] [3, 4]))
          (host_tensor [2, 4, 3, 3] (List.replicate 72 1)) =
        .ok { sizes := [2], data := [3, 4] } ∧
      (∃ v : vTensor Nat, pack_biases (stale_pool 7) (some (host_tensor [1] [5]))
          (host_tensor [2, 4, 3, 3] (List.replicate 72 1)) = .ok v ∧ v.sizes = [2] ∧
        v.data.length = 2) :=
  ⟨(pack_biases_host (stale_pool 7) (host_tensor [2, 4, 3, 3] (List.replicate 72 1))
      2 4 3 3 rfl).1,
    (pack_biases_host (stale_pool 7) (host_tensor [2, 4, 3, 3] (List.replicate 72 1))
      2 4 3 3 rfl).2.2.1 (host_tensor [2] [3, 4]) rfl rfl rfl,
    ((pack_biases_host (stale_pool 7) (host_tensor [2, 4, 3, 3] (List.replicate 72 1))
      2 4 3 3 rfl).2.1 (host_tensor [1] [5]) rfl).elim
      fun v hv => ⟨v, hv.1, hv.2.1, hv.2.2.1⟩⟩

theorem wrap_int64_of_fits (v : Int) (h : fits_int64 v) : wrap_int64 v = v := by
  unfold fits_int64 at h
  unfold wrap_int64
  omega

theorem wrap_int64_fits (v : Int) : fits_int64 (wrap_int64 v) := by
  unfold fits_int64 wrap_int64
  omega

theorem fits_int64_of_fits_int32 (v : Int) (h : fits_int32 v) : fits_int64 v := by
  unfold fits_int32 at h
  unfold fits_int64
  omega

theorem wrap_int64_eq_sub (v : Int) :
    wrap_int64 v =
      v - 18446744073709551616 * ((v + 9223372036854775808) / 18446744073709551616) := by
  unfold wrap_int64
  omega

theorem wrap_int64_sub_mul (v q : Int) :
    wrap_int64 (v - 18446744073709551616 * q) = wrap_int64 v := by
  unfold wrap_int64
  omega

/-- Arithmetic on `int64_t` is arithmetic modulo 2^64: wrapping after each
operation of `k + (k - 1) * (d - 1)` gives the same value as wrapping the
exact result once. -/
theorem wrap_int64_effective (k d : Int) :
    wrap_int64 (k + wrap_int64 (wrap_int64 (k - 1) * wrap_int64 (d - 1))) =
      wrap_int64 (k + (k - 1) * (d - 1)) := by
  have h1 := wrap_int64_eq_sub (k - 1)
  have h2 := wrap_int64_eq_sub (d - 1)
  generalize (k - 1 + 9223372036854775808) / 18446744073709551616 = q1 at h1
  generalize (d - 1 + 9223372036854775808) / 18446744073709551616 = q2 at h2
  have h3 : wrap_int64 (k - 1) * wrap_int64 (d - 1) =
      (k - 1) * (d - 1) - 18446744073709551616 *
        (q1 * (d - 1) + q2 * (k - 1) - 18446744073709551616 * (q1 * q2)) := by
    rw [h1, h2]
    ring
  rw [h3, wrap_int64_sub_mul]
  have h4 := wrap_int64_eq_sub ((k - 1) * (d - 1))
  generalize ((k - 1) * (d - 1) + 9223372036854775808) / 18446744073709551616 = q3 at h4
  have h5 : k + wrap_int64 ((k - 1) * (d - 1)) =
      k + (k - 1) * (d - 1) - 18446744073709551616 * q3 := by
    rw [h4]
    ring
  rw [h5, wrap_int64_sub_mul]

/-- The value of `pack_filter` on a 4-D weight and a dilation pair: the
kernel entries are the `int64_t` values of `k + (k - 1) * (d - 1)`. -/
theorem pack_filter_eq (w : Tensor α) (OC IC KH KW : Nat) (dh dw : Int)
    (h : w.sizes = [OC, IC, KH, KW]) :
    pack_filter w [dh, dw] = .ok [((align_up OC 4 : Nat) : Int), (IC : Int),
      wrap_int64 ((KH : Int) + ((KH : Int) - 1) * (dh - 1)),
      wrap_int64 ((KW : Int) + ((KW : Int) - 1) * (dw - 1))] := by
  simp only [pack_filter, h, at_index_zero, at_index_one, at_index_two, at_index_three,
    Layout.Filter.output, Layout.Filter.input, Layout.Filter.height, Layout.Filter.width,
    Layout.Parameter.height, Layout.Parameter.width, ok_bind, wrap_int64_effective]
  rfl

/-- The value of `pack_filter` when the dilation-expanded kernel sizes are
representable in `int64_t`. -/
theorem pack_filter_eq_of_fits (w : Tensor α) (OC IC KH KW : Nat) (dh dw : Int)
    (h : w.sizes = [OC, IC, KH, KW])
    (fh : fits_int64 ((KH : Int) + ((KH : Int) - 1) * (dh - 1)))
    (fw : fits_int64 ((KW : Int) + ((KW : Int) - 1) * (dw - 1))) :
    pack_filter w [dh, dw] = .ok [((align_up OC 4 : Nat) : Int), (IC : Int),
      (KH : Int) + ((KH : Int) - 1) * (dh - 1), (KW : Int) + ((KW : Int) - 1) * (dw - 1)] := by
  rw [pack_filter_eq w OC IC KH KW dh dw h, wrap_int64_of_fits _ fh, wrap_int64_of_fits _ fw]

theorem align_up_four_spec (n : Nat) :
    4 ∣ align_up n 4 ∧ n ≤ align_up n 4 ∧ ∀ m : Nat, 4 ∣ m → n ≤ m → align_up n 4 ≤ m := by
  unfold align_up
  refine ⟨Dvd.intro_left _ rfl, by omega, ?_⟩
  rintro m ⟨k, rfl⟩ hk
  omega

/-- C7: for a weight of shape (OC, IC, KH, KW) and dilation (dh, dw),
`pack_filter` returns (M, IC, EKH, EKW) where M = align_up OC 4 is the
smallest multiple of 4 that is at least OC and EKH, EKW are the `int64_t`
values of KH + (KH-1)*(dh-1) and KW + (KW-1)*(dw-1): those numbers themselves
whenever they are representable in `int64_t`; with dilation (1, 1) the kernel
entries are KH and KW. -/
theorem pack_filter_value (w : Tensor α) (OC IC KH KW : Nat) (dh dw : Int)
    (h : w.sizes = [OC, IC, KH, KW]) :
    pack_filter w [dh, dw] = .ok [((align_up OC 4 : Nat) : Int), (IC : Int),
      wrap_int64 ((KH : Int) + ((KH : Int) - 1) * (dh - 1)),
      wrap_int64 ((KW : Int) + ((KW : Int) - 1) * (dw - 1))] ∧
    (fits_int64 ((KH : Int) + ((KH : Int) - 1) * (dh - 1)) →
      fits_int64 ((KW : Int) + ((KW : Int) - 1) * (dw - 1)) →
      pack_filter w [dh, dw] = .ok [((align_up OC 4 : Nat) : Int), (IC : Int),
        (KH : Int) + ((KH : Int) - 1) * (dh - 1), (KW : Int) + ((KW : Int) - 1) * (dw - 1)]) ∧
    (4 ∣ align_up OC 4 ∧ OC ≤ align_up OC 4 ∧
      ∀ m : Nat, 4 ∣ m → OC ≤ m → align_up OC 4 ≤ m) ∧
    (fits_int64 (KH : Int) → fits_int64 (KW : Int) →
      pack_filter w [1, 1] = .ok [((align_up OC 4 : Nat) : Int), (IC : Int), (KH : Int),
        (KW : Int)]) := by
  refine ⟨pack_filter_eq w OC IC KH KW dh dw h, pack_filter_eq_of_fits w OC IC KH KW dh dw h,
    align_up_four_spec OC, ?_⟩
  intro fh fw
  have e1 : (KH : Int) + ((KH : Int) - 1) * (1 - 1) = (KH : Int) := by ring
  have e2 : (KW : Int) + ((KW : Int) - 1) * (1 - 1) = (KW : Int) := by ring
  rw [pack_filter_eq w OC IC KH KW 1 1 h, e1, e2, wrap_int64_of_fits _ fh,
    wrap_int64_of_fits _ fw]

/-- Witness of C7: the weight of shape (7,1,17,7) with dilation (1,2) has the
packed filter (8, 1, 17, 13); with the dilation height 2^62, which
`available` accepts, the weight (1,1,3,3) has the exact kernel height
2^63 + 1, which `int64_t` does not hold, and the entry is its wrapped
value. -/
theorem pack_filter_value_witness :
    pack_filter (host_tensor [7, 1, 17, 7] []) [1, 2] = .ok [8, 1, 17, 13] ∧
    pack_filter (host_tensor [1, 1, 3, 3] []) [4611686018427387904, 1] =
      .ok [4, 1, -9223372036854775807, 3] :=
  ⟨(pack_filter_value (host_tensor [7, 1, 17, 7] []) 7 1 17 7 1 2 rfl).2.1 (by decide)
      (by decide),
    (pack_filter_value (host_tensor [1, 1, 3, 3] []) 1 1 3 3 4611686018427387904 1 rfl).1.trans
      (by decide)⟩

/-! ## Validation: auxiliary facts -/

theorem sc_all_nil : sc_all [] = .ok true := rfl

theorem sc_all_cons_ok (b : Bool) (cs : List (Except Error Bool)) :
    sc_all (Except.ok b :: cs) = if b then sc_all cs else .ok false := by
  cases b <;> rfl

theorem sc_all_cons_pure (b : Bool) (cs : List (Except Error Bool)) :
    sc_all (pure b :: cs) = if b then sc_all cs else .ok false := by
  cases b <;> rfl

theorem sc_all_eq_true_iff (l : List (Except Error Bool)) :
    sc_all l = .ok true ↔ ∀ c ∈ l, c = .ok true := by
  induction l with
  | nil => simp [sc_all_nil]
  | cons c cs ih =>
    rcases c with e | b
    · simp [sc_all, bind, Except.bind]
    · cases b
      · simp [sc_all_cons_ok]
      · simp [sc_all_cons_ok, ih]

theorem sc_all_total_cons (b : Bool) (cs : List (Except Error Bool))
    (h : b = true → ∃ r, sc_all cs = .ok r) : ∃ r, sc_all (Except.ok b :: cs) = .ok r := by
  cases b
  · exact ⟨false, rfl⟩
  · exact h rfl

theorem length_four {β : Type} (l : List β) (h : l.length = 4) :
    ∃ a b c d, l = [a, b, c, d] := by
  match l, h with
  | [a, b, c, d], _ => exact ⟨a, b, c, d, rfl⟩

theorem length_one {β : Type} (l : List β) (h : l.length = 1) : ∃ a, l = [a] := by
  match l, h with
  | [a], _ => exact ⟨a, rfl⟩

theorem int_rem_pos (a : Nat) (g : Int) (hg : 0 < g) :
    int_rem (a : Int) g = .ok ((a : Int) % g) := by
  have h0 : g ≠ 0 := by omega
  simp only [int_rem, h0, if_false]
  rw [Int.tmod_eq_emod (by omega) (by omega)]

/-- The bias clause of `available` always has a value on a 4-D weight. -/
theorem available_bias_total (w : Tensor α) (bias : Option (Tensor α)) (tr : Bool)
    (OC IC KH KW : Nat) (h : w.sizes = [OC, IC, KH, KW]) :
    ∃ r, available_bias w bias tr = .ok r := by
  unfold available_bias
  rcases bias with _ | b
  · exact ⟨true, rfl⟩
  · by_cases hd : b.defined = true
    · simp only [hd, if_true, pure, Except.pure]
      refine sc_all_total_cons _ _ (fun h1 => ?_)
      refine sc_all_total_cons _ _ (fun _ => ?_)
      refine sc_all_total_cons _ _ (fun _ => ?_)
      obtain ⟨n, hn⟩ := length_one b.sizes (by
        simpa [Tensor.ndimension, eq_comm] using h1)
      cases tr
      · simp only [Tensor.size, h, hn, Layout.Filter.output, List.getElem?_cons_zero, bind,
          Except.bind, Bool.false_eq_true, if_false]
        exact sc_all_total_cons _ _ (fun _ => ⟨true, rfl⟩)
      · simp only [if_true]
        exact sc_all_total_cons _ _ (fun _ => ⟨true, rfl⟩)
    · simp only [hd, if_false, Bool.false_eq_true]
      exact ⟨true, rfl⟩

/-- The bias clause of `available` holds exactly when a defined bias is 1-D of
length OC, on CPU or Vulkan, float32, and transposed is false. -/
theorem available_bias_true_iff (w : Tensor α) (bias : Option (Tensor α)) (tr : Bool)
    (OC IC KH KW : Nat) (h : w.sizes = [OC, IC, KH, KW]) :
    available_bias w bias tr = .ok true ↔
      ∀ b : Tensor α, bias = some b → b.defined = true →
        b.sizes = [OC] ∧ (b.device = DeviceType.CPU ∨ b.device = DeviceType.Vulkan) ∧
        b.scalar_type = ScalarType.Float ∧ tr = false := by
  unfold available_bias
  rcases bias with _ | b
  · simp [pure, Except.pure]
  · by_cases hd : b.defined = true
    · simp only [hd, if_true, sc_all_eq_true_iff]
      constructor
      · intro hall b1 hb1 _
        cases hb1
        have h1 := hall _ (List.mem_cons_self _ _)
        have h2 := hall _ (List.mem_cons_of_mem _ (List.mem_cons_self _ _))
        have h3 := hall _ (List.mem_cons_of_mem _ (List.mem_cons_of_mem _ (List.mem_cons_self _ _)))
        have h4 := hall _ (List.mem_cons_of_mem _ (List.mem_cons_of_mem _
          (List.mem_cons_of_mem _ (List.mem_cons_self _ _))))
        simp only [pure, Except.pure, Except.ok.injEq, decide_eq_true_eq, Bool.or_eq_true] at h1 h2 h3
        obtain ⟨n, hn⟩ := length_one b.sizes (by simpa [Tensor.ndimension, eq_comm] using h1)
        cases tr
        · simp only [Tensor.size, h, hn, Layout.Filter.output, List.getElem?_cons_zero, bind,
            Except.bind, Bool.false_eq_true, if_false, pure, Except.pure, Except.ok.injEq,
            decide_eq_true_eq] at h4
          refine ⟨by rw [hn, h4], ?_, h3.symm, rfl⟩
          rcases h2 with h2 | h2
          · exact Or.inl h2.symm
          · exact Or.inr h2.symm
        · simp [pure, Except.pure] at h4
      · intro H c hc
        obtain ⟨hs, hdev, hf, rfl⟩ := H b rfl hd
        simp only [List.mem_cons, List.mem_singleton, List.not_mem_nil, or_false] at hc
        rcases hc with rfl | rfl | rfl | rfl
        · simp [Tensor.ndimension, hs, pure, Except.pure]
        · rcases hdev with hdev | hdev <;> simp [hdev, pure, Except.pure]
        · simp [hf, pure, Except.pure]
        · simp [Tensor.size, h, hs, Layout.Filter.output, bind, Except.bind, pure, Except.pure]
    · simp [hd, pure, Except.pure]

/-- The chain of `available` on a 4-D weight and two-element parameter lists. -/
theorem available_eq (api : Bool) (w : Tensor α) (bias : Option (Tensor α))
    (sh sw ph pw dh dw : Int) (tr : Bool) (op : List Int) (g : Int) (mn mx : Option Scalar)
    (OC IC KH KW : Nat) (h : w.sizes = [OC, IC, KH, KW]) :
    available api w bias [sh, sw] [ph, pw] [dh, dw] tr op g mn mx =
      sc_all [
        Except.ok api, Except.ok true, Except.ok (decide (KH > 0)), Except.ok (decide (KW > 0)),
        Except.ok (decide (DeviceType.CPU = w.device) || decide (DeviceType.Vulkan = w.device)),
        Except.ok (decide (ScalarType.Float = w.scalar_type)),
        available_bias w bias tr,
        Except.ok (decide (sh > 0)), Except.ok (decide (sw > 0)),
        Except.ok (decide (ph ≥ 0)), Except.ok (decide (pw ≥ 0)),
        Except.ok (decide (dh > 0)), Except.ok (decide (dw > 0)),
        Except.ok (decide (g > 0)), Except.ok (decide (IC > 0)), Except.ok (decide (OC > 0)),
        Except.map (fun r => decide (r = 0)) (int_rem (OC : Int) g),
        Except.ok (match mn with
          | some s => s.isFloatingPoint
          | none => true),
        Except.ok (match mx with
          | some s => s.isFloatingPoint
          | none => true)] := by
  simp only [available, Tensor.size, Tensor.ndimension, h, at_index_zero, at_index_one,
    Layout.Filter.output, Layout.Filter.input, Layout.Filter.height, Layout.Filter.width,
    Layout.Parameter.height, Layout.Parameter.width, bind, Except.bind, pure, Except.pure,
    List.getElem?_cons_zero, List.getElem?_cons_succ, List.length_cons, List.length_nil]
  rfl

/-- A weight that is not 4-D is rejected at the second clause. -/
theorem available_not_four (api : Bool) (w : Tensor α) (bias : Option (Tensor α))
    (stride padding dilation : List Int) (tr : Bool) (op : List Int) (g : Int)
    (mn mx : Option Scalar) (h : w.sizes.length ≠ 4) :
    available api w bias stride padding dilation tr op g mn mx = .ok false := by
  unfold available
  rw [sc_all_cons_pure, sc_all_cons_pure]
  have : decide (4 = w.ndimension) = false := by
    simp only [Tensor.ndimension, decide_eq_false_iff_not]
    exact fun e => h e.symm
  rw [this]
  cases api <;> rfl

/-- On two-element parameter lists `available` always returns a boolean. -/
theorem available_total (api : Bool) (w : Tensor α) (bias : Option (Tensor α))
    (sh sw ph pw dh dw : Int) (tr : Bool) (op : List Int) (g : Int) (mn mx : Option Scalar) :
    ∃ r, available api w bias [sh, sw] [ph, pw] [dh, dw] tr op g mn mx = .ok r := by
  by_cases h4 : w.sizes.length = 4
  · obtain ⟨OC, IC, KH, KW, h⟩ := length_four _ h4
    obtain ⟨bb, hbb⟩ := available_bias_total w bias tr OC IC KH KW h
    rw [available_eq api w bias sh sw ph pw dh dw tr op g mn mx OC IC KH KW h, hbb]
    iterate 13 refine sc_all_total_cons _ _ (fun _ => ?_)
    refine sc_all_total_cons _ _ (fun hg => ?_)
    iterate 2 refine sc_all_total_cons _ _ (fun _ => ?_)
    rw [int_rem_pos OC g (by simpa using hg)]
    simp only [Except.map]
    iterate 3 refine sc_all_total_cons _ _ (fun _ => ?_)
    exact ⟨true, rfl⟩
  · exact ⟨false, available_not_four api w bias _ _ _ tr op g mn mx h4⟩

/-! ## Validation: theorems -/

theorem opt_floating_iff (m : Option Scalar) :
    (match m with
      | some s => s.isFloatingPoint
      | none => true) = true ↔ ∀ s : Scalar, m = some s → s.isFloatingPoint = true := by
  cases m <;> simp

theorem available_true_iff (api : Bool) (w : Tensor α) (bias : Option (Tensor α))
    (sh sw ph pw dh dw : Int) (tr : Bool) (op : List Int) (g : Int) (mn mx : Option Scalar) :
    available api w bias [sh, sw] [ph, pw] [dh, dw] tr op g mn mx = .ok true ↔
      available_spec api w bias sh sw ph pw dh dw tr g mn mx := by
  by_cases h4 : w.sizes.length = 4
  · obtain ⟨OC, IC, KH, KW, h⟩ := length_four _ h4
    rw [available_eq api w bias sh sw ph pw dh dw tr op g mn mx OC IC KH KW h,
      sc_all_eq_true_iff]
    simp only [List.forall_mem_cons, List.not_mem_nil, false_imp_iff, forall_const, and_true,
      Except.ok.injEq, decide_eq_true_eq, Bool.or_eq_true,
      available_bias_true_iff w bias tr OC IC KH KW h, opt_floating_iff]
    unfold available_spec
    constructor
    · rintro ⟨ha, -, hkh, hkw, hdev, hf, hb, hsh, hsw, hph, hpw, hdh, hdw, hg, hic, hoc, hrem,
        hmn, hmx⟩
      rw [int_rem_pos OC g hg] at hrem
      simp only [Except.map, Except.ok.injEq, decide_eq_true_eq] at hrem
      refine ⟨ha, ⟨OC, IC, KH, KW, h, hkh, hkw, hic, hoc, hrem, hb⟩, ?_, hf.symm, hsh, hsw, hph,
        hpw, hdh, hdw, hg, hmn, hmx⟩
      rcases hdev with e | e
      · exact Or.inl e.symm
      · exact Or.inr e.symm
    · rintro ⟨ha, ⟨OC1, IC1, KH1, KW1, h1, hkh, hkw, hic, hoc, hrem, hb⟩, hdev, hf, hsh, hsw,
        hph, hpw, hdh, hdw, hg, hmn, hmx⟩
      rw [h] at h1
      simp only [List.cons.injEq, and_true] at h1
      obtain ⟨rfl, rfl, rfl, rfl⟩ := h1
      rw [int_rem_pos OC g hg]
      simp only [Except.map, Except.ok.injEq, decide_eq_true_eq]
      refine ⟨ha, trivial, hkh, hkw, ?_, hf.symm, hb, hsh, hsw, hph, hpw, hdh, hdw, hg, hic, hoc,
        hrem, hmn, hmx⟩
      rcases hdev with e | e
      · exact Or.inl e.symm
      · exact Or.inr e.symm
  · rw [available_not_four api w bias _ _ _ tr op g mn mx h4]
    constructor
    · intro hc
      cases hc
    · rintro ⟨-, ⟨OC, IC, KH, KW, h, -⟩, -⟩
      exact absurd (by rw [h]; rfl) h4

/-- C8: on pair-shaped stride, padding and dilation, `available` always
returns a boolean, and it returns true exactly when every documented clause
holds (`available_spec`).  In particular it returns false whenever groups > 0
and output_channels % groups ≠ 0, whenever a stride or dilation component is
≤ 0, and whenever a padding component is negative. -/
theorem available_iff_documented (api : Bool) (w : Tensor α) (bias : Option (Tensor α))
    (sh sw ph pw dh dw : Int) (tr : Bool) (op : List Int) (g : Int) (mn mx : Option Scalar) :
    (∃ r, available api w bias [sh, sw] [ph, pw] [dh, dw] tr op g mn mx = .ok r) ∧
    (available api w bias [sh, sw] [ph, pw] [dh, dw] tr op g mn mx = .ok true ↔
      available_spec api w bias sh sw ph pw dh dw tr g mn mx) ∧
    (∀ OC IC KH KW : Nat, w.sizes = [OC, IC, KH, KW] → 0 < g → (OC : Int) % g ≠ 0 →
      available api w bias [sh, sw] [ph, pw] [dh, dw] tr op g mn mx = .ok false) ∧
    (sh ≤ 0 ∨ sw ≤ 0 ∨ dh ≤ 0 ∨ dw ≤ 0 →
      available api w bias [sh, sw] [ph, pw] [dh, dw] tr op g mn mx = .ok false) ∧
    (ph < 0 ∨ pw < 0 →
      available api w bias [sh, sw] [ph, pw] [dh, dw] tr op g mn mx = .ok false) := by
  have htot := available_total api w bias sh sw ph pw dh dw tr op g mn mx
  have hiff := available_true_iff api w bias sh sw ph pw dh dw tr op g mn mx
  have hfalse : ¬ available_spec api w bias sh sw ph pw dh dw tr g mn mx →
      available api w bias [sh, sw] [ph, pw] [dh, dw] tr op g mn mx = .ok false := by
    intro hn
    obtain ⟨r, hr⟩ := htot
    cases r
    · exact hr
    · exact absurd (hiff.mp hr) hn
  refine ⟨htot, hiff, ?_, ?_, ?_⟩
  · intro OC IC KH KW h _ hrem
    apply hfalse
    rintro ⟨-, ⟨OC1, IC1, KH1, KW1, h1, -, -, -, -, hrem1, -⟩, -⟩
    rw [h] at h1
    simp only [List.cons.injEq, and_true] at h1
    obtain ⟨rfl, rfl, rfl, rfl⟩ := h1
    exact hrem hrem1
  · intro hle
    apply hfalse
    rintro ⟨-, -, -, -, hsh, hsw, -, -, hdh, hdw, -⟩
    omega
  · intro hlt
    apply hfalse
    rintro ⟨-, -, -, -, -, -, hph, hpw, -⟩
    omega

/-- Witness of C8: the depthwise test configuration passes every clause, and
the same weight with groups 2 (7 % 2 ≠ 0) is rejected. -/
theorem available_iff_documented_witness :
    available true (host_tensor [7, 1, 17, 7] []) none [1, 3] [2, 0] [1, 2] false [] 7
        none none = .ok true ∧
      available true (host_tensor [7, 1, 17, 7] []) none [1, 3] [2, 0] [1, 2] false [] 2
        none none = .ok false :=
  ⟨by decide,
    (available_iff_documented true (host_tensor [7, 1, 17, 7] []) none 1 3 2 0 1 2 false [] 2
      none none).2.2.1 7 1 17 7 rfl (by decide) (by decide)⟩
/-! ## Context construction: auxiliary facts -/

theorem expand_two_ok (l s : List Int) (h : expand_param_if_needed l 2 = .ok s) :
    ∃ a b, s = [a, b] := by
  unfold expand_param_if_needed at h
  split at h
  · cases h
    exact ⟨_, _, rfl⟩
  · split at h
    · cases h
      rename_i hl
      match l, hl with
      | [a, b], _ => exact ⟨a, b, rfl⟩
    · cases h

theorem pack_params_pair (a b : Int) : pack_params [a, b] = .ok [a, b] := by
  simp [pack_params, at_index, bind, Except.bind, pure, Except.pure]

theorem pack_weights_total [Zero α] (pool : Pool α) (w : Tensor α) (g : Int)
    (OC IC KH KW : Nat) (h : w.sizes = [OC, IC, KH, KW]) :
    ∃ v, pack_weights pool w g = .ok v := by
  unfold pack_weights
  by_cases hv : w.is_vulkan = true
  · simp only [hv, if_true]
    exact ⟨_, rfl⟩
  · simp only [hv, Bool.false_eq_true, if_false, is_depthwise, Tensor.contiguous, h, at_index_zero,
      Layout.Filter.output, bind, Except.bind, pure, Except.pure]
    by_cases hg : (OC : Int) = g
    · simp only [hg, decide_True, if_true]
      exact ⟨_, rfl⟩
    · simp only [hg, decide_False, Bool.false_eq_true, if_false]
      rw [pack_weights_general_eq pool w OC IC KH KW h]
      exact ⟨_, rfl⟩

theorem pack_biases_total [Zero α] (pool : Pool α) (bias : Option (Tensor α)) (w : Tensor α)
    (OC IC KH KW : Nat) (h : w.sizes = [OC, IC, KH, KW]) :
    ∃ v, pack_biases pool bias w = .ok v := by
  unfold pack_biases
  rcases bias with _ | b
  · simp only [Tensor.size, h, Layout.Filter.output, List.getElem?_cons_zero, bind, Except.bind,
      pure, Except.pure]
    exact ⟨_, rfl⟩
  · by_cases hv : b.is_vulkan = true
    · simp only [hv, if_true]
      exact ⟨_, rfl⟩
    · simp only [hv, Bool.false_eq_true, if_false, Tensor.size, h, Layout.Filter.output,
        List.getElem?_cons_zero, bind, Except.bind, pure, Except.pure]
      exact ⟨_, rfl⟩

/-- The constructor on a 4-D weight and parameter lists that expand to pairs:
it succeeds, and the fields of the context are as the initialisers give them. -/
theorem construct_ok [Zero α] (pool : Pool α) (w : Tensor α) (bias : Option (Tensor α))
    (stride padding dilation : List Int) (tr : Bool) (op : List Int) (g : Int)
    (mn mx : Option Scalar) (OC IC KH KW : Nat) (sh sw ph pw dh dw : Int)
    (h : w.sizes = [OC, IC, KH, KW])
    (hs : expand_param_if_needed stride 2 = .ok [sh, sw])
    (hp : expand_param_if_needed padding 2 = .ok [ph, pw])
    (hd : expand_param_if_needed dilation 2 = .ok [dh, dw]) :
    ∃ c : Context α, Context.construct pool w bias stride padding dilation tr op g mn mx = .ok c ∧
      pack_weights pool w g = .ok c.packed_.v_weight ∧
      pack_biases pool bias w = .ok c.packed_.v_bias ∧
      pack_filter w [dh, dw] = .ok c.packed_.filter ∧
      c.packed_.stride = [sh, sw] ∧ c.packed_.padding = [ph, pw] ∧
      c.packed_.dilation = [dh, dw] ∧ c.packed_.groups = to_int32 g ∧
      c.unpacked_ = Unpacked.mk w bias w.sizes stride padding dilation g mn mx := by
  obtain ⟨vw, hvw⟩ := pack_weights_total pool w g OC IC KH KW h
  obtain ⟨vb, hvb⟩ := pack_biases_total pool bias w OC IC KH KW h
  have hf := pack_filter_eq w OC IC KH KW dh dw h
  simp only [Context.construct, hvw, hvb, hs, hp, hd, hf, pack_params_pair, bind, Except.bind,
    pure, Except.pure]
  exact ⟨_, rfl, rfl, rfl, rfl, rfl, rfl, rfl, rfl, rfl⟩

/-! ## Context construction: theorems -/

theorem create_eq [Zero α] (api : Bool) (pool : Pool α) (w : Tensor α)
    (bias : Option (Tensor α)) (stride_arg padding_arg dilation_arg : List Int) (tr : Bool)
    (op : List Int) (g : Int) (mn mx : Option Scalar) (s p d : List Int) (r : Bool)
    (hs : expand_param_if_needed stride_arg 2 = .ok s)
    (hp : expand_param_if_needed padding_arg 2 = .ok p)
    (hd : expand_param_if_needed dilation_arg 2 = .ok d)
    (hr : available api w bias s p d tr op g mn mx = .ok r) :
    Context.create api pool w bias stride_arg padding_arg dilation_arg tr op g mn mx =
      if r then
        Context.construct pool w bias stride_arg padding_arg dilation_arg tr op g mn mx
      else .error Error.not_available := by
  simp only [Context.create, hs, hp, hd, hr, bind, Except.bind]
  cases r <;> rfl

theorem create_ok_inv [Zero α] (api : Bool) (pool : Pool α) (w : Tensor α)
    (bias : Option (Tensor α)) (stride_arg padding_arg dilation_arg : List Int) (tr : Bool)
    (op : List Int) (g : Int) (mn mx : Option Scalar) (c : Context α)
    (hc : Context.create api pool w bias stride_arg padding_arg dilation_arg tr op g mn mx =
      .ok c) :
    ∃ sh sw ph pw dh dw : Int,
      expand_param_if_needed stride_arg 2 = .ok [sh, sw] ∧
      expand_param_if_needed padding_arg 2 = .ok [ph, pw] ∧
      expand_param_if_needed dilation_arg 2 = .ok [dh, dw] ∧
      available api w bias [sh, sw] [ph, pw] [dh, dw] tr op g mn mx = .ok true ∧
      Context.construct pool w bias stride_arg padding_arg dilation_arg tr op g mn mx =
        .ok c := by
  rcases hs : expand_param_if_needed stride_arg 2 with e | s
  · simp [Context.create, hs, bind, Except.bind] at hc
  rcases hp : expand_param_if_needed padding_arg 2 with e | p
  · simp [Context.create, hs, hp, bind, Except.bind] at hc
  rcases hd : expand_param_if_needed dilation_arg 2 with e | d
  · simp [Context.create, hs, hp, hd, bind, Except.bind] at hc
  obtain ⟨sh, sw, rfl⟩ := expand_two_ok _ _ hs
  obtain ⟨ph, pw, rfl⟩ := expand_two_ok _ _ hp
  obtain ⟨dh, dw, rfl⟩ := expand_two_ok _ _ hd
  obtain ⟨r, hr⟩ := available_total api w bias sh sw ph pw dh dw tr op g mn mx
  rw [create_eq api pool w bias _ _ _ tr op g mn mx _ _ _ r hs hp hd hr] at hc
  cases r
  · simp at hc
  · exact ⟨sh, sw, ph, pw, dh, dw, rfl, rfl, rfl, hr, by simpa using hc⟩

theorem calls_eq_self (c : Context α) (calls : List (Call α)) : c.calls calls = c := by
  induction calls with
  | nil => rfl
  | cons k ks ih =>
    cases k <;> simpa [Context.calls, Context.call] using ih

theorem to_int32_of_range (v : Int) (h1 : -2147483648 ≤ v) (h2 : v ≤ 2147483647) :
    to_int32 v = v := by
  unfold to_int32
  omega

/-- C9: every context that `Context::create` returns has groups > 0 and
output_channels % groups = 0 (groups being the `int64_t` value the context
keeps, output_channels the first size of its weight), and packed stride,
padding and dilation pairs with stride > 0, padding ≥ 0 and dilation > 0 in
both components; the packed `int32_t` copy of groups is the same value when
groups fits 32 bits; and a context object is the same after any sequence of
`run` and `unpack` calls. -/
theorem create_invariants [Zero α] (api : Bool) (pool : Pool α) (w : Tensor α)
    (bias : Option (Tensor α)) (stride_arg padding_arg dilation_arg : List Int) (tr : Bool)
    (op : List Int) (g : Int) (mn mx : Option Scalar) (c : Context α)
    (hc : Context.create api pool w bias stride_arg padding_arg dilation_arg tr op g mn mx =
      .ok c) :
    0 < c.unpacked_.groups ∧
    (∃ OC IC KH KW : Nat, c.unpacked_.weight.sizes = [OC, IC, KH, KW] ∧
      c.unpacked_.filter = [OC, IC, KH, KW] ∧ (OC : Int) % c.unpacked_.groups = 0) ∧
    (∃ sh sw : Int, c.packed_.stride = [sh, sw] ∧ 0 < sh ∧ 0 < sw) ∧
    (∃ ph pw : Int, c.packed_.padding = [ph, pw] ∧ 0 ≤ ph ∧ 0 ≤ pw) ∧
    (∃ dh dw : Int, c.packed_.dilation = [dh, dw] ∧ 0 < dh ∧ 0 < dw) ∧
    (c.unpacked_.groups ≤ 2147483647 → c.packed_.groups = c.unpacked_.groups) ∧
    (∀ calls : List (Call α), c.calls calls = c) := by
  obtain ⟨sh, sw, ph, pw, dh, dw, hs, hp, hd, hav, hcon⟩ :=
    create_ok_inv api pool w bias stride_arg padding_arg dilation_arg tr op g mn mx c hc
  obtain ⟨-, ⟨OC, IC, KH, KW, h, -, -, -, -, hrem, -⟩, -, -, hsh, hsw, hph, hpw, hdh, hdw, hg, -⟩ :=
    (available_true_iff api w bias sh sw ph pw dh dw tr op g mn mx).mp hav
  obtain ⟨c1, hc1, -, -, -, hst, hpd, hdl, hgr, hun⟩ :=
    construct_ok pool w bias stride_arg padding_arg dilation_arg tr op g mn mx OC IC KH KW
      sh sw ph pw dh dw h hs hp hd
  rw [hcon] at hc1
  cases hc1
  rw [hun]
  refine ⟨hg, ⟨OC, IC, KH, KW, h, h, hrem⟩, ⟨sh, sw, hst, hsh, hsw⟩, ⟨ph, pw, hpd, hph, hpw⟩,
    ⟨dh, dw, hdl, hdh, hdw⟩, ?_, calls_eq_self c⟩
  intro hle
  rw [hgr]
  exact to_int32_of_range g (by simp only at hle; omega) hle

/-- Witness of C9: the context created from the weight of shape (2,4,1,1)
with groups 1, stride [1], padding [0, 0] and dilation [2]. -/
theorem create_invariants_witness :
    ∃ c : Context Nat,
      Context.create true (stale_pool 7) (host_tensor [2, 4, 1, 1] [1, 2, 3, 4, 5, 6, 7, 8])
        none [1] [0, 0] [2] false [] 1 none none = .ok c ∧
      0 < c.unpacked_.groups ∧
      (∃ OC IC KH KW : Nat, c.unpacked_.weight.sizes = [OC, IC, KH, KW] ∧
        c.unpacked_.filter = [OC, IC, KH, KW] ∧ (OC : Int) % c.unpacked_.groups = 0) ∧
      (∃ sh sw : Int, c.packed_.stride = [sh, sw] ∧ 0 < sh ∧ 0 < sw) ∧
      (∃ ph pw : Int, c.packed_.padding = [ph, pw] ∧ 0 ≤ ph ∧ 0 ≤ pw) ∧
      (∃ dh dw : Int, c.packed_.dilation = [dh, dw] ∧ 0 < dh ∧ 0 < dw) ∧
      (c.unpacked_.groups ≤ 2147483647 → c.packed_.groups = c.unpacked_.groups) ∧
      (∀ calls : List (Call Nat), c.calls calls = c) :=
  have hex : ∃ c : Context Nat,
      Context.create true (stale_pool 7) (host_tensor [2, 4, 1, 1] [1, 2, 3, 4, 5, 6, 7, 8])
        none [1] [0, 0] [2] false [] 1 none none = .ok c := ⟨_, rfl⟩
  hex.elim fun c hc => ⟨c, hc, create_invariants true (stale_pool 7)
    (host_tensor [2, 4, 1, 1] [1, 2, 3, 4, 5, 6, 7, 8]) none [1] [0, 0] [2] false [] 1
    none none c hc⟩

/-- C10: when stride, padding and dilation expand to the lists s, p and d,
`available` on them returns a boolean; `Context::create` fails with the
"not available" error exactly when that boolean is false, and returns a
context (the one its constructor builds from the original arguments) when it
is true. -/
theorem create_fails_iff_unavailable [Zero α] (api : Bool) (pool : Pool α) (w : Tensor α)
    (bias : Option (Tensor α)) (stride_arg padding_arg dilation_arg : List Int) (tr : Bool)
    (op : List Int) (g : Int) (mn mx : Option Scalar) (s p d : List Int)
    (hs : expand_param_if_needed stride_arg 2 = .ok s)
    (hp : expand_param_if_needed padding_arg 2 = .ok p)
    (hd : expand_param_if_needed dilation_arg 2 = .ok d) :
    (∃ r, available api w bias s p d tr op g mn mx = .ok r) ∧
    (Context.create api pool w bias stride_arg padding_arg dilation_arg tr op g mn mx =
        .error Error.not_available ↔
      available api w bias s p d tr op g mn mx = .ok false) ∧
    (available api w bias s p d tr op g mn mx = .ok true →
      ∃ c : Context α,
        Context.create api pool w bias stride_arg padding_arg dilation_arg tr op g mn mx =
          .ok c ∧
        Context.construct pool w bias stride_arg padding_arg dilation_arg tr op g mn mx =
          .ok c) := by
  obtain ⟨sh, sw, rfl⟩ := expand_two_ok _ _ hs
  obtain ⟨ph, pw, rfl⟩ := expand_two_ok _ _ hp
  obtain ⟨dh, dw, rfl⟩ := expand_two_ok _ _ hd
  have htrue : available api w bias [sh, sw] [ph, pw] [dh, dw] tr op g mn mx = .ok true →
      ∃ c : Context α,
        Context.create api pool w bias stride_arg padding_arg dilation_arg tr op g mn mx =
          .ok c ∧
        Context.construct pool w bias stride_arg padding_arg dilation_arg tr op g mn mx =
          .ok c := by
    intro hav
    obtain ⟨-, ⟨OC, IC, KH, KW, h, -⟩, -⟩ :=
      (available_true_iff api w bias sh sw ph pw dh dw tr op g mn mx).mp hav
    obtain ⟨c, hcon, -⟩ :=
      construct_ok pool w bias stride_arg padding_arg dilation_arg tr op g mn mx OC IC KH KW
        sh sw ph pw dh dw h hs hp hd
    refine ⟨c, ?_, hcon⟩
    rw [create_eq api pool w bias _ _ _ tr op g mn mx _ _ _ true hs hp hd hav]
    simpa using hcon
  refine ⟨available_total api w bias sh sw ph pw dh dw tr op g mn mx, ?_, htrue⟩
  constructor
  · intro hfail
    obtain ⟨r, hr⟩ := available_total api w bias sh sw ph pw dh dw tr op g mn mx
    cases r
    · exact hr
    · obtain ⟨c, hc, -⟩ := htrue hr
      rw [hc] at hfail
      cases hfail
  · intro hav
    rw [create_eq api pool w bias _ _ _ tr op g mn mx _ _ _ false hs hp hd hav]
    rfl

/-- Witness of C10: with stride [1] expanded to [1, 1], groups 3 does not
divide the 2 output channels and `create` fails with "not available". -/
theorem create_fails_iff_unavailable_witness :
    Context.create true (stale_pool 7) (host_tensor [2, 4, 1, 1] [1, 2, 3, 4, 5, 6, 7, 8])
        none [1] [0, 0] [2] false [] 3 none none = .error Error.not_available :=
  (create_fails_iff_unavailable true (stale_pool 7)
    (host_tensor [2, 4, 1, 1] [1, 2, 3, 4, 5, 6, 7, 8]) none [1] [0, 0] [2] false [] 3
    none none [1, 1] [0, 0] [2, 2] rfl rfl rfl).2.1.mpr (by decide)

/-! ## Running a context: auxiliary facts -/

/-- The chain of `usable` on a 4-D input. -/
theorem usable_eq (input : Tensor α) (N C H W : Nat) (h : input.sizes = [N, C, H, W]) :
    usable input = sc_all [
      Except.ok true,
      Except.ok (decide (DeviceType.Vulkan = input.device)),
      Except.ok (decide (ScalarType.Float = input.scalar_type)),
      Except.ok (decide (N ≥ 0)), Except.ok (decide (C > 0)),
      Except.ok (decide (H > 0)), Except.ok (decide (W > 0)),
      Except.ok (!input.requires_grad)] := by
  simp only [usable, Tensor.size, Tensor.ndimension, h, Layout.Activation4D.batch,
    Layout.Activation4D.channels, Layout.Activation4D.height, Layout.Activation4D.width,
    bind, Except.bind, pure, Except.pure, List.getElem?_cons_zero, List.getElem?_cons_succ,
    List.length_cons, List.length_nil]
  rfl

/-- An input that is not 4-D is rejected at the first clause. -/
theorem usable_not_four (input : Tensor α) (h : input.sizes.length ≠ 4) :
    usable input = .ok false := by
  unfold usable
  rw [sc_all_cons_pure]
  have : decide (4 = input.ndimension) = false := by
    simp only [Tensor.ndimension, decide_eq_false_iff_not]
    exact fun e => h e.symm
  rw [this]
  rfl

theorem usable_total (input : Tensor α) : ∃ r, usable input = .ok r := by
  by_cases h4 : input.sizes.length = 4
  · obtain ⟨N, C, H, W, h⟩ := length_four _ h4
    rw [usable_eq input N C H W h]
    iterate 8 refine sc_all_total_cons _ _ (fun _ => ?_)
    exact ⟨true, rfl⟩
  · exact ⟨false, usable_not_four input h4⟩

theorem usable_true_iff (input : Tensor α) :
    usable input = .ok true ↔ usable_spec input := by
  by_cases h4 : input.sizes.length = 4
  · obtain ⟨N, C, H, W, h⟩ := length_four _ h4
    rw [usable_eq input N C H W h, sc_all_eq_true_iff]
    simp only [List.forall_mem_cons, List.not_mem_nil, false_imp_iff, forall_const, and_true,
      Except.ok.injEq, decide_eq_true_eq, Bool.not_eq_true']
    unfold usable_spec
    constructor
    · rintro ⟨-, hdev, hf, hn, hc, hh, hw, hg⟩
      exact ⟨⟨N, C, H, W, h, hn, hc, hh, hw⟩, hdev.symm, hf.symm, hg⟩
    · rintro ⟨⟨N1, C1, H1, W1, h1, hn, hc, hh, hw⟩, hdev, hf, hg⟩
      rw [h] at h1
      simp only [List.cons.injEq, and_true] at h1
      obtain ⟨rfl, rfl, rfl, rfl⟩ := h1
      exact ⟨trivial, hdev.symm, hf.symm, hn, hc, hh, hw, hg⟩
  · rw [usable_not_four input h4]
    constructor
    · intro hc
      cases hc
    · rintro ⟨⟨N, C, H, W, h, -⟩, -⟩
      exact absurd (by rw [h]; rfl) h4

theorem int_div_ne_zero (a b : Int) (hb : b ≠ 0) : int_div a b = .ok (Int.tdiv a b) := by
  simp [int_div, hb]

/-- The output sizes on 4-D sizes and pair-shaped parameters with non-zero
stride. -/
theorem conv_output_size_eq (N C H W OC IC KH KW : Nat) (sh sw ph pw dh dw : Int)
    (hsh : sh ≠ 0) (hsw : sw ≠ 0) :
    conv_output_size [N, C, H, W] [OC, IC, KH, KW] [ph, pw] [sh, sw] [dh, dw] =
      .ok [(N : Int), (OC : Int),
        Int.tdiv ((H : Int) + 2 * ph - (dh * ((KH : Int) - 1) + 1)) sh + 1,
        Int.tdiv ((W : Int) + 2 * pw - (dw * ((KW : Int) - 1) + 1)) sw + 1] := by
  simp [conv_output_size, at_index, int_div_ne_zero _ _ hsh, int_div_ne_zero _ _ hsw, bind,
    Except.bind, pure, Except.pure]

theorem is_pointwise_eq (OC IC KH KW : Nat) :
    is_pointwise [OC, IC, KH, KW] = .ok (decide (KH = 1 ∧ KW = 1)) := by
  unfold is_pointwise
  by_cases h : 1 = KH
  · by_cases h2 : 1 = KW
    · subst h; subst h2
      simp [at_index, Layout.Filter.height, Layout.Filter.width, bind, Except.bind, pure,
        Except.pure]
    · have h3 : ¬ KW = 1 := fun e => h2 e.symm
      subst h
      simp [at_index, Layout.Filter.height, Layout.Filter.width, bind, Except.bind, pure,
        Except.pure, h2, h3]
  · have h3 : ¬ KH = 1 := fun e => h e.symm
    simp [at_index, Layout.Filter.height, Layout.Filter.width, bind, Except.bind, pure,
      Except.pure, h, h3]

/-- The body of `run` on a well-shaped context and a usable input: the output
sizes are computed and exactly one of the three dispatch functions is called,
chosen by the first test that holds. -/
theorem run_eq (c : Context α) (images : Bool) (input_arg : Tensor α)
    (N C H W OC IC KH KW : Nat) (sh sw ph pw dh dw : Int)
    (hu : usable (if input_arg.is_vulkan then input_arg else input_arg.vulkan) = .ok true)
    (hin : (if input_arg.is_vulkan then input_arg else input_arg.vulkan).sizes = [N, C, H, W])
    (hf : c.unpacked_.filter = [OC, IC, KH, KW])
    (hs : c.packed_.stride = [sh, sw]) (hp : c.packed_.padding = [ph, pw])
    (hd : c.packed_.dilation = [dh, dw]) (hsh : sh ≠ 0) (hsw : sw ≠ 0) :
    c.run images input_arg =
      Except.map
        (fun ds => RunResult.mk [(N : Int), (OC : Int),
          Int.tdiv ((H : Int) + 2 * ph - (dh * ((KH : Int) - 1) + 1)) sh + 1,
          Int.tdiv ((W : Int) + 2 * pw - (dw * ((KW : Int) - 1) + 1)) sw + 1] ds)
        (if (OC : Int) = c.packed_.groups then
          conv2d_depthwise images [(N : Int), (OC : Int),
              Int.tdiv ((H : Int) + 2 * ph - (dh * ((KH : Int) - 1) + 1)) sh + 1,
              Int.tdiv ((W : Int) + 2 * pw - (dw * ((KW : Int) - 1) + 1)) sw + 1]
            (convert (if input_arg.is_vulkan then input_arg else input_arg.vulkan))
            c.packed_.v_weight c.packed_.v_bias c.packed_.filter c.packed_.stride
            c.packed_.padding c.packed_.dilation c.packed_.output_min c.packed_.output_max
        else if KH = 1 ∧ KW = 1 then
          conv2d_pointwise images [(N : Int), (OC : Int),
              Int.tdiv ((H : Int) + 2 * ph - (dh * ((KH : Int) - 1) + 1)) sh + 1,
              Int.tdiv ((W : Int) + 2 * pw - (dw * ((KW : Int) - 1) + 1)) sw + 1]
            (convert (if input_arg.is_vulkan then input_arg else input_arg.vulkan))
            c.packed_.v_weight c.packed_.v_bias c.packed_.stride
            c.packed_.padding c.packed_.output_min c.packed_.output_max
        else
          conv2d images [(N : Int), (OC : Int),
              Int.tdiv ((H : Int) + 2 * ph - (dh * ((KH : Int) - 1) + 1)) sh + 1,
              Int.tdiv ((W : Int) + 2 * pw - (dw * ((KW : Int) - 1) + 1)) sw + 1]
            (convert (if input_arg.is_vulkan then input_arg else input_arg.vulkan))
            c.packed_.v_weight c.packed_.v_bias c.packed_.filter c.packed_.stride
            c.packed_.padding c.packed_.dilation c.packed_.output_min c.packed_.output_max) := by
  unfold Context.run
  simp only [hu, bind, Except.bind, convert, hin, hf, hs, hp, hd,
    conv_output_size_eq N C H W OC IC KH KW sh sw ph pw dh dw hsh hsw, is_depthwise,
    at_index_zero, Layout.Filter.output, is_pointwise_eq, pure, Except.pure, if_true]
  by_cases hg : (OC : Int) = c.packed_.groups
  · simp only [hg, decide_True, if_true]
    rfl
  · simp only [hg, decide_False, Bool.false_eq_true, if_false]
    by_cases hk : KH = 1 ∧ KW = 1
    · simp only [hk, and_self, decide_True, if_true]
      rfl
    · simp only [hk, decide_False, Bool.false_eq_true, if_false]
      rfl

theorem safe_downcast_eq (v : Int) :
    safe_downcast v = if fits_int32 v then .ok v else .error Error.downcast_overflow := rfl

theorem safe_downcast_fits (v : Int) (h : fits_int32 v) : safe_downcast v = .ok v := by
  rw [safe_downcast_eq, if_pos h]

theorem safe_downcast_overflow (v : Int) (h : ¬ fits_int32 v) :
    safe_downcast v = .error Error.downcast_overflow := by
  rw [safe_downcast_eq, if_neg h]

/-- The general dispatch function when every value fits `int32_t`: one
dispatch of the kernel `conv2d` whose block holds the ten values in the order
of the source. -/
theorem conv2d_fits (out : List Int) (vin vw vb : vTensor α)
    (f0 f1 f2 f3 s0 s1 p0 p1 d0 d1 : Int) (mn mx : FloatValue)
    (h1 : fits_int32 f3) (h2 : fits_int32 f2) (h3 : fits_int32 f1) (h4 : fits_int32 f0)
    (h5 : fits_int32 s1) (h6 : fits_int32 s0) (h7 : fits_int32 p1) (h8 : fits_int32 p0)
    (h9 : fits_int32 d1) (h10 : fits_int32 d0) :
    conv2d true out vin vw vb [f0, f1, f2, f3] [s0, s1] [p0, p1] [d0, d1] mn mx =
      .ok [Dispatch.mk Kernel.conv2d out vin vw vb
        (Block.mk [f3, f2, f1, f0, s1, s0, p1, p0, d1, d0] [mn, mx])] := by
  unfold conv2d
  simp only [if_true, Layout.Filter.output, Layout.Filter.input, Layout.Filter.height,
    Layout.Filter.width, Layout.Parameter.height, Layout.Parameter.width, at_index_zero,
    at_index_one, at_index_two, at_index_three, ok_bind, safe_downcast_fits _ h1,
    safe_downcast_fits _ h2, safe_downcast_fits _ h3, safe_downcast_fits _ h4,
    safe_downcast_fits _ h5, safe_downcast_fits _ h6, safe_downcast_fits _ h7,
    safe_downcast_fits _ h8, safe_downcast_fits _ h9, safe_downcast_fits _ h10]
  rfl

/-- The depthwise dispatch function when every value fits `int32_t`. -/
theorem conv2d_depthwise_fits (out : List Int) (vin vw vb : vTensor α)
    (f0 f1 f2 f3 s0 s1 p0 p1 d0 d1 : Int) (mn mx : FloatValue)
    (h1 : fits_int32 f3) (h2 : fits_int32 f2)
    (h5 : fits_int32 s1) (h6 : fits_int32 s0) (h7 : fits_int32 p1) (h8 : fits_int32 p0)
    (h9 : fits_int32 d1) (h10 : fits_int32 d0) :
    conv2d_depthwise true out vin vw vb [f0, f1, f2, f3] [s0, s1] [p0, p1] [d0, d1] mn mx =
      .ok [Dispatch.mk Kernel.conv2d_dw out vin vw vb
        (Block.mk [f3, f2, s1, s0, p1, p0, d1, d0] [mn, mx])] := by
  unfold conv2d_depthwise
  simp only [if_true, Layout.Filter.height,
    Layout.Filter.width, Layout.Parameter.height, Layout.Parameter.width, at_index_zero,
    at_index_one, at_index_two, at_index_three, ok_bind, safe_downcast_fits _ h1,
    safe_downcast_fits _ h2,
    safe_downcast_fits _ h5, safe_downcast_fits _ h6, safe_downcast_fits _ h7,
    safe_downcast_fits _ h8, safe_downcast_fits _ h9, safe_downcast_fits _ h10]
  rfl

/-- The pointwise dispatch function when every value fits `int32_t`: it
returns without having issued a dispatch. -/
theorem conv2d_pointwise_fits (out : List Int) (vin vw vb : vTensor α)
    (s0 s1 p0 p1 : Int) (mn mx : FloatValue)
    (h5 : fits_int32 s1) (h6 : fits_int32 s0) (h7 : fits_int32 p1) (h8 : fits_int32 p0) :
    conv2d_pointwise true out vin vw vb [s0, s1] [p0, p1] mn mx = .ok [] := by
  unfold conv2d_pointwise
  simp only [if_true, Layout.Parameter.height, Layout.Parameter.width, at_index_zero,
    at_index_one, ok_bind,
    safe_downcast_fits _ h5, safe_downcast_fits _ h6, safe_downcast_fits _ h7,
    safe_downcast_fits _ h8]
  rfl

/-- The clamp bounds the constructor packs. -/
theorem construct_clamp [Zero α] (pool : Pool α) (w : Tensor α) (bias : Option (Tensor α))
    (stride padding dilation : List Int) (tr : Bool) (op : List Int) (g : Int)
    (mn mx : Option Scalar) (c : Context α)
    (hc : Context.construct pool w bias stride padding dilation tr op g mn mx = .ok c) :
    c.packed_.output_min = mn.elim FloatValue.neg_infinity FloatValue.of_scalar ∧
    c.packed_.output_max = mx.elim FloatValue.pos_infinity FloatValue.of_scalar := by
  unfold Context.construct at hc
  rcases h1 : pack_weights pool w g with e | vw
  · rw [h1, error_bind] at hc; cases hc
  rw [h1, ok_bind] at hc
  rcases h2 : pack_biases pool bias w with e | vb
  · rw [h2, error_bind] at hc; cases hc
  rw [h2, ok_bind] at hc
  rcases h3 : expand_param_if_needed dilation 2 with e | d
  · rw [h3, error_bind] at hc; cases hc
  rw [h3, ok_bind] at hc
  rcases h4 : pack_filter w d with e | pf
  · rw [h4, error_bind] at hc; cases hc
  rw [h4, ok_bind] at hc
  rcases h5 : expand_param_if_needed stride 2 with e | s
  · rw [h5, error_bind] at hc; cases hc
  rw [h5, ok_bind] at hc
  rcases h6 : pack_params s with e | ps
  · rw [h6, error_bind] at hc; cases hc
  rw [h6, ok_bind] at hc
  rcases h7 : expand_param_if_needed padding 2 with e | p
  · rw [h7, error_bind] at hc; cases hc
  rw [h7, ok_bind] at hc
  rcases h8 : pack_params p with e | pp
  · rw [h8, error_bind] at hc; cases hc
  rw [h8, ok_bind, ok_bind] at hc
  rcases h9 : pack_params d with e | pd
  · rw [h9, error_bind] at hc; cases hc
  rw [h9, ok_bind] at hc
  cases hc
  constructor
  · cases mn <;> rfl
  · cases mx <;> rfl

/-- What `Context::create` has established when it returns a context. -/
theorem create_shape [Zero α] (api : Bool) (pool : Pool α) (w : Tensor α)
    (bias : Option (Tensor α)) (stride_arg padding_arg dilation_arg : List Int) (tr : Bool)
    (op : List Int) (g : Int) (mn mx : Option Scalar) (c : Context α)
    (hc : Context.create api pool w bias stride_arg padding_arg dilation_arg tr op g mn mx =
      .ok c) :
    ∃ (OC IC KH KW : Nat) (sh sw ph pw dh dw : Int),
      w.sizes = [OC, IC, KH, KW] ∧
      expand_param_if_needed stride_arg 2 = .ok [sh, sw] ∧
      expand_param_if_needed padding_arg 2 = .ok [ph, pw] ∧
      expand_param_if_needed dilation_arg 2 = .ok [dh, dw] ∧
      available_spec api w bias sh sw ph pw dh dw tr g mn mx ∧
      c.packed_.filter = [((align_up OC 4 : Nat) : Int), (IC : Int),
        wrap_int64 ((KH : Int) + ((KH : Int) - 1) * (dh - 1)),
        wrap_int64 ((KW : Int) + ((KW : Int) - 1) * (dw - 1))] ∧
      c.packed_.stride = [sh, sw] ∧ c.packed_.padding = [ph, pw] ∧
      c.packed_.dilation = [dh, dw] ∧ c.packed_.groups = to_int32 g ∧
      c.packed_.output_min = mn.elim FloatValue.neg_infinity FloatValue.of_scalar ∧
      c.packed_.output_max = mx.elim FloatValue.pos_infinity FloatValue.of_scalar ∧
      c.unpacked_ = Unpacked.mk w bias w.sizes stride_arg padding_arg dilation_arg g mn mx := by
  obtain ⟨sh, sw, ph, pw, dh, dw, hs, hp, hd, hav, hcon⟩ :=
    create_ok_inv api pool w bias stride_arg padding_arg dilation_arg tr op g mn mx c hc
  have hspec := (available_true_iff api w bias sh sw ph pw dh dw tr op g mn mx).mp hav
  obtain ⟨OC, IC, KH, KW, h, -⟩ := hspec.2.1
  obtain ⟨c1, hc1, -, -, hfl, hst, hpd, hdl, hgr, hun⟩ :=
    construct_ok pool w bias stride_arg padding_arg dilation_arg tr op g mn mx OC IC KH KW
      sh sw ph pw dh dw h hs hp hd
  obtain ⟨hmn, hmx⟩ :=
    construct_clamp pool w bias stride_arg padding_arg dilation_arg tr op g mn mx c hcon
  rw [hcon] at hc1
  cases hc1
  rw [pack_filter_eq w OC IC KH KW dh dw h] at hfl
  exact ⟨OC, IC, KH, KW, sh, sw, ph, pw, dh, dw, h, hs, hp, hd, hspec,
    (Except.ok.inj hfl).symm, hst, hpd, hdl, hgr, hmn, hmx, hun⟩

/-- When `available` accepts the expanded parameters, `create` returns a
context. -/
theorem create_of_available [Zero α] (api : Bool) (pool : Pool α) (w : Tensor α)
    (bias : Option (Tensor α)) (stride_arg padding_arg dilation_arg : List Int) (tr : Bool)
    (op : List Int) (g : Int) (mn mx : Option Scalar) (sh sw ph pw dh dw : Int)
    (hs : expand_param_if_needed stride_arg 2 = .ok [sh, sw])
    (hp : expand_param_if_needed padding_arg 2 = .ok [ph, pw])
    (hd : expand_param_if_needed dilation_arg 2 = .ok [dh, dw])
    (hav : available api w bias [sh, sw] [ph, pw] [dh, dw] tr op g mn mx = .ok true) :
    ∃ c : Context α,
      Context.create api pool w bias stride_arg padding_arg dilation_arg tr op g mn mx =
        .ok c := by
  obtain ⟨-, ⟨OC, IC, KH, KW, h, -⟩, -⟩ :=
    (available_true_iff api w bias sh sw ph pw dh dw tr op g mn mx).mp hav
  obtain ⟨c, hcon, -⟩ :=
    construct_ok pool w bias stride_arg padding_arg dilation_arg tr op g mn mx OC IC KH KW
      sh sw ph pw dh dw h hs hp hd
  refine ⟨c, ?_⟩
  rw [create_eq api pool w bias _ _ _ tr op g mn mx _ _ _ true hs hp hd hav]
  simpa using hcon

/-! ## Transposed convolution -/

theorem available_bias_transposed (w : Tensor α) (b : Tensor α) (hb : b.defined = true) :
    available_bias w (some b) true = .ok false := by
  simp only [available_bias, hb, if_true, sc_all_cons_pure]
  split_ifs <;> first | rfl | contradiction

theorem available_transposed_bias (api : Bool) (w b : Tensor α)
    (stride padding dilation : List Int) (op : List Int) (g : Int) (mn mx : Option Scalar)
    (hb : b.defined = true) :
    available api w (some b) stride padding dilation true op g mn mx = .ok false := by
  by_cases h4 : w.sizes.length = 4
  · obtain ⟨OC, IC, KH, KW, h⟩ := length_four _ h4
    unfold available
    simp only [Tensor.size, Tensor.ndimension, h, Layout.Filter.height, Layout.Filter.width,
      List.getElem?_cons_zero, List.getElem?_cons_succ, ok_bind,
      available_bias_transposed w b hb, sc_all_cons_pure]
    simp only [pure, Except.pure, sc_all_cons_ok]
    split_ifs <;> first | rfl | contradiction
  · exact available_not_four api w (some b) _ _ _ true op g mn mx h4

/-- C11 (counterexample): with transposed = true and no bias, `available`
returns true for the weight of shape (2,4,3,3) with groups 1 and unit stride
and dilation, and `Context::create` returns a context. -/
theorem transposed_without_bias_accepted :
    available true (host_tensor [2, 4, 3, 3] (List.replicate 72 1)) none [1, 1] [0, 0] [1, 1]
        true [] 1 none none = .ok true ∧
      ∃ c : Context Nat,
        Context.create true (stale_pool 7) (host_tensor [2, 4, 3, 3] (List.replicate 72 1))
          none [1, 1] [0, 0] [1, 1] true [] 1 none none = .ok c :=
  ⟨by decide,
    create_of_available true (stale_pool 7) (host_tensor [2, 4, 3, 3] (List.replicate 72 1))
      none [1, 1] [0, 0] [1, 1] true [] 1 none none 1 1 0 0 1 1 rfl rfl rfl (by decide)⟩

/-- C11 (amended): for every parameter set with transposed = true and a
defined bias, `available` returns false and `Context::create` returns no
context; it fails with the "not available" error whenever stride, padding and
dilation expand to pairs. -/
theorem transposed_with_bias_rejected [Zero α] (api : Bool) (pool : Pool α) (w b : Tensor α)
    (stride padding dilation : List Int) (op : List Int) (g : Int) (mn mx : Option Scalar)
    (hb : b.defined = true) :
    available api w (some b) stride padding dilation true op g mn mx = .ok false ∧
    (∃ e, Context.create api pool w (some b) stride padding dilation true op g mn mx =
      .error e) ∧
    (∀ s p d : List Int, expand_param_if_needed stride 2 = .ok s →
      expand_param_if_needed padding 2 = .ok p → expand_param_if_needed dilation 2 = .ok d →
      Context.create api pool w (some b) stride padding dilation true op g mn mx =
        .error Error.not_available) := by
  have hall : ∀ s p d : List Int, expand_param_if_needed stride 2 = .ok s →
      expand_param_if_needed padding 2 = .ok p → expand_param_if_needed dilation 2 = .ok d →
      Context.create api pool w (some b) stride padding dilation true op g mn mx =
        .error Error.not_available := by
    intro s p d hs hp hd
    rw [create_eq api pool w (some b) _ _ _ true op g mn mx s p d false hs hp hd
      (available_transposed_bias api w b s p d op g mn mx hb)]
    rfl
  refine ⟨available_transposed_bias api w b _ _ _ op g mn mx hb, ?_, hall⟩
  rcases hs : expand_param_if_needed stride 2 with e | s
  · exact ⟨e, by simp only [Context.create, hs, error_bind]⟩
  rcases hp : expand_param_if_needed padding 2 with e | p
  · exact ⟨e, by simp only [Context.create, hs, hp, ok_bind, error_bind]⟩
  rcases hd : expand_param_if_needed dilation 2 with e | d
  · exact ⟨e, by simp only [Context.create, hs, hp, hd, ok_bind, error_bind]⟩
  exact ⟨_, hall s p d hs hp hd⟩

/-- Witness of C11 (amended): the depthwise test weight with a defined bias of
length 7 and transposed = true is rejected. -/
theorem transposed_with_bias_rejected_witness :
    available true (host_tensor [7, 1, 17, 7] (List.replicate 833 1))
        (some (host_tensor [7] [1, 2, 3, 4, 5, 6, 7])) [1, 3] [2, 0] [1, 2] true [] 7
        none none = .ok false :=
  (transposed_with_bias_rejected true (stale_pool 7)
    (host_tensor [7, 1, 17, 7] (List.replicate 833 1)) (host_tensor [7] [1, 2, 3, 4, 5, 6, 7])
    [1, 3] [2, 0] [1, 2] [] 7 none none rfl).1

/-! ## Unpacking and serialization -/

/-- C12: for every parameter set on which `Context::create` succeeds, `unpack`
on the resulting context returns, in this order, exactly the weight, bias,
stride, padding, dilation, groups, output_min and output_max passed to
`create`: the original lists and scalars, not the packed or expanded ones. -/
theorem create_unpack_roundtrip [Zero α] (api : Bool) (pool : Pool α) (w : Tensor α)
    (bias : Option (Tensor α)) (stride_arg padding_arg dilation_arg : List Int) (tr : Bool)
    (op : List Int) (g : Int) (mn mx : Option Scalar) (c : Context α)
    (hc : Context.create api pool w bias stride_arg padding_arg dilation_arg tr op g mn mx =
      .ok c) :
    c.unpack = (w, bias, stride_arg, padding_arg, dilation_arg, g, mn, mx) := by
  obtain ⟨OC, IC, KH, KW, sh, sw, ph, pw, dh, dw, -, -, -, -, -, -, -, -, -, -, -, -, hun⟩ :=
    create_shape api pool w bias stride_arg padding_arg dilation_arg tr op g mn mx c hc
  simp only [Context.unpack, hun]

/-- Witness of C12: created with the one-element stride [1] and dilation [2],
the context unpacks to [1] and [2], not to [1, 1] and [2, 2]. -/
theorem create_unpack_roundtrip_witness :
    ∃ c : Context Nat,
      Context.create true (stale_pool 7) (host_tensor [2, 4, 3, 3] (List.replicate 72 1))
        none [1] [0, 0] [2] false [] 1 (some (Scalar.floating 0)) none = .ok c ∧
      c.unpack = (host_tensor [2, 4, 3, 3] (List.replicate 72 1), none, [1], [0, 0], [2], 1,
        some (Scalar.floating 0), none) :=
  (create_of_available true (stale_pool 7) (host_tensor [2, 4, 3, 3] (List.replicate 72 1))
    none [1] [0, 0] [2] false [] 1 (some (Scalar.floating 0)) none 1 1 0 0 2 2 rfl rfl rfl
    (by decide)).elim fun c hc => ⟨c, hc, create_unpack_roundtrip true (stale_pool 7)
      (host_tensor [2, 4, 3, 3] (List.replicate 72 1)) none [1] [0, 0] [2] false [] 1
      (some (Scalar.floating 0)) none c hc⟩

/-! ## Clamp bounds and broadcast -/

/-- C14: for every context built by `Context::create`, the packed clamp
minimum is the float conversion of output_min when it is given and negative
infinity otherwise, and the packed clamp maximum is the float conversion of
output_max when it is given and positive infinity otherwise; with both unset,
as `convolution` calls `create`, the bounds are (-infinity, +infinity). -/
theorem create_clamp_bounds [Zero α] (api : Bool) (pool : Pool α) (w : Tensor α)
    (bias : Option (Tensor α)) (stride_arg padding_arg dilation_arg : List Int) (tr : Bool)
    (op : List Int) (g : Int) (mn mx : Option Scalar) (c : Context α)
    (hc : Context.create api pool w bias stride_arg padding_arg dilation_arg tr op g mn mx =
      .ok c) :
    (∀ s : Scalar, mn = some s → c.packed_.output_min = FloatValue.of_scalar s) ∧
    (mn = none → c.packed_.output_min = FloatValue.neg_infinity) ∧
    (∀ s : Scalar, mx = some s → c.packed_.output_max = FloatValue.of_scalar s) ∧
    (mx = none → c.packed_.output_max = FloatValue.pos_infinity) ∧
    (mn = none → mx = none →
      (c.packed_.output_min, c.packed_.output_max) =
        (FloatValue.neg_infinity, FloatValue.pos_infinity)) ∧
    (∀ (images : Bool) (input : Tensor α),
      convolution api images pool input w bias stride_arg padding_arg dilation_arg tr op g =
        (Context.create api pool w bias stride_arg padding_arg dilation_arg tr op g
          none none >>= fun context => context.run images input)) := by
  obtain ⟨OC, IC, KH, KW, sh, sw, ph, pw, dh, dw, -, -, -, -, -, -, -, -, -, -, hmn, hmx, -⟩ :=
    create_shape api pool w bias stride_arg padding_arg dilation_arg tr op g mn mx c hc
  refine ⟨?_, ?_, ?_, ?_, ?_, fun _ _ => rfl⟩
  · rintro s rfl
    exact hmn
  · rintro rfl
    exact hmn
  · rintro s rfl
    exact hmx
  · rintro rfl
    exact hmx
  · rintro rfl rfl
    rw [hmn, hmx]
    rfl

/-- Witness of C14: created with output_min 0.0 and no output_max, the context
has the packed bounds (float of 0.0, +infinity). -/
theorem create_clamp_bounds_witness :
    ∃ c : Context Nat,
      Context.create true (stale_pool 7) (host_tensor [2, 4, 3, 3] (List.replicate 72 1))
        none [1] [0, 0] [2] false [] 1 (some (Scalar.floating 0)) none = .ok c ∧
      c.packed_.output_min = FloatValue.of_scalar (Scalar.floating 0) ∧
      c.packed_.output_max = FloatValue.pos_infinity :=
  (create_of_available true (stale_pool 7) (host_tensor [2, 4, 3, 3] (List.replicate 72 1))
    none [1] [0, 0] [2] false [] 1 (some (Scalar.floating 0)) none 1 1 0 0 2 2 rfl rfl rfl
    (by decide)).elim fun c hc => ⟨c, hc,
      (create_clamp_bounds true (stale_pool 7)
        (host_tensor [2, 4, 3, 3] (List.replicate 72 1)) none [1] [0, 0] [2] false [] 1
        (some (Scalar.floating 0)) none c hc).1 _ rfl,
      (create_clamp_bounds true (stale_pool 7)
        (host_tensor [2, 4, 3, 3] (List.replicate 72 1)) none [1] [0, 0] [2] false [] 1
        (some (Scalar.floating 0)) none c hc).2.2.2.1 rfl⟩

/-- The packed state the constructor builds depends on stride, padding and
dilation only through their expansions. -/
theorem construct_packed_congr [Zero α] (pool : Pool α) (w : Tensor α)
    (bias : Option (Tensor α)) (s1 p1 d1 s2 p2 d2 : List Int) (tr : Bool) (op : List Int)
    (g : Int) (mn mx : Option Scalar)
    (hs : expand_param_if_needed s1 2 = expand_param_if_needed s2 2)
    (hp : expand_param_if_needed p1 2 = expand_param_if_needed p2 2)
    (hd : expand_param_if_needed d1 2 = expand_param_if_needed d2 2) :
    (Context.construct pool w bias s1 p1 d1 tr op g mn mx).map (fun c => c.packed_) =
      (Context.construct pool w bias s2 p2 d2 tr op g mn mx).map (fun c => c.packed_) := by
  unfold Context.construct
  rw [hs, hp, hd]
  rcases pack_weights pool w g with e | vw
  · simp only [error_bind]
  rcases pack_biases pool bias w with e | vb
  · simp only [error_bind]
  rcases expand_param_if_needed d2 2 with e | d
  · simp only [error_bind]
  simp only [ok_bind]
  rcases pack_filter w d with e | pf
  · simp only [error_bind]
  rcases expand_param_if_needed s2 2 with e | s
  · simp only [error_bind]
  simp only [ok_bind]
  rcases pack_params s with e | ps
  · simp only [error_bind]
  rcases expand_param_if_needed p2 2 with e | p
  · simp only [error_bind]
  simp only [ok_bind]
  rcases pack_params p with e | pp
  · simp only [error_bind]
  rcases pack_params d with e | pd
  · simp only [error_bind]
  simp only [ok_bind]
  rfl

/-- The packed state of a created context depends on stride, padding and
dilation only through their expansions. -/
theorem create_packed_congr [Zero α] (api : Bool) (pool : Pool α) (w : Tensor α)
    (bias : Option (Tensor α)) (s1 p1 d1 s2 p2 d2 : List Int) (tr : Bool) (op : List Int)
    (g : Int) (mn mx : Option Scalar)
    (hs : expand_param_if_needed s1 2 = expand_param_if_needed s2 2)
    (hp : expand_param_if_needed p1 2 = expand_param_if_needed p2 2)
    (hd : expand_param_if_needed d1 2 = expand_param_if_needed d2 2) :
    (Context.create api pool w bias s1 p1 d1 tr op g mn mx).map (fun c => c.packed_) =
      (Context.create api pool w bias s2 p2 d2 tr op g mn mx).map (fun c => c.packed_) := by
  have hcon := construct_packed_congr pool w bias s1 p1 d1 s2 p2 d2 tr op g mn mx hs hp hd
  unfold Context.create
  rw [hs, hp, hd]
  rcases expand_param_if_needed s2 2 with e | s
  · simp only [error_bind]
  rcases expand_param_if_needed p2 2 with e | p
  · simp only [error_bind]
  rcases expand_param_if_needed d2 2 with e | d
  · simp only [error_bind]
  simp only [ok_bind]
  rcases available api w bias s p d tr op g mn mx with e | r
  · simp only [error_bind]
  cases r
  · rfl
  · simpa only [ok_bind, if_true] using hcon

theorem expand_single (v : Int) :
    expand_param_if_needed [v] 2 = expand_param_if_needed [v, v] 2 := rfl

/-- C15: passing the one-element list [v] for stride, padding or dilation to
`Context::create` gives the same outcome and the same packed state (packed
weight, bias, filter, stride, padding, dilation, groups, clamp bounds) as
passing [v, v], for each of the three parameters separately and for all three
together; a context created from [sv], [pv], [dv] has the packed pairs
(sv, sv), (pv, pv), (dv, dv). -/
theorem create_broadcast [Zero α] (api : Bool) (pool : Pool α) (w : Tensor α)
    (bias : Option (Tensor α)) (sv pv dv : Int) (stride padding dilation : List Int)
    (tr : Bool) (op : List Int) (g : Int) (mn mx : Option Scalar) :
    (Context.create api pool w bias [sv] padding dilation tr op g mn mx).map
        (fun c => c.packed_) =
      (Context.create api pool w bias [sv, sv] padding dilation tr op g mn mx).map
        (fun c => c.packed_) ∧
    (Context.create api pool w bias stride [pv] dilation tr op g mn mx).map
        (fun c => c.packed_) =
      (Context.create api pool w bias stride [pv, pv] dilation tr op g mn mx).map
        (fun c => c.packed_) ∧
    (Context.create api pool w bias stride padding [dv] tr op g mn mx).map
        (fun c => c.packed_) =
      (Context.create api pool w bias stride padding [dv, dv] tr op g mn mx).map
        (fun c => c.packed_) ∧
    (Context.create api pool w bias [sv] [pv] [dv] tr op g mn mx).map
        (fun c => c.packed_) =
      (Context.create api pool w bias [sv, sv] [pv, pv] [dv, dv] tr op g mn mx).map
        (fun c => c.packed_) ∧
    (∀ c : Context α, Context.create api pool w bias [sv] [pv] [dv] tr op g mn mx = .ok c →
      c.packed_.stride = [sv, sv] ∧ c.packed_.padding = [pv, pv] ∧
      c.packed_.dilation = [dv, dv]) := by
  refine ⟨create_packed_congr api pool w bias _ _ _ _ _ _ tr op g mn mx (expand_single sv)
      rfl rfl,
    create_packed_congr api pool w bias _ _ _ _ _ _ tr op g mn mx rfl (expand_single pv) rfl,
    create_packed_congr api pool w bias _ _ _ _ _ _ tr op g mn mx rfl rfl (expand_single dv),
    create_packed_congr api pool w bias _ _ _ _ _ _ tr op g mn mx (expand_single sv)
      (expand_single pv) (expand_single dv), ?_⟩
  intro c hc
  obtain ⟨OC, IC, KH, KW, sh, sw, ph, pw, dh, dw, -, hs, hp, hd, -, -, hst, hpd, hdl, -⟩ :=
    create_shape api pool w bias [sv] [pv] [dv] tr op g mn mx c hc
  cases hs
  cases hp
  cases hd
  exact ⟨hst, hpd, hdl⟩

/-- Witness of C15: for the depthwise test weight, stride [3] gives the packed
stride (3, 3), as stride [3, 3] does. -/
theorem create_broadcast_witness :
    (Context.create true (stale_pool 7) (host_tensor [7, 1, 1, 1] [1, 2, 3, 4, 5, 6, 7]) none
        [3] [0] [1] false [] 7 none none).map (fun c => c.packed_.stride) = .ok [3, 3] ∧
      (Context.create true (stale_pool 7) (host_tensor [7, 1, 1, 1] [1, 2, 3, 4, 5, 6, 7]) none
          [3] [0] [1] false [] 7 none none).map (fun c => c.packed_) =
        (Context.create true (stale_pool 7) (host_tensor [7, 1, 1, 1] [1, 2, 3, 4, 5, 6, 7])
          none [3, 3] [0, 0] [1, 1] false [] 7 none none).map (fun c => c.packed_) :=
  ⟨by decide,
    (create_broadcast true (stale_pool 7) (host_tensor [7, 1, 1, 1] [1, 2, 3, 4, 5, 6, 7]) none
      3 0 1 [] [] [] false [] 7 none none).2.2.2.1⟩

/-! ## Running a context: theorems -/

theorem usable_sizes (input : Tensor α) (h : usable input = .ok true) :
    ∃ N C H W : Nat, input.sizes = [N, C, H, W] := by
  obtain ⟨⟨N, C, H, W, hs, -⟩, -⟩ := (usable_true_iff input).mp h
  exact ⟨N, C, H, W, hs⟩

/-- C16: for every context returned by `Context::create` on a weight of shape
(OC, IC, KH, KW) and every input that is usable after device coercion, `run`
computes the output sizes and calls exactly one dispatch function, the first
whose test holds: `conv2d_depthwise` when OC equals the packed groups;
otherwise `conv2d_pointwise` when KH = 1 and KW = 1; otherwise `conv2d`.  The
packed groups are the `int32_t` copy of groups, equal to groups whenever
groups ≤ 2^31 - 1. -/
theorem run_selects_variant [Zero α] (api : Bool) (pool : Pool α) (w : Tensor α)
    (bias : Option (Tensor α)) (stride_arg padding_arg dilation_arg : List Int) (tr : Bool)
    (op : List Int) (g : Int) (mn mx : Option Scalar) (c : Context α) (images : Bool)
    (input_arg : Tensor α) (OC IC KH KW : Nat)
    (hc : Context.create api pool w bias stride_arg padding_arg dilation_arg tr op g mn mx =
      .ok c)
    (hw : w.sizes = [OC, IC, KH, KW])
    (hu : usable (if input_arg.is_vulkan then input_arg else input_arg.vulkan) = .ok true) :
    ∃ out : List Int,
      conv_output_size (convert (if input_arg.is_vulkan then input_arg else input_arg.vulkan)).sizes
        c.unpacked_.filter c.packed_.padding c.packed_.stride c.packed_.dilation = .ok out ∧
      ((OC : Int) = c.packed_.groups →
        c.run images input_arg = Except.map (fun ds => RunResult.mk out ds)
          (conv2d_depthwise images out
            (convert (if input_arg.is_vulkan then input_arg else input_arg.vulkan))
            c.packed_.v_weight c.packed_.v_bias c.packed_.filter c.packed_.stride
            c.packed_.padding c.packed_.dilation c.packed_.output_min c.packed_.output_max)) ∧
      ((OC : Int) ≠ c.packed_.groups → KH = 1 ∧ KW = 1 →
        c.run images input_arg = Except.map (fun ds => RunResult.mk out ds)
          (conv2d_pointwise images out
            (convert (if input_arg.is_vulkan then input_arg else input_arg.vulkan))
            c.packed_.v_weight c.packed_.v_bias c.packed_.stride
            c.packed_.padding c.packed_.output_min c.packed_.output_max)) ∧
      ((OC : Int) ≠ c.packed_.groups → ¬ (KH = 1 ∧ KW = 1) →
        c.run images input_arg = Except.map (fun ds => RunResult.mk out ds)
          (conv2d images out
            (convert (if input_arg.is_vulkan then input_arg else input_arg.vulkan))
            c.packed_.v_weight c.packed_.v_bias c.packed_.filter c.packed_.stride
            c.packed_.padding c.packed_.dilation c.packed_.output_min c.packed_.output_max)) ∧
      c.packed_.groups = to_int32 g ∧ (g ≤ 2147483647 → c.packed_.groups = g) := by
  obtain ⟨OC1, IC1, KH1, KW1, sh, sw, ph, pw, dh, dw, hw1, -, -, -, hspec, -, hst, hpd, hdl,
    hgr, -, -, hun⟩ :=
    create_shape api pool w bias stride_arg padding_arg dilation_arg tr op g mn mx c hc
  rw [hw] at hw1
  simp only [List.cons.injEq, and_true] at hw1
  obtain ⟨rfl, rfl, rfl, rfl⟩ := hw1
  obtain ⟨-, -, -, -, hsh, hsw, -, -, -, -, hg, -⟩ := hspec
  obtain ⟨N, C, H, W, hin⟩ := usable_sizes _ hu
  have hf : c.unpacked_.filter = [OC, IC, KH, KW] := by rw [hun, ← hw]
  have hrun := run_eq c images input_arg N C H W OC IC KH KW sh sw ph pw dh dw hu hin hf hst
    hpd hdl (by omega) (by omega)
  refine ⟨[(N : Int), (OC : Int),
    Int.tdiv ((H : Int) + 2 * ph - (dh * ((KH : Int) - 1) + 1)) sh + 1,
    Int.tdiv ((W : Int) + 2 * pw - (dw * ((KW : Int) - 1) + 1)) sw + 1], ?_, ?_, ?_, ?_, hgr, ?_⟩
  · simp only [convert, hin, hf, hst, hpd, hdl]
    exact conv_output_size_eq N C H W OC IC KH KW sh sw ph pw dh dw (by omega) (by omega)
  · intro h
    rw [hrun, if_pos h]
  · intro h hk
    rw [hrun, if_neg h, if_pos hk]
  · intro h hk
    rw [hrun, if_neg h, if_neg hk]
  · intro hle
    rw [hgr]
    exact to_int32_of_range g (by omega) hle

/-- Witness of C16: the context of the depthwise test (weight (7,1,17,7),
groups 7) calls `conv2d_depthwise` on the input of shape (1,7,137,199); with
image-backed tensors a 1x1 weight (3,1,1,1) with groups 3 dispatches the
depthwise kernel, the weight (2,4,3,3) with groups 1 the general kernel and
the weight (7,1,17,7) with groups 7 the depthwise kernel. -/
theorem run_selects_variant_witness :
    (∃ (c : Context Nat) (out : List Int),
      Context.create true (stale_pool 7) (host_tensor [7, 1, 17, 7] (List.replicate 833 1))
        none [1, 3] [2, 0] [1, 2] false [] 7 none none = .ok c ∧
      c.run true (host_tensor [1, 7, 137, 199] (List.replicate 190841 0)) = Except.map (fun ds => RunResult.mk out ds)
        (conv2d_depthwise true out (convert (host_tensor [1, 7, 137, 199] (List.replicate 190841 0)).vulkan)
          c.packed_.v_weight c.packed_.v_bias c.packed_.filter c.packed_.stride
          c.packed_.padding c.packed_.dilation c.packed_.output_min c.packed_.output_max)) ∧
    (convolution true true (stale_pool 7) (host_tensor [1, 3, 5, 5] (List.replicate 75 0))
        (host_tensor [3, 1, 1, 1] [1, 2, 3]) none [1, 1] [0, 0] [1, 1] false [] 3).map
      (fun r => r.dispatched.map (fun d => d.kernel)) = .ok [Kernel.conv2d_dw] ∧
    (convolution true true (stale_pool 7) (host_tensor [1, 4, 3, 3] (List.replicate 36 1))
        (host_tensor [2, 4, 3, 3] (List.replicate 72 1)) none [1, 1] [0, 0] [1, 1] false []
        1).map
      (fun r => r.dispatched.map (fun d => d.kernel)) = .ok [Kernel.conv2d] ∧
    (convolution true true (stale_pool 7) (host_tensor [1, 7, 137, 199] (List.replicate 190841 0))
        (host_tensor [7, 1, 17, 7] (List.replicate 833 1)) none [1, 3] [2, 0] [1, 2] false []
        7).map
      (fun r => r.dispatched.map (fun d => d.kernel)) = .ok [Kernel.conv2d_dw] := by
  refine ⟨?_, by decide, by decide, by decide⟩
  obtain ⟨c, hc⟩ := create_of_available true (stale_pool 7)
    (host_tensor [7, 1, 17, 7] (List.replicate 833 1)) none [1, 3] [2, 0] [1, 2] false [] 7
    none none 1 3 2 0 1 2 rfl rfl rfl (by decide)
  obtain ⟨out, -, hdw, -, -, -, hgr⟩ := run_selects_variant true (stale_pool 7)
    (host_tensor [7, 1, 17, 7] (List.replicate 833 1)) none [1, 3] [2, 0] [1, 2] false [] 7
    none none c true (host_tensor [1, 7, 137, 199] (List.replicate 190841 0)) 7 1 17 7 hc rfl (by decide)
  exact ⟨c, out, hc, hdw (by rw [hgr (by decide)]; rfl)⟩

/-- C17, the code at a failing input: for the context created from the host
weight of shape (2,4,1,1) with groups 1 (a 1x1 filter whose output channels
differ from groups) and the input of shape (1,4,3,3), with image-backed
tensors, `run` returns an output tensor of sizes (1,2,3,3) and has issued no
dispatch at all: the pointwise function builds its parameter block and
returns, its dispatch call being commented out.  The "Not implemented" error
is raised only when a tensor has no image. -/
theorem pointwise_run_returns_without_dispatch :
    convolution true true (stale_pool 7) (host_tensor [1, 4, 3, 3] (List.replicate 36 1))
        (host_tensor [2, 4, 1, 1] [1, 2, 3, 4, 5, 6, 7, 8]) none [1, 1] [0, 0] [1, 1] false []
        1 = .ok (RunResult.mk [1, 2, 3, 3] []) ∧
      convolution true false (stale_pool 7) (host_tensor [1, 4, 3, 3] (List.replicate 36 1))
        (host_tensor [2, 4, 1, 1] [1, 2, 3, 4, 5, 6, 7, 8]) none [1, 1] [0, 0] [1, 1] false []
        1 = .error Error.not_implemented := by
  decide

/-- C18: `usable` always returns a boolean, and returns true exactly when the
input is 4-D, on the Vulkan device, float32, with batch ≥ 0, channels, height
and width > 0 and no gradient requirement (`usable_spec`); and whenever
`usable` is false for the device-coerced input, `run` fails with the
"not usable" error, whatever the context. -/
theorem usable_iff_documented (input : Tensor α) (c : Context α) (images : Bool)
    (input_arg : Tensor α) :
    (∃ r, usable input = .ok r) ∧
    (usable input = .ok true ↔ usable_spec input) ∧
    (usable (if input_arg.is_vulkan then input_arg else input_arg.vulkan) = .ok false →
      c.run images input_arg = .error Error.not_usable) ∧
    (¬ usable_spec (if input_arg.is_vulkan then input_arg else input_arg.vulkan) →
      c.run images input_arg = .error Error.not_usable) := by
  have hfalse : usable (if input_arg.is_vulkan then input_arg else input_arg.vulkan) =
      .ok false → c.run images input_arg = .error Error.not_usable := by
    intro h
    unfold Context.run
    simp only [h, ok_bind]
    rfl
  refine ⟨usable_total input, usable_true_iff input, hfalse, ?_⟩
  intro hn
  apply hfalse
  obtain ⟨r, hr⟩ := usable_total (if input_arg.is_vulkan then input_arg else input_arg.vulkan)
  cases r
  · exact hr
  · exact absurd ((usable_true_iff _).mp hr) hn

/-- Witness of C18: an input of shape (1,4,3,3) that requires gradients is not
usable, and `run` on it fails with "not usable". -/
theorem usable_iff_documented_witness :
    ∀ c : Context Nat,
      c.run true { host_tensor [1, 4, 3, 3] (List.replicate 36 1) with requires_grad := true } =
        .error Error.not_usable :=
  fun c => (usable_iff_documented (host_tensor [1, 4, 3, 3] (List.replicate 36 1)) c true
    { host_tensor [1, 4, 3, 3] (List.replicate 36 1) with requires_grad := true }).2.2.1
    (by decide)

theorem effective_kernel_eq (k d : Int) : k + (k - 1) * (d - 1) = d * (k - 1) + 1 := by
  ring

/-- C19: for every context returned by `Context::create` on a weight of shape
(OC, IC, KH, KW) with expanded stride (sh, sw), padding (ph, pw) and dilation
(dh, dw), and every usable input of shape (N, C, H, W): the packed filter
holds the `int64_t` values of the dilation-expanded kernel sizes
EKH = KH + (KH-1)*(dh-1) and EKW = KW + (KW-1)*(dw-1), which are EKH and EKW
themselves whenever these are representable in `int64_t`, and which equal
dh*(KH-1) + 1 and dw*(KW-1) + 1; the output sizes `run` computes are (N, OC, (H + 2*ph - EKH)/sh + 1,
(W + 2*pw - EKW)/sw + 1) with the truncating division of C++; every result of
`run` carries these sizes; and with image-backed tensors and packed values
that fit `int32_t`, `run` returns such a result. -/
theorem run_output_sizes [Zero α] (api : Bool) (pool : Pool α) (w : Tensor α)
    (bias : Option (Tensor α)) (stride_arg padding_arg dilation_arg : List Int) (tr : Bool)
    (op : List Int) (g : Int) (mn mx : Option Scalar) (c : Context α) (images : Bool)
    (input_arg : Tensor α) (N C H W OC IC KH KW : Nat) (sh sw ph pw dh dw : Int)
    (hc : Context.create api pool w bias stride_arg padding_arg dilation_arg tr op g mn mx =
      .ok c)
    (hw : w.sizes = [OC, IC, KH, KW])
    (hs : expand_param_if_needed stride_arg 2 = .ok [sh, sw])
    (hp : expand_param_if_needed padding_arg 2 = .ok [ph, pw])
    (hd : expand_param_if_needed dilation_arg 2 = .ok [dh, dw])
    (hu : usable (if input_arg.is_vulkan then input_arg else input_arg.vulkan) = .ok true)
    (hin : (if input_arg.is_vulkan then input_arg else input_arg.vulkan).sizes =
      [N, C, H, W]) :
    c.packed_.filter = [((align_up OC 4 : Nat) : Int), (IC : Int),
      wrap_int64 ((KH : Int) + ((KH : Int) - 1) * (dh - 1)),
      wrap_int64 ((KW : Int) + ((KW : Int) - 1) * (dw - 1))] ∧
    (fits_int64 ((KH : Int) + ((KH : Int) - 1) * (dh - 1)) →
      fits_int64 ((KW : Int) + ((KW : Int) - 1) * (dw - 1)) →
      c.packed_.filter = [((align_up OC 4 : Nat) : Int), (IC : Int),
        (KH : Int) + ((KH : Int) - 1) * (dh - 1), (KW : Int) + ((KW : Int) - 1) * (dw - 1)]) ∧
    (KH : Int) + ((KH : Int) - 1) * (dh - 1) = dh * ((KH : Int) - 1) + 1 ∧
    (KW : Int) + ((KW : Int) - 1) * (dw - 1) = dw * ((KW : Int) - 1) + 1 ∧
    conv_output_size (convert (if input_arg.is_vulkan then input_arg else input_arg.vulkan)).sizes
        c.unpacked_.filter c.packed_.padding c.packed_.stride c.packed_.dilation =
      .ok [(N : Int), (OC : Int),
        Int.tdiv ((H : Int) + 2 * ph - ((KH : Int) + ((KH : Int) - 1) * (dh - 1))) sh + 1,
        Int.tdiv ((W : Int) + 2 * pw - ((KW : Int) + ((KW : Int) - 1) * (dw - 1))) sw + 1] ∧
    (∀ r : RunResult α, c.run images input_arg = .ok r →
      r.output_sizes = [(N : Int), (OC : Int),
        Int.tdiv ((H : Int) + 2 * ph - ((KH : Int) + ((KH : Int) - 1) * (dh - 1))) sh + 1,
        Int.tdiv ((W : Int) + 2 * pw - ((KW : Int) + ((KW : Int) - 1) * (dw - 1))) sw + 1]) ∧
    (fits_int32 ((align_up OC 4 : Nat) : Int) → fits_int32 (IC : Int) →
      fits_int32 ((KH : Int) + ((KH : Int) - 1) * (dh - 1)) →
      fits_int32 ((KW : Int) + ((KW : Int) - 1) * (dw - 1)) →
      fits_int32 sh → fits_int32 sw → fits_int32 ph → fits_int32 pw →
      fits_int32 dh → fits_int32 dw →
      ∃ r : RunResult α, c.run true input_arg = .ok r ∧
        r.output_sizes = [(N : Int), (OC : Int),
          Int.tdiv ((H : Int) + 2 * ph - ((KH : Int) + ((KH : Int) - 1) * (dh - 1))) sh + 1,
          Int.tdiv ((W : Int) + 2 * pw - ((KW : Int) + ((KW : Int) - 1) * (dw - 1))) sw + 1]) := by
  obtain ⟨OC1, IC1, KH1, KW1, sh1, sw1, ph1, pw1, dh1, dw1, hw1, hs1, hp1, hd1, hspec, hfl,
    hst, hpd, hdl, hgr, -, -, hun⟩ :=
    create_shape api pool w bias stride_arg padding_arg dilation_arg tr op g mn mx c hc
  rw [hw] at hw1
  simp only [List.cons.injEq, and_true] at hw1
  obtain ⟨rfl, rfl, rfl, rfl⟩ := hw1
  rw [hs] at hs1
  rw [hp] at hp1
  rw [hd] at hd1
  simp only [Except.ok.injEq, List.cons.injEq, and_true] at hs1 hp1 hd1
  obtain ⟨rfl, rfl⟩ := hs1
  obtain ⟨rfl, rfl⟩ := hp1
  obtain ⟨rfl, rfl⟩ := hd1
  obtain ⟨-, -, -, -, hsh, hsw, -, -, -, -, hg, -⟩ := hspec
  have hf : c.unpacked_.filter = [OC, IC, KH, KW] := by rw [hun, ← hw]
  have hrun := run_eq c images input_arg N C H W OC IC KH KW sh sw ph pw dh dw hu hin hf hst
    hpd hdl (by omega) (by omega)
  have hrunT := run_eq c true input_arg N C H W OC IC KH KW sh sw ph pw dh dw hu hin hf hst
    hpd hdl (by omega) (by omega)
  rw [← effective_kernel_eq (KH : Int) dh, ← effective_kernel_eq (KW : Int) dw] at hrun hrunT
  have hflr : fits_int64 ((KH : Int) + ((KH : Int) - 1) * (dh - 1)) →
      fits_int64 ((KW : Int) + ((KW : Int) - 1) * (dw - 1)) →
      c.packed_.filter = [((align_up OC 4 : Nat) : Int), (IC : Int),
        (KH : Int) + ((KH : Int) - 1) * (dh - 1),
        (KW : Int) + ((KW : Int) - 1) * (dw - 1)] := by
    intro fh fw
    rw [hfl, wrap_int64_of_fits _ fh, wrap_int64_of_fits _ fw]
  refine ⟨hfl, hflr, effective_kernel_eq _ _, effective_kernel_eq _ _, ?_, ?_, ?_⟩
  · simp only [convert, hin, hf, hst, hpd, hdl]
    rw [conv_output_size_eq N C H W OC IC KH KW sh sw ph pw dh dw (by omega) (by omega),
      ← effective_kernel_eq (KH : Int) dh, ← effective_kernel_eq (KW : Int) dw]
  · intro r hr
    rw [hrun] at hr
    generalize (if (OC : Int) = c.packed_.groups then _ else _ :
      Except Error (List (Dispatch α))) = ds at hr
    rcases ds with e | ds
    · cases hr
    · cases hr
      rfl
  · intro f1 f2 f3 f4 f5 f6 f7 f8 f9 f10
    rw [hrunT, hflr (fits_int64_of_fits_int32 _ f3) (fits_int64_of_fits_int32 _ f4), hst, hpd,
      hdl]
    by_cases hgd : (OC : Int) = c.packed_.groups
    · rw [if_pos hgd, conv2d_depthwise_fits _ _ _ _ _ _ _ _ _ _ _ _ _ _ _ _ f4 f3 f6 f5 f8 f7
        f10 f9]
      exact ⟨_, rfl, rfl⟩
    · rw [if_neg hgd]
      by_cases hk : KH = 1 ∧ KW = 1
      · rw [if_pos hk, conv2d_pointwise_fits _ _ _ _ _ _ _ _ _ _ f6 f5 f8 f7]
        exact ⟨_, rfl, rfl⟩
      · rw [if_neg hk, conv2d_fits _ _ _ _ _ _ _ _ _ _ _ _ _ _ _ _ f4 f3 f2 f1 f6 f5 f8 f7
          f10 f9]
        exact ⟨_, rfl, rfl⟩

/-- Witness of C19: input (1,7,137,199), weight (7,1,17,7), stride (1,3),
padding (2,0), dilation (1,2) gives the output sizes (1,7,125,63); input
(1,4,3,3), weight (2,4,3,3), unit stride and dilation, zero padding gives
(1,2,1,1). -/
theorem run_output_sizes_witness :
    (∃ c : Context Nat,
      Context.create true (stale_pool 7) (host_tensor [7, 1, 17, 7] (List.replicate 833 1))
        none [1, 3] [2, 0] [1, 2] false [] 7 none none = .ok c ∧
      conv_output_size
          (convert (host_tensor [1, 7, 137, 199] (List.replicate 190841 0)).vulkan).sizes
          c.unpacked_.filter c.packed_.padding c.packed_.stride c.packed_.dilation =
        .ok [1, 7, 125, 63]) ∧
    (convolution true true (stale_pool 7)
        (host_tensor [1, 7, 137, 199] (List.replicate 190841 0))
        (host_tensor [7, 1, 17, 7] (List.replicate 833 1)) none [1, 3] [2, 0] [1, 2] false []
        7).map (fun r => r.output_sizes) = .ok [1, 7, 125, 63] ∧
    (convolution true true (stale_pool 7) (host_tensor [1, 4, 3, 3] (List.replicate 36 1))
        (host_tensor [2, 4, 3, 3] (List.replicate 72 1)) none [1, 1] [0, 0] [1, 1] false []
        1).map (fun r => r.output_sizes) = .ok [1, 2, 1, 1] := by
  refine ⟨?_, by decide, by decide⟩
  obtain ⟨c, hc⟩ := create_of_available true (stale_pool 7)
    (host_tensor [7, 1, 17, 7] (List.replicate 833 1)) none [1, 3] [2, 0] [1, 2] false [] 7
    none none 1 3 2 0 1 2 rfl rfl rfl (by decide)
  exact ⟨c, hc, (run_output_sizes true (stale_pool 7)
    (host_tensor [7, 1, 17, 7] (List.replicate 833 1)) none [1, 3] [2, 0] [1, 2] false [] 7
    none none c true (host_tensor [1, 7, 137, 199] (List.replicate 190841 0))
    1 7 137 199 7 1 17 7 1 3 2 0 1 2 hc rfl rfl rfl rfl (by decide) rfl).2.2.2.2.1⟩

/-- C20: for every context returned by `Context::create` on a weight of shape
(OC, IC, KH, KW) that takes the general path (OC differs from the packed
groups and the kernel is not 1x1), on a usable input with image-backed
tensors and packed values that fit `int32_t`, `run` issues exactly one
dispatch of the kernel `conv2d` whose parameter block holds, in this order:
packed kernel width, packed kernel height, packed input channels, packed
output channels, stride width, stride height, padding width, padding height,
dilation width, dilation height (ten `int32_t`), then clamp minimum and clamp
maximum (two `float`); the packed pairs are stored (height, width). -/
theorem run_general_block [Zero α] (api : Bool) (pool : Pool α) (w : Tensor α)
    (bias : Option (Tensor α)) (stride_arg padding_arg dilation_arg : List Int) (tr : Bool)
    (op : List Int) (g : Int) (mn mx : Option Scalar) (c : Context α)
    (input_arg : Tensor α) (OC IC KH KW : Nat) (sh sw ph pw dh dw : Int)
    (hc : Context.create api pool w bias stride_arg padding_arg dilation_arg tr op g mn mx =
      .ok c)
    (hw : w.sizes = [OC, IC, KH, KW])
    (hs : expand_param_if_needed stride_arg 2 = .ok [sh, sw])
    (hp : expand_param_if_needed padding_arg 2 = .ok [ph, pw])
    (hd : expand_param_if_needed dilation_arg 2 = .ok [dh, dw])
    (hu : usable (if input_arg.is_vulkan then input_arg else input_arg.vulkan) = .ok true)
    (hgen : (OC : Int) ≠ to_int32 g) (hk : ¬ (KH = 1 ∧ KW = 1))
    (f0 : fits_int32 ((align_up OC 4 : Nat) : Int)) (f1 : fits_int32 (IC : Int))
    (f2 : fits_int32 ((KH : Int) + ((KH : Int) - 1) * (dh - 1)))
    (f3 : fits_int32 ((KW : Int) + ((KW : Int) - 1) * (dw - 1)))
    (fsh : fits_int32 sh) (fsw : fits_int32 sw) (fph : fits_int32 ph) (fpw : fits_int32 pw)
    (fdh : fits_int32 dh) (fdw : fits_int32 dw) :
    c.packed_.filter = [((align_up OC 4 : Nat) : Int), (IC : Int),
      (KH : Int) + ((KH : Int) - 1) * (dh - 1), (KW : Int) + ((KW : Int) - 1) * (dw - 1)] ∧
    c.packed_.stride = [sh, sw] ∧ c.packed_.padding = [ph, pw] ∧
    c.packed_.dilation = [dh, dw] ∧
    ∃ out : List Int, c.run true input_arg = .ok (RunResult.mk out
      [Dispatch.mk Kernel.conv2d out
        (convert (if input_arg.is_vulkan then input_arg else input_arg.vulkan))
        c.packed_.v_weight c.packed_.v_bias
        (Block.mk
          [(KW : Int) + ((KW : Int) - 1) * (dw - 1), (KH : Int) + ((KH : Int) - 1) * (dh - 1),
            (IC : Int), ((align_up OC 4 : Nat) : Int), sw, sh, pw, ph, dw, dh]
          [c.packed_.output_min, c.packed_.output_max])]) := by
  obtain ⟨OC1, IC1, KH1, KW1, sh1, sw1, ph1, pw1, dh1, dw1, hw1, hs1, hp1, hd1, hspec, hfl,
    hst, hpd, hdl, hgr, -, -, hun⟩ :=
    create_shape api pool w bias stride_arg padding_arg dilation_arg tr op g mn mx c hc
  rw [hw] at hw1
  simp only [List.cons.injEq, and_true] at hw1
  obtain ⟨rfl, rfl, rfl, rfl⟩ := hw1
  rw [hs] at hs1
  rw [hp] at hp1
  rw [hd] at hd1
  simp only [Except.ok.injEq, List.cons.injEq, and_true] at hs1 hp1 hd1
  obtain ⟨rfl, rfl⟩ := hs1
  obtain ⟨rfl, rfl⟩ := hp1
  obtain ⟨rfl, rfl⟩ := hd1
  obtain ⟨-, -, -, -, hsh, hsw, -, -, -, -, hg, -⟩ := hspec
  obtain ⟨N, C, H, W, hin⟩ := usable_sizes _ hu
  have hf : c.unpacked_.filter = [OC, IC, KH, KW] := by rw [hun, ← hw]
  have hrun := run_eq c true input_arg N C H W OC IC KH KW sh sw ph pw dh dw hu hin hf hst
    hpd hdl (by omega) (by omega)
  rw [wrap_int64_of_fits _ (fits_int64_of_fits_int32 _ f2),
    wrap_int64_of_fits _ (fits_int64_of_fits_int32 _ f3)] at hfl
  refine ⟨hfl, hst, hpd, hdl, [(N : Int), (OC : Int),
    Int.tdiv ((H : Int) + 2 * ph - (dh * ((KH : Int) - 1) + 1)) sh + 1,
    Int.tdiv ((W : Int) + 2 * pw - (dw * ((KW : Int) - 1) + 1)) sw + 1], ?_⟩
  rw [hrun, if_neg (by rw [hgr]; exact hgen), if_neg hk, hfl, hst, hpd, hdl,
    conv2d_fits _ _ _ _ _ _ _ _ _ _ _ _ _ _ _ _ f3 f2 f1 f0 fsw fsh fpw fph fdw fdh]
  rfl

/-- Witness of C20: the context of the general test (weight (2,4,3,3), groups
1, unit stride and dilation, zero padding) on the input (1,4,3,3) dispatches
`conv2d` with the integer block [3, 3, 4, 4, 1, 1, 0, 0, 1, 1]; with stride
(1,3), padding (2,0) and dilation (1,2) the block is
[5, 3, 4, 4, 3, 1, 0, 2, 2, 1], each width before its height. -/
theorem run_general_block_witness :
    (∃ (c : Context Nat) (out : List Int),
      Context.create true (stale_pool 7) (host_tensor [2, 4, 3, 3] (List.replicate 72 1))
        none [1, 1] [0, 0] [1, 1] false [] 1 none none = .ok c ∧
      c.run true (host_tensor [1, 4, 3, 3] (List.replicate 36 1)) = .ok (RunResult.mk out
        [Dispatch.mk Kernel.conv2d out
          (convert (host_tensor [1, 4, 3, 3] (List.replicate 36 1)).vulkan)
          c.packed_.v_weight c.packed_.v_bias
          (Block.mk [3, 3, 4, 4, 1, 1, 0, 0, 1, 1]
            [c.packed_.output_min, c.packed_.output_max])])) ∧
    (convolution true true (stale_pool 7) (host_tensor [1, 4, 9, 9] (List.replicate 324 1))
        (host_tensor [2, 4, 3, 3] (List.replicate 72 1)) none [1, 3] [2, 0] [1, 2] false []
        1).map (fun r => r.dispatched.map (fun d => (d.kernel, d.block))) =
      .ok [(Kernel.conv2d, Block.mk [5, 3, 4, 4, 3, 1, 0, 2, 2, 1]
        [FloatValue.neg_infinity, FloatValue.pos_infinity])] := by
  refine ⟨?_, by decide⟩
  obtain ⟨c, hc⟩ := create_of_available true (stale_pool 7)
    (host_tensor [2, 4, 3, 3] (List.replicate 72 1)) none [1, 1] [0, 0] [1, 1] false [] 1
    none none 1 1 0 0 1 1 rfl rfl rfl (by decide)
  obtain ⟨-, -, -, -, out, hrun⟩ := run_general_block true (stale_pool 7)
    (host_tensor [2, 4, 3, 3] (List.replicate 72 1)) none [1, 1] [0, 0] [1, 1] false [] 1
    none none c (host_tensor [1, 4, 3, 3] (List.replicate 36 1)) 2 4 3 3 1 1 0 0 1 1 hc rfl
    rfl rfl rfl (by decide) (by decide) (by decide) (by decide) (by decide) (by decide)
    (by decide) (by decide) (by decide) (by decide) (by decide) (by decide) (by decide)
  exact ⟨c, out, hc, hrun⟩

/-! ## Checked narrowing of the parameter block -/

theorem conv2d_overflow (out : List Int) (vin vw vb : vTensor α)
    (f0 f1 f2 f3 s0 s1 p0 p1 d0 d1 : Int) (mn mx : FloatValue)
    (h : ¬ (fits_int32 f3 ∧ fits_int32 f2 ∧ fits_int32 f1 ∧ fits_int32 f0 ∧ fits_int32 s1 ∧
      fits_int32 s0 ∧ fits_int32 p1 ∧ fits_int32 p0 ∧ fits_int32 d1 ∧ fits_int32 d0)) :
    conv2d true out vin vw vb [f0, f1, f2, f3] [s0, s1] [p0, p1] [d0, d1] mn mx =
      .error Error.downcast_overflow := by
  unfold conv2d
  simp only [if_true, Layout.Filter.output, Layout.Filter.input, Layout.Filter.height,
    Layout.Filter.width, Layout.Parameter.height, Layout.Parameter.width, at_index_zero,
    at_index_one, at_index_two, at_index_three, ok_bind]
  by_cases h1 : fits_int32 f3
  swap
  · simp only [safe_downcast_overflow _ h1, error_bind]
  simp only [safe_downcast_fits _ h1, ok_bind]
  by_cases h2 : fits_int32 f2
  swap
  · simp only [safe_downcast_overflow _ h2, error_bind]
  simp only [safe_downcast_fits _ h2, ok_bind]
  by_cases h3 : fits_int32 f1
  swap
  · simp only [safe_downcast_overflow _ h3, error_bind]
  simp only [safe_downcast_fits _ h3, ok_bind]
  by_cases h4 : fits_int32 f0
  swap
  · simp only [safe_downcast_overflow _ h4, error_bind]
  simp only [safe_downcast_fits _ h4, ok_bind]
  by_cases h5 : fits_int32 s1
  swap
  · simp only [safe_downcast_overflow _ h5, error_bind]
  simp only [safe_downcast_fits _ h5, ok_bind]
  by_cases h6 : fits_int32 s0
  swap
  · simp only [safe_downcast_overflow _ h6, error_bind]
  simp only [safe_downcast_fits _ h6, ok_bind]
  by_cases h7 : fits_int32 p1
  swap
  · simp only [safe_downcast_overflow _ h7, error_bind]
  simp only [safe_downcast_fits _ h7, ok_bind]
  by_cases h8 : fits_int32 p0
  swap
  · simp only [safe_downcast_overflow _ h8, error_bind]
  simp only [safe_downcast_fits _ h8, ok_bind]
  by_cases h9 : fits_int32 d1
  swap
  · simp only [safe_downcast_overflow _ h9, error_bind]
  simp only [safe_downcast_fits _ h9, ok_bind]
  by_cases h10 : fits_int32 d0
  swap
  · simp only [safe_downcast_overflow _ h10, error_bind]
  exact absurd ⟨h1, h2, h3, h4, h5, h6, h7, h8, h9, h10⟩ h

theorem conv2d_depthwise_overflow (out : List Int) (vin vw vb : vTensor α)
    (f0 f1 f2 f3 s0 s1 p0 p1 d0 d1 : Int) (mn mx : FloatValue)
    (h : ¬ (fits_int32 f3 ∧ fits_int32 f2 ∧ fits_int32 s1 ∧
      fits_int32 s0 ∧ fits_int32 p1 ∧ fits_int32 p0 ∧ fits_int32 d1 ∧ fits_int32 d0)) :
    conv2d_depthwise true out vin vw vb [f0, f1, f2, f3] [s0, s1] [p0, p1] [d0, d1] mn mx =
      .error Error.downcast_overflow := by
  unfold conv2d_depthwise
  simp only [if_true, Layout.Filter.height,
    Layout.Filter.width, Layout.Parameter.height, Layout.Parameter.width, at_index_zero,
    at_index_one, at_index_two, at_index_three, ok_bind]
  by_cases h1 : fits_int32 f3
  swap
  · simp only [safe_downcast_overflow _ h1, error_bind]
  simp only [safe_downcast_fits _ h1, ok_bind]
  by_cases h2 : fits_int32 f2
  swap
  · simp only [safe_downcast_overflow _ h2, error_bind]
  simp only [safe_downcast_fits _ h2, ok_bind]
  by_cases h5 : fits_int32 s1
  swap
  · simp only [safe_downcast_overflow _ h5, error_bind]
  simp only [safe_downcast_fits _ h5, ok_bind]
  by_cases h6 : fits_int32 s0
  swap
  · simp only [safe_downcast_overflow _ h6, error_bind]
  simp only [safe_downcast_fits _ h6, ok_bind]
  by_cases h7 : fits_int32 p1
  swap
  · simp only [safe_downcast_overflow _ h7, error_bind]
  simp only [safe_downcast_fits _ h7, ok_bind]
  by_cases h8 : fits_int32 p0
  swap
  · simp only [safe_downcast_overflow _ h8, error_bind]
  simp only [safe_downcast_fits _ h8, ok_bind]
  by_cases h9 : fits_int32 d1
  swap
  · simp only [safe_downcast_overflow _ h9, error_bind]
  simp only [safe_downcast_fits _ h9, ok_bind]
  by_cases h10 : fits_int32 d0
  swap
  · simp only [safe_downcast_overflow _ h10, error_bind]
  exact absurd ⟨h1, h2, h5, h6, h7, h8, h9, h10⟩ h

/-- C21: with image-backed tensors, `conv2d` issues its dispatch exactly when
each of the ten 64-bit values it is given fits `int32_t`, and then each
integer field of the block is that value; `conv2d_depthwise` likewise with its
eight values; when a value does not fit, the call fails with the overflow
error and no dispatch is issued.  The narrowing `safe_downcast` returns its
argument unchanged or fails: 2^32 + 1 is rejected, not truncated to 1. -/
theorem dispatch_block_checked (out : List Int) (vin vw vb : vTensor α)
    (f0 f1 f2 f3 s0 s1 p0 p1 d0 d1 : Int) (mn mx : FloatValue) :
    conv2d true out vin vw vb [f0, f1, f2, f3] [s0, s1] [p0, p1] [d0, d1] mn mx =
      (if fits_int32 f3 ∧ fits_int32 f2 ∧ fits_int32 f1 ∧ fits_int32 f0 ∧ fits_int32 s1 ∧
          fits_int32 s0 ∧ fits_int32 p1 ∧ fits_int32 p0 ∧ fits_int32 d1 ∧ fits_int32 d0 then
        .ok [Dispatch.mk Kernel.conv2d out vin vw vb
          (Block.mk [f3, f2, f1, f0, s1, s0, p1, p0, d1, d0] [mn, mx])]
      else .error Error.downcast_overflow) ∧
    conv2d_depthwise true out vin vw vb [f0, f1, f2, f3] [s0, s1] [p0, p1] [d0, d1] mn mx =
      (if fits_int32 f3 ∧ fits_int32 f2 ∧ fits_int32 s1 ∧
          fits_int32 s0 ∧ fits_int32 p1 ∧ fits_int32 p0 ∧ fits_int32 d1 ∧ fits_int32 d0 then
        .ok [Dispatch.mk Kernel.conv2d_dw out vin vw vb
          (Block.mk [f3, f2, s1, s0, p1, p0, d1, d0] [mn, mx])]
      else .error Error.downcast_overflow) ∧
    (∀ v r : Int, safe_downcast v = .ok r → r = v ∧ -2147483648 ≤ v ∧ v ≤ 2147483647) ∧
    (∀ v : Int, (v < -2147483648 ∨ 2147483647 < v) →
      safe_downcast v = .error Error.downcast_overflow) ∧
    safe_downcast 4294967297 = .error Error.downcast_overflow := by
  refine ⟨?_, ?_, ?_, ?_, by decide⟩
  · split_ifs with h
    · obtain ⟨h1, h2, h3, h4, h5, h6, h7, h8, h9, h10⟩ := h
      exact conv2d_fits out vin vw vb f0 f1 f2 f3 s0 s1 p0 p1 d0 d1 mn mx h1 h2 h3 h4 h5 h6 h7
        h8 h9 h10
    · exact conv2d_overflow out vin vw vb f0 f1 f2 f3 s0 s1 p0 p1 d0 d1 mn mx h
  · split_ifs with h
    · obtain ⟨h1, h2, h5, h6, h7, h8, h9, h10⟩ := h
      exact conv2d_depthwise_fits out vin vw vb f0 f1 f2 f3 s0 s1 p0 p1 d0 d1 mn mx h1 h2 h5 h6
        h7 h8 h9 h10
    · exact conv2d_depthwise_overflow out vin vw vb f0 f1 f2 f3 s0 s1 p0 p1 d0 d1 mn mx h
  · intro v r hr
    by_cases hv : fits_int32 v
    · rw [safe_downcast_fits v hv] at hr
      cases hr
      exact ⟨rfl, hv.1, hv.2⟩
    · rw [safe_downcast_overflow v hv] at hr
      cases hr
  · intro v hv
    apply safe_downcast_overflow
    unfold fits_int32
    omega

/-- Witness of C21: the block of the general test, and a stride width of 2^31
that makes the dispatch fail. -/
theorem dispatch_block_checked_witness :
    conv2d true [1, 2, 1, 1] (vTensor.mk [1, 4, 3, 3] []) (vTensor.mk [1, 16, 3, 3] [])
        (vTensor.mk [2] [0, 0]) [4, 4, 3, 3] [1, 1] [0, 0] [1, 1] FloatValue.neg_infinity
        FloatValue.pos_infinity =
      .ok [Dispatch.mk Kernel.conv2d [1, 2, 1, 1] (vTensor.mk [1, 4, 3, 3] ([] : List Nat))
        (vTensor.mk [1, 16, 3, 3] []) (vTensor.mk [2] [0, 0])
        (Block.mk [3, 3, 4, 4, 1, 1, 0, 0, 1, 1]
          [FloatValue.neg_infinity, FloatValue.pos_infinity])] ∧
    conv2d true [1, 2, 1, 1] (vTensor.mk [1, 4, 3, 3] ([] : List Nat))
        (vTensor.mk [1, 16, 3, 3] []) (vTensor.mk [2] [0, 0]) [4, 4, 3, 3] [1, 2147483648]
        [0, 0] [1, 1] FloatValue.neg_infinity FloatValue.pos_infinity =
      .error Error.downcast_overflow :=
  ⟨((dispatch_block_checked [1, 2, 1, 1] (vTensor.mk [1, 4, 3, 3] ([] : List Nat))
      (vTensor.mk [1, 16, 3, 3] []) (vTensor.mk [2] [0, 0]) 4 4 3 3 1 1 0 0 1 1
      FloatValue.neg_infinity FloatValue.pos_infinity).1).trans (if_pos (by decide)),
    ((dispatch_block_checked [1, 2, 1, 1] (vTensor.mk [1, 4, 3, 3] ([] : List Nat))
      (vTensor.mk [1, 16, 3, 3] []) (vTensor.mk [2] [0, 0]) 4 4 3 3 1 2147483648 0 0 1 1
      FloatValue.neg_infinity FloatValue.pos_infinity).1).trans (if_neg (by decide))⟩

/-! ## Depthwise contexts -/

theorem is_depthwise_eq (OC IC KH KW : Nat) (g : Int) :
    is_depthwise [OC, IC, KH, KW] g = .ok (decide ((OC : Int) = g)) := by
  simp only [is_depthwise, at_index_zero, Layout.Filter.output, ok_bind]
  rfl

/-- C22 (counterexample): the host weight of shape (2,4,3,3) with groups 2 is
accepted by `Context::create`; `is_depthwise` holds for the context, the
weight is packed verbatim and `run` dispatches the depthwise kernel, yet the
weight has 4 input channels, not 1. -/
theorem depthwise_context_with_four_input_channels :
    (Context.create true (stale_pool 7) (host_tensor [2, 4, 3, 3] (List.replicate 72 1)) none
        [1, 1] [0, 0] [1, 1] false [] 2 none none >>= fun c =>
      is_depthwise c.unpacked_.filter c.packed_.groups >>= fun b =>
      pure (b, c.unpacked_.groups, c.unpacked_.weight.sizes, c.packed_.v_weight.sizes)) =
      .ok (true, 2, [2, 4, 3, 3], [2, 4, 3, 3]) ∧
    (convolution true true (stale_pool 7) (host_tensor [1, 8, 5, 5] (List.replicate 200 1))
        (host_tensor [2, 4, 3, 3] (List.replicate 72 1)) none [1, 1] [0, 0] [1, 1] false []
        2).map (fun r => r.dispatched.map (fun d => d.kernel)) = .ok [Kernel.conv2d_dw] := by
  decide

/-- C22 (amended): for every context that `Context::create` returns on a
weight of shape (OC, IC, KH, KW), `is_depthwise` holds at packing time exactly
when OC equals groups and holds in `run` exactly when OC equals the packed
groups (the same value when groups ≤ 2^31 - 1); nothing beyond IC > 0 follows
for the input channels. -/
theorem depthwise_iff_groups_eq_output_channels [Zero α] (api : Bool) (pool : Pool α)
    (w : Tensor α) (bias : Option (Tensor α)) (stride_arg padding_arg dilation_arg : List Int)
    (tr : Bool) (op : List Int) (g : Int) (mn mx : Option Scalar) (c : Context α)
    (OC IC KH KW : Nat)
    (hc : Context.create api pool w bias stride_arg padding_arg dilation_arg tr op g mn mx =
      .ok c)
    (hw : w.sizes = [OC, IC, KH, KW]) :
    (is_depthwise w.sizes g = .ok true ↔ (OC : Int) = g) ∧
    (is_depthwise c.unpacked_.filter c.packed_.groups = .ok true ↔
      (OC : Int) = c.packed_.groups) ∧
    (g ≤ 2147483647 → c.packed_.groups = g) ∧
    c.unpacked_.groups = g ∧ 0 < IC := by
  obtain ⟨OC1, IC1, KH1, KW1, sh, sw, ph, pw, dh, dw, hw1, -, -, -, hspec, -, -, -, -,
    hgr, -, -, hun⟩ :=
    create_shape api pool w bias stride_arg padding_arg dilation_arg tr op g mn mx c hc
  rw [hw] at hw1
  simp only [List.cons.injEq, and_true] at hw1
  obtain ⟨rfl, rfl, rfl, rfl⟩ := hw1
  obtain ⟨-, ⟨OC2, IC2, KH2, KW2, hw2, -, -, hic, -⟩, -, -, -, -, -, -, -, -, hg, -⟩ := hspec
  rw [hw] at hw2
  simp only [List.cons.injEq, and_true] at hw2
  obtain ⟨rfl, rfl, rfl, rfl⟩ := hw2
  have hf : c.unpacked_.filter = [OC, IC, KH, KW] := by rw [hun, ← hw]
  refine ⟨?_, ?_, ?_, by rw [hun], hic⟩
  · rw [hw, is_depthwise_eq]
    simp
  · rw [hf, is_depthwise_eq]
    simp
  · intro hle
    rw [hgr]
    exact to_int32_of_range g (by omega) hle

/-- Witness of C22 (amended): the context of the depthwise test, weight
(7,1,17,7) with groups 7. -/
theorem depthwise_iff_groups_eq_output_channels_witness :
    ∃ c : Context Nat,
      Context.create true (stale_pool 7) (host_tensor [7, 1, 17, 7] (List.replicate 833 1))
        none [1, 3] [2, 0] [1, 2] false [] 7 none none = .ok c ∧
      (is_depthwise c.unpacked_.filter c.packed_.groups = .ok true ↔
        ((7 : Nat) : Int) = c.packed_.groups) ∧
      c.unpacked_.groups = 7 :=
  (create_of_available true (stale_pool 7) (host_tensor [7, 1, 17, 7] (List.replicate 833 1))
    none [1, 3] [2, 0] [1, 2] false [] 7 none none 1 3 2 0 1 2 rfl rfl rfl
    (by decide)).elim fun c hc => ⟨c, hc,
      (depthwise_iff_groups_eq_output_channels true (stale_pool 7)
        (host_tensor [7, 1, 17, 7] (List.replicate 833 1)) none [1, 3] [2, 0] [1, 2] false []
        7 none none c 7 1 17 7 hc rfl).2.1,
      (depthwise_iff_groups_eq_output_channels true (stale_pool 7)
        (host_tensor [7, 1, 17, 7] (List.replicate 833 1)) none [1, 3] [2, 0] [1, 2] false []
        7 none none c 7 1 17 7 hc rfl).2.2.2.1⟩

/-! ## The prepack entry point -/

/-- C25: `conv2_clamp_prepack` does not depend on its output_max argument:
two calls that differ only in it return the same result, and every context it
returns has output_min as unpacked output_max and, as packed clamp maximum,
the float conversion of output_min (positive infinity when output_min is
unset). -/
theorem prepack_ignores_output_max [Zero α] (api : Bool) (pool : Pool α) (w : Tensor α)
    (bias : Option (Tensor α)) (stride padding dilation : List Int) (g : Int)
    (mn mx mx2 : Option Scalar) :
    conv2_clamp_prepack api pool w bias stride padding dilation g mn mx =
      conv2_clamp_prepack api pool w bias stride padding dilation g mn mx2 ∧
    conv2_clamp_prepack api pool w bias stride padding dilation g mn mx =
      Context.create api pool w bias stride padding dilation false [] g mn mn ∧
    (∀ c : Context α,
      conv2_clamp_prepack api pool w bias stride padding dilation g mn mx = .ok c →
      c.unpacked_.output_min = mn ∧ c.unpacked_.output_max = mn ∧
      c.packed_.output_min = mn.elim FloatValue.neg_infinity FloatValue.of_scalar ∧
      c.packed_.output_max = mn.elim FloatValue.pos_infinity FloatValue.of_scalar) := by
  refine ⟨rfl, rfl, ?_⟩
  intro c hc
  obtain ⟨OC, IC, KH, KW, sh, sw, ph, pw, dh, dw, -, -, -, -, -, -, -, -, -, -, hmn, hmx,
    hun⟩ := create_shape api pool w bias stride padding dilation false [] g mn mn c hc
  exact ⟨by rw [hun], by rw [hun], hmn, hmx⟩

/-- Witness of C25: prepacking with output_min 0.0 and output_max 6.0 gives a
context whose output_max is 0.0. -/
theorem prepack_ignores_output_max_witness :
    (conv2_clamp_prepack true (stale_pool 7) (host_tensor [2, 4, 3, 3] (List.replicate 72 1))
        none [1, 1] [0, 0] [1, 1] 1 (some (Scalar.floating 0))
        (some (Scalar.floating 4618441417868443648))).map
      (fun c => (c.unpacked_.output_max, c.packed_.output_max)) =
    .ok (some (Scalar.floating 0), FloatValue.of_scalar (Scalar.floating 0)) ∧
    conv2_clamp_prepack true (stale_pool 7) (host_tensor [2, 4, 3, 3] (List.replicate 72 1))
        none [1, 1] [0, 0] [1, 1] 1 (some (Scalar.floating 0))
        (some (Scalar.floating 4618441417868443648)) =
      conv2_clamp_prepack true (stale_pool 7) (host_tensor [2, 4, 3, 3] (List.replicate 72 1))
        none [1, 1] [0, 0] [1, 1] 1 (some (Scalar.floating 0)) none :=
  ⟨by decide,
    (prepack_ignores_output_max true (stale_pool 7)
      (host_tensor [2, 4, 3, 3] (List.replicate 72 1)) none [1, 1] [0, 0] [1, 1] 1
      (some (Scalar.floating 0)) (some (Scalar.floating 4618441417868443648)) none).1⟩

/-! ## Parameter pairs -/

theorem create_error_cases [Zero α] (api : Bool) (pool : Pool α) (w : Tensor α)
    (bias : Option (Tensor α)) (stride_arg padding_arg dilation_arg : List Int) (tr : Bool)
    (op : List Int) (g : Int) (mn mx : Option Scalar) (e : Error)
    (he : Context.create api pool w bias stride_arg padding_arg dilation_arg tr op g mn mx =
      .error e) :
    e = Error.bad_param_length ∨ e = Error.not_available := by
  have hexp : ∀ (l : List Int) (e1 : Error), expand_param_if_needed l 2 = .error e1 →
      e1 = Error.bad_param_length := by
    intro l e1 h
    unfold expand_param_if_needed at h
    split at h
    · cases h
    · split at h
      · cases h
      · cases h
        rfl
  rcases hs : expand_param_if_needed stride_arg 2 with e1 | s
  · simp only [Context.create, hs, error_bind] at he
    cases he
    exact Or.inl (hexp _ _ hs)
  rcases hp : expand_param_if_needed padding_arg 2 with e1 | p
  · simp only [Context.create, hs, hp, ok_bind, error_bind] at he
    cases he
    exact Or.inl (hexp _ _ hp)
  rcases hd : expand_param_if_needed dilation_arg 2 with e1 | d
  · simp only [Context.create, hs, hp, hd, ok_bind, error_bind] at he
    cases he
    exact Or.inl (hexp _ _ hd)
  obtain ⟨sh, sw, rfl⟩ := expand_two_ok _ _ hs
  obtain ⟨ph, pw, rfl⟩ := expand_two_ok _ _ hp
  obtain ⟨dh, dw, rfl⟩ := expand_two_ok _ _ hd
  obtain ⟨r, hr⟩ := available_total api w bias sh sw ph pw dh dw tr op g mn mx
  cases r
  · rw [create_eq api pool w bias _ _ _ tr op g mn mx _ _ _ false hs hp hd hr] at he
    simp only [Bool.false_eq_true, if_false] at he
    cases he
    exact Or.inr rfl
  · obtain ⟨c, hc⟩ := create_of_available api pool w bias stride_arg padding_arg dilation_arg
      tr op g mn mx sh sw ph pw dh dw hs hp hd hr
    rw [hc] at he
    cases he

/-- C26: `pack_params` returns the pair (v[0], v[1]) on a vector of exactly
two elements and fails with the "Invalid usage" internal error on every other
length; a parameter list that `expand_param_if_needed` accepts expands to two
elements, on which `pack_params` succeeds, and `Context::create` never fails
with that internal error. -/
theorem pack_params_two_or_internal_error [Zero α] (api : Bool) (pool : Pool α)
    (w : Tensor α) (bias : Option (Tensor α)) (stride_arg padding_arg dilation_arg : List Int)
    (tr : Bool) (op : List Int) (g : Int) (mn mx : Option Scalar) :
    (∀ a b : Int, pack_params [a, b] = .ok [a, b]) ∧
    (∀ v : List Int, v.length ≠ 2 → pack_params v = .error Error.invalid_usage) ∧
    (∀ l s : List Int, expand_param_if_needed l 2 = .ok s →
      s.length = 2 ∧ pack_params s = .ok s) ∧
    Context.create api pool w bias stride_arg padding_arg dilation_arg tr op g mn mx ≠
      .error Error.invalid_usage := by
  refine ⟨pack_params_pair, ?_, ?_, ?_⟩
  · intro v hv
    have h2 : ¬ (2 = v.length) := fun e => hv e.symm
    simp only [pack_params, h2, if_false]
    rfl
  · intro l s hs
    obtain ⟨a, b, rfl⟩ := expand_two_ok l s hs
    exact ⟨rfl, pack_params_pair a b⟩
  · intro he
    rcases create_error_cases api pool w bias stride_arg padding_arg dilation_arg tr op g mn mx
      _ he with h | h <;> cases h

/-- Witness of C26: the pair [1, 3] is returned as it is, and the lists [],
[5] and [1, 2, 3] are rejected. -/
theorem pack_params_two_or_internal_error_witness :
    pack_params [1, 3] = .ok [1, 3] ∧
      pack_params [] = .error Error.invalid_usage ∧
      pack_params [5] = .error Error.invalid_usage ∧
      pack_params [1, 2, 3] = .error Error.invalid_usage :=
  ⟨(pack_params_two_or_internal_error true (stale_pool 7) (host_tensor [2, 4, 3, 3] []) none
      [] [] [] false [] 1 none none).1 1 3,
    (pack_params_two_or_internal_error true (stale_pool 7) (host_tensor [2, 4, 3, 3] []) none
      [] [] [] false [] 1 none none).2.1 [] (by decide),
    (pack_params_two_or_internal_error true (stale_pool 7) (host_tensor [2, 4, 3, 3] []) none
      [] [] [] false [] 1 none none).2.1 [5] (by decide),
    (pack_params_two_or_internal_error true (stale_pool 7) (host_tensor [2, 4, 3, 3] []) none
      [] [] [] false [] 1 none none).2.1 [1, 2, 3] (by decide)⟩

/-! ## The remainder step -/

/-- C23, the code at a failing input: for the host weight of shape (2,5,3,3)
with groups 1 (input_channels % 4 = 1, kernel blocks of 9 elements), the
remainder step applied to any memory zeroes, in each of the four lanes, only
3 = 4 - 1 single elements (indices 9..11, 45..47, 81..83 and 117..119), not 3
kernel blocks of 9 elements: index 12, inside the first block after the
remainder pointer, keeps what the memory held, and so does the packed buffer
that `pack_weights` returns. -/
theorem pack_weights_remainder_zeroes_floats_not_blocks :
    (∀ mem : Mem Nat,
      (pack_weights_remainder [2, 5, 3, 3] [1, 20, 3, 3] 9 180 mem).map
          (fun m => ((m 8, m 9, m 10, m 11, m 12, m 17), (m 44, m 45, m 47, m 48),
            (m 81, m 83, m 84), (m 117, m 119, m 120))) =
        .ok ((mem 8, 0, 0, 0, mem 12, mem 17), (mem 44, 0, 0, mem 48),
          (0, 0, mem 84), (0, 0, mem 120))) ∧
    (∀ pool : Pool Nat,
      (pack_weights pool (host_tensor [2, 5, 3, 3] (List.replicate 90 1)) 1).map
          (fun v => (v.sizes, v.data[9]?, v.data[11]?, v.data[12]?, v.data[35]?)) =
        .ok ([1, 20, 3, 3], some 0, some 0, some (pool.fresh [1, 20, 3, 3] 12),
          some (pool.fresh [1, 20, 3, 3] 35))) := by
  constructor
  · intro mem
    simp [pack_weights_remainder, at_index, Layout.Filter.output, Layout.Filter.input,
      bind, Except.bind, pure, Except.pure, for_loop, memset, Except.map]
  · intro pool
    rw [pack_weights_eq_general pool _ 1 2 5 3 3 rfl rfl (by decide),
      pack_weights_general_eq pool _ 2 5 3 3 rfl]
    simp [vTensor.of_mem, numel, for_loop, memset, memcpy, Except.map, div_up]

/-- C24, the code at a failing input: the host weight of shape (2,5,1,1) with
groups 1 is packed to different buffers from destination memories that held 7
everywhere and 8 everywhere: the elements that neither the bulk copy nor the
zero-fill assigns (index 18 among them) carry the prior contents into the
result. -/
theorem pack_weights_depends_on_prior_memory :
    pack_weights (stale_pool 7) (host_tensor [2, 5, 1, 1] [1, 2, 3, 4, 5, 6, 7, 8, 9, 10]) 1 ≠
      pack_weights (stale_pool 8) (host_tensor [2, 5, 1, 1] [1, 2, 3, 4, 5, 6, 7, 8, 9, 10]) 1 ∧
    (pack_weights (stale_pool 7)
        (host_tensor [2, 5, 1, 1] [1, 2, 3, 4, 5, 6, 7, 8, 9, 10]) 1).map
      (fun v => v.data[18]?) = .ok (some 7) ∧
    (pack_weights (stale_pool 8)
        (host_tensor [2, 5, 1, 1] [1, 2, 3, 4, 5, 6, 7, 8, 9, 10]) 1).map
      (fun v => v.data[18]?) = .ok (some 8) := by
  decide

/-- C27, the code at a failing input: the host weight of shape (2,1,1,1) with
groups 1 is accepted by `available` and takes the general path; its packed
buffer has 4 elements (sizes (1,4,1,1)), and the remainder step, run on the
memory the bulk copy leaves, sets the elements at offsets 5 and 15, which held
7 before, to 0: both lie past the end of the buffer. -/
theorem pack_weights_remainder_writes_past_end :
    available true (host_tensor [2, 1, 1, 1] [1, 2]) none [1, 1] [0, 0] [1, 1] false [] 1
      none none = .ok true ∧
    is_depthwise [2, 1, 1, 1] 1 = .ok false ∧
    (pack_weights_general_bulk (stale_pool 7) (host_tensor [2, 1, 1, 1] [1, 2])).map
      (fun r => (r.1, numel r.1, r.2 5, r.2 15)) = .ok ([1, 4, 1, 1], 4, 7, 7) ∧
    (pack_weights_general_bulk (stale_pool 7) (host_tensor [2, 1, 1, 1] [1, 2]) >>= fun r =>
      pack_weights_remainder [2, 1, 1, 1] r.1 (1 * 1) (1 * 1 * 4) r.2).map
      (fun m => (m 4, m 5, m 15, m 16)) = .ok (7, 0, 0, 7) ∧
    (pack_weights (stale_pool 7) (host_tensor [2, 1, 1, 1] [1, 2]) 1).map
      (fun v => (v.sizes, v.data.length)) = .ok ([1, 4, 1, 1], 4) := by
  refine ⟨by decide, by decide, ?_, ?_, by decide⟩
  · simp [pack_weights_general_bulk, pack_weights_bulk, host_tensor, stale_pool, at_index,
      Layout.Filter.output, Layout.Filter.input, Layout.Filter.height, Layout.Filter.width,
      bind, Except.bind, pure, Except.pure, div_up, for_loop, memcpy, Tensor.data_ptr,
      Except.map, numel]
  · simp [pack_weights_general_bulk, pack_weights_bulk, pack_weights_remainder, host_tensor,
      stale_pool, at_index,
      Layout.Filter.output, Layout.Filter.input, Layout.Filter.height, Layout.Filter.width,
      bind, Except.bind, pure, Except.pure, div_up, for_loop, memcpy, memset, Tensor.data_ptr,
      Except.map, numel]

/-! ## The bulk copy as a function of the destination index -/

theorem memcpy_apply (dst : Mem α) (d : Int) (src : Mem α) (s : Int) (n : Nat) (i : Int) :
    memcpy dst d src s n i = if d ≤ i ∧ i < d + n then src (s + (i - d)) else dst i := rfl

/-! ## The bulk copy as a function of the destination index -/

/-- A `memcpy` of one kernel block to input-channel slot `4 * n` of tile `u`
covers element `j` of slot `a` of tile `t` exactly when `t = u` and
`a = 4 * n`. -/
theorem tile_slot_iff (K IC t u a n j : Nat) (hn : n < IC) (ha : a < 4 * IC) (hj : j < K) :
    ((u : Int) * ((K * (4 * IC) : Nat) : Int) + 4 * (n : Int) * (K : Int) ≤
        (t : Int) * ((K * (4 * IC) : Nat) : Int) + (a : Int) * (K : Int) + (j : Int) ∧
      (t : Int) * ((K * (4 * IC) : Nat) : Int) + (a : Int) * (K : Int) + (j : Int) <
        (u : Int) * ((K * (4 * IC) : Nat) : Int) + 4 * (n : Int) * (K : Int) + (K : Int)) ↔
    t = u ∧ a = 4 * n := by
  have hK : (0 : Int) ≤ (K : Int) := Int.ofNat_nonneg K
  have hIC : (0 : Int) ≤ (IC : Int) := Int.ofNat_nonneg IC
  have hj0 : (0 : Int) ≤ (j : Int) := Int.ofNat_nonneg j
  have hjK : (j : Int) + 1 ≤ (K : Int) := by exact_mod_cast hj
  have haI : (a : Int) + 1 ≤ 4 * (IC : Int) := by exact_mod_cast ha
  have hnI : (n : Int) + 1 ≤ (IC : Int) := by exact_mod_cast hn
  have hB : (0 : Int) ≤ (K : Int) * (4 * (IC : Int)) := by positivity
  have fa : (0 : Int) ≤ (4 * (IC : Int) - ((a : Int) + 1)) * (K : Int) :=
    mul_nonneg (by linarith) hK
  have fn : (0 : Int) ≤ ((IC : Int) - ((n : Int) + 1)) * (K : Int) :=
    mul_nonneg (by linarith) hK
  have fn0 : (0 : Int) ≤ (n : Int) * (K : Int) := by positivity
  have fa0 : (0 : Int) ≤ (a : Int) * (K : Int) := by positivity
  push_cast
  constructor
  · rintro ⟨h1, h2⟩
    have htu : t = u := by
      rcases Nat.lt_trichotomy t u with h | h | h
      · exfalso
        have hz : (t : Int) + 1 ≤ (u : Int) := by exact_mod_cast h
        have f : (0 : Int) ≤ ((u : Int) - ((t : Int) + 1)) * ((K : Int) * (4 * (IC : Int))) :=
          mul_nonneg (by linarith) hB
        linarith
      · exact h
      · exfalso
        have hz : (u : Int) + 1 ≤ (t : Int) := by exact_mod_cast h
        have f : (0 : Int) ≤ ((t : Int) - ((u : Int) + 1)) * ((K : Int) * (4 * (IC : Int))) :=
          mul_nonneg (by linarith) hB
        linarith
    subst htu
    refine ⟨rfl, ?_⟩
    rcases Nat.lt_trichotomy a (4 * n) with h | h | h
    · exfalso
      have hz : (a : Int) + 1 ≤ 4 * (n : Int) := by exact_mod_cast h
      have f : (0 : Int) ≤ (4 * (n : Int) - ((a : Int) + 1)) * (K : Int) :=
        mul_nonneg (by linarith) hK
      linarith
    · exact h
    · exfalso
      have hz : 4 * (n : Int) + 1 ≤ (a : Int) := by exact_mod_cast h
      have f : (0 : Int) ≤ ((a : Int) - (4 * (n : Int) + 1)) * (K : Int) :=
        mul_nonneg (by linarith) hK
      linarith
  · rintro ⟨rfl, rfl⟩
    push_cast
    constructor <;> linarith

/-- The inner loop of the bulk copy, for source output channel `o`, read at
element `j` of slot `a` of tile `t` after `n` of its iterations. -/
theorem bulk_inner_get (src m : Mem α) (K IC o n t a j : Nat) (hn : n ≤ IC)
    (ha : a < 4 * IC) (hj : j < K) :
    for_loop n (fun src_ic mem =>
        memcpy mem
          ((o : Int) / 4 * ((K * (4 * IC) : Nat) : Int) + 4 * (src_ic : Int) * ((K : Nat) : Int))
          src
          ((o : Int) * ((K * IC : Nat) : Int) + (src_ic : Int) * ((K : Nat) : Int))
          K) m
        ((t : Int) * ((K * (4 * IC) : Nat) : Int) + (a : Int) * (K : Int) + (j : Int)) =
      if t = o / 4 ∧ a % 4 = 0 ∧ a / 4 < n then
        src ((o : Int) * ((K * IC : Nat) : Int) + ((a / 4 : Nat) : Int) * (K : Int) + (j : Int))
      else m ((t : Int) * ((K * (4 * IC) : Nat) : Int) + (a : Int) * (K : Int) + (j : Int)) := by
  induction n with
  | zero => simp [for_loop]
  | succ n ih =>
    have ih1 := ih (by omega)
    have ho : (o : Int) / 4 = ((o / 4 : Nat) : Int) := by norm_cast
    have hts := tile_slot_iff K IC t (o / 4) a n j (by omega) ha hj
    rw [← ho] at hts
    simp only [for_loop] at ih1 ⊢
    rw [memcpy_apply]
    by_cases hc : t = o / 4 ∧ a = 4 * n
    · obtain ⟨h1, h2⟩ := hc
      have h3 : t = o / 4 ∧ a % 4 = 0 ∧ a / 4 < n + 1 := ⟨h1, by omega, by omega⟩
      rw [if_pos (hts.mpr ⟨h1, h2⟩), if_pos h3]
      have h4 : a / 4 = n := by omega
      rw [h4, h2, h1, ← ho]
      congr 1
      push_cast
      ring
    · rw [if_neg (fun h => hc (hts.mp h)), ih1]
      by_cases h5 : t = o / 4 ∧ a % 4 = 0 ∧ a / 4 < n
      · rw [if_pos h5, if_pos ⟨h5.1, h5.2.1, by omega⟩]
      · rw [if_neg h5, if_neg]
        rintro ⟨h1, h2, h3⟩
        by_cases h6 : a / 4 < n
        · exact h5 ⟨h1, h2, h6⟩
        · exact hc ⟨h1, by omega⟩

/-- The bulk copy read at element `j` of slot `a` of tile `t` after `n` source
output channels: a slot `4 * ic` of a tile already reached holds the block of
the last channel copied to that tile, every other slot holds what the memory
held before. -/
theorem bulk_outer_get (src m : Mem α) (K IC n t a j : Nat) (ha : a < 4 * IC) (hj : j < K) :
    for_loop n (fun src_oc mem =>
        for_loop IC (fun src_ic mem =>
          memcpy mem
            ((src_oc : Int) / 4 * ((K * (4 * IC) : Nat) : Int) +
              4 * (src_ic : Int) * ((K : Nat) : Int))
            src
            ((src_oc : Int) * ((K * IC : Nat) : Int) + (src_ic : Int) * ((K : Nat) : Int))
            K) mem) m
        ((t : Int) * ((K * (4 * IC) : Nat) : Int) + (a : Int) * (K : Int) + (j : Int)) =
      if a % 4 = 0 ∧ 4 * t < n then
        src (((min (4 * t + 3) (n - 1) : Nat) : Int) * ((K * IC : Nat) : Int) +
          ((a / 4 : Nat) : Int) * (K : Int) + (j : Int))
      else m ((t : Int) * ((K * (4 * IC) : Nat) : Int) + (a : Int) * (K : Int) + (j : Int)) := by
  induction n with
  | zero => simp [for_loop]
  | succ n ih =>
    simp only [for_loop] at ih ⊢
    rw [bulk_inner_get src _ K IC n IC t a j (le_refl IC) ha hj, ih]
    by_cases h1 : t = n / 4 ∧ a % 4 = 0 ∧ a / 4 < IC
    · obtain ⟨ht, h4, -⟩ := h1
      have h2 : a % 4 = 0 ∧ 4 * t < n + 1 := ⟨h4, by omega⟩
      rw [if_pos ⟨ht, h4, by omega⟩, if_pos h2]
      have h3 : min (4 * t + 3) (n + 1 - 1) = n := by omega
      rw [h3]
    · rw [if_neg h1]
      by_cases h2 : a % 4 = 0 ∧ 4 * t < n
      · have h3 : a % 4 = 0 ∧ 4 * t < n + 1 := ⟨h2.1, by omega⟩
        rw [if_pos h2, if_pos h3]
        have h5 : t ≠ n / 4 := fun e => h1 ⟨e, h2.1, by omega⟩
        have h4 : min (4 * t + 3) (n + 1 - 1) = min (4 * t + 3) (n - 1) := by omega
        rw [h4]
      · have h3 : ¬ (a % 4 = 0 ∧ 4 * t < n + 1) := by
          rintro ⟨h4, h5⟩
          by_cases h6 : 4 * t < n
          · exact h2 ⟨h4, h6⟩
          · exact h1 ⟨by omega, h4, by omega⟩
        rw [if_neg h2, if_neg h3]

/-- C28: on a weight of shape (OC, IC, KH, KW) the general path of
`pack_weights`, up to and including the bulk copy, succeeds with a memory in
which, for every tile t < ceil(OC/4), every input channel ic and every offset
j inside a kernel block, element j of the block at second-axis index 4*ic of
tile t is element j of the source block of output channel min(4*t+3, OC-1)
and input channel ic; every element of a block whose second-axis index is not
a multiple of 4, and every element of a tile from ceil(OC/4) on, is what the
destination memory held before the copy. -/
theorem bulk_copy_last_channel_of_tile [Zero α] (pool : Pool α) (w : Tensor α)
    (OC IC KH KW : Nat) (h : w.sizes = [OC, IC, KH, KW]) :
    ∃ mem : Mem α,
      pack_weights_general_bulk pool w = .ok ([div_up OC 4, 4 * IC, KH, KW], mem) ∧
      (∀ t ic j : Nat, t < div_up OC 4 → ic < IC → j < KH * KW →
        mem ((t * (4 * IC * (KH * KW)) + 4 * ic * (KH * KW) + j : Nat) : Int) =
          w.data_ptr
            ((min (4 * t + 3) (OC - 1) * (IC * (KH * KW)) + ic * (KH * KW) + j : Nat) : Int)) ∧
      (∀ t a j : Nat, a < 4 * IC → j < KH * KW → (a % 4 ≠ 0 ∨ div_up OC 4 ≤ t) →
        mem ((t * (4 * IC * (KH * KW)) + a * (KH * KW) + j : Nat) : Int) =
          pool.fresh [div_up OC 4, 4 * IC, KH, KW]
            ((t * (4 * IC * (KH * KW)) + a * (KH * KW) + j : Nat) : Int)) := by
  rw [pack_weights_general_bulk_eq pool w OC IC KH KW h]
  have hidx : ∀ t a j : Nat, ((t * (4 * IC * (KH * KW)) + a * (KH * KW) + j : Nat) : Int) =
      (t : Int) * ((KH * KW * (4 * IC) : Nat) : Int) + (a : Int) * ((KH * KW : Nat) : Int) +
        (j : Int) := by
    intro t a j
    push_cast
    ring
  have htile : ∀ t : Nat, t < div_up OC 4 ↔ 4 * t < OC := by
    intro t
    unfold div_up
    omega
  refine ⟨_, rfl, ?_, ?_⟩
  · intro t ic j ht hic hj
    rw [hidx, bulk_outer_get w.data_ptr _ (KH * KW) IC OC t (4 * ic) j (by omega) hj,
      if_pos ⟨by omega, (htile t).mp ht⟩]
    congr 1
    have h4 : 4 * ic / 4 = ic := by omega
    rw [h4]
    push_cast
    ring
  · intro t a j ha hj hor
    rw [hidx, bulk_outer_get w.data_ptr _ (KH * KW) IC OC t a j ha hj, if_neg]
    rintro ⟨h1, h2⟩
    rcases hor with h3 | h3
    · exact h3 h1
    · exact absurd ((htile t).mpr h2) (by omega)

/-- Witness of C28: the weight of shape (2,5,1,1), whose only tile receives
output channel 1 = min(3, 1). -/
theorem bulk_copy_last_channel_of_tile_witness :
    ∃ mem : Mem Nat,
      pack_weights_general_bulk (stale_pool 7)
          (host_tensor [2, 5, 1, 1] [1, 2, 3, 4, 5, 6, 7, 8, 9, 10]) =
        .ok ([div_up 2 4, 4 * 5, 1, 1], mem) ∧
      mem ((0 * (4 * 5 * (1 * 1)) + 4 * 2 * (1 * 1) + 0 : Nat) : Int) = 8 ∧
      mem ((0 * (4 * 5 * (1 * 1)) + 9 * (1 * 1) + 0 : Nat) : Int) = 7 :=
  (bulk_copy_last_channel_of_tile (stale_pool 7)
    (host_tensor [2, 5, 1, 1] [1, 2, 3, 4, 5, 6, 7, 8, 9, 10]) 2 5 1 1 rfl).elim
    fun mem hm => ⟨mem, hm.1,
      (hm.2.1 0 2 0 (by decide) (by decide) (by decide)).trans (by decide),
      (hm.2.2 0 9 0 (by decide) (by decide) (Or.inl (by decide))).trans rfl⟩

/-! ## Packing path and kernel selection -/

/-- The weight buffer of a created context is the result of `pack_weights`. -/
theorem create_weight [Zero α] (api : Bool) (pool : Pool α) (w : Tensor α)
    (bias : Option (Tensor α)) (stride_arg padding_arg dilation_arg : List Int) (tr : Bool)
    (op : List Int) (g : Int) (mn mx : Option Scalar) (c : Context α)
    (hc : Context.create api pool w bias stride_arg padding_arg dilation_arg tr op g mn mx =
      .ok c) :
    pack_weights pool w g = .ok c.packed_.v_weight := by
  obtain ⟨sh, sw, ph, pw, dh, dw, hs, hp, hd, hav, hcon⟩ :=
    create_ok_inv api pool w bias stride_arg padding_arg dilation_arg tr op g mn mx c hc
  obtain ⟨OC, IC, KH, KW, h, -⟩ :=
    ((available_true_iff api w bias sh sw ph pw dh dw tr op g mn mx).mp hav).2.1
  obtain ⟨c1, hc1, hvw, -⟩ :=
    construct_ok pool w bias stride_arg padding_arg dilation_arg tr op g mn mx OC IC KH KW
      sh sw ph pw dh dw h hs hp hd
  rw [hcon] at hc1
  cases hc1
  exact hvw

/-- On a host-resident 4-D weight whose output channels equal `groups`,
`pack_weights` copies the source into a buffer of the source sizes. -/
theorem pack_weights_eq_depthwise [Zero α] (pool : Pool α) (w : Tensor α) (groups : Int)
    (OC IC KH KW : Nat) (hdev : w.device = DeviceType.CPU) (h : w.sizes = [OC, IC, KH, KW])
    (hg : (OC : Int) = groups) :
    pack_weights pool w groups = .ok (vTensor.of_mem [OC, IC, KH, KW]
      (memcpy (pool.fresh [OC, IC, KH, KW]) 0 w.data_ptr 0 (numel [OC, IC, KH, KW]))) := by
  simp only [pack_weights, Tensor.is_vulkan, hdev, is_depthwise, h, at_index_zero,
    Layout.Filter.output, hg, Tensor.contiguous, bind, Except.bind, pure, Except.pure]
  simp only [decide_True, if_true, min_self]
  rfl

/-- A successful call of `conv2d_depthwise` has issued one dispatch of the
depthwise kernel on the weight buffer it was given. -/
theorem conv2d_depthwise_ok_inv (images : Bool) (out : List Int) (vin vw vb : vTensor α)
    (f0 f1 f2 f3 s0 s1 p0 p1 d0 d1 : Int) (mn mx : FloatValue) (ds : List (Dispatch α))
    (h : conv2d_depthwise images out vin vw vb [f0, f1, f2, f3] [s0, s1] [p0, p1] [d0, d1]
      mn mx = .ok ds) :
    ds = [Dispatch.mk Kernel.conv2d_dw out vin vw vb
      (Block.mk [f3, f2, s1, s0, p1, p0, d1, d0] [mn, mx])] := by
  cases images
  · unfold conv2d_depthwise at h
    simp only [Bool.false_eq_true, if_false] at h
    cases h
  · by_cases hfit : fits_int32 f3 ∧ fits_int32 f2 ∧ fits_int32 s1 ∧
      fits_int32 s0 ∧ fits_int32 p1 ∧ fits_int32 p0 ∧ fits_int32 d1 ∧ fits_int32 d0
    · obtain ⟨h1, h2, h5, h6, h7, h8, h9, h10⟩ := hfit
      rw [conv2d_depthwise_fits out vin vw vb f0 f1 f2 f3 s0 s1 p0 p1 d0 d1 mn mx h1 h2 h5 h6
        h7 h8 h9 h10] at h
      exact (Except.ok.inj h).symm
    · rw [conv2d_depthwise_overflow out vin vw vb f0 f1 f2 f3 s0 s1 p0 p1 d0 d1 mn mx hfit] at h
      cases h

/-- A successful call of `conv2d` has issued one dispatch of the general
kernel on the weight buffer it was given. -/
theorem conv2d_ok_inv (images : Bool) (out : List Int) (vin vw vb : vTensor α)
    (f0 f1 f2 f3 s0 s1 p0 p1 d0 d1 : Int) (mn mx : FloatValue) (ds : List (Dispatch α))
    (h : conv2d images out vin vw vb [f0, f1, f2, f3] [s0, s1] [p0, p1] [d0, d1]
      mn mx = .ok ds) :
    ds = [Dispatch.mk Kernel.conv2d out vin vw vb
      (Block.mk [f3, f2, f1, f0, s1, s0, p1, p0, d1, d0] [mn, mx])] := by
  cases images
  · unfold conv2d at h
    simp only [Bool.false_eq_true, if_false] at h
    cases h
  · by_cases hfit : fits_int32 f3 ∧ fits_int32 f2 ∧ fits_int32 f1 ∧ fits_int32 f0 ∧
      fits_int32 s1 ∧ fits_int32 s0 ∧ fits_int32 p1 ∧ fits_int32 p0 ∧ fits_int32 d1 ∧
      fits_int32 d0
    · obtain ⟨h1, h2, h3, h4, h5, h6, h7, h8, h9, h10⟩ := hfit
      rw [conv2d_fits out vin vw vb f0 f1 f2 f3 s0 s1 p0 p1 d0 d1 mn mx h1 h2 h3 h4 h5 h6
        h7 h8 h9 h10] at h
      exact (Except.ok.inj h).symm
    · rw [conv2d_overflow out vin vw vb f0 f1 f2 f3 s0 s1 p0 p1 d0 d1 mn mx hfit] at h
      cases h

/-- A successful call of `conv2d_pointwise` has issued no dispatch. -/
theorem conv2d_pointwise_ok_inv (images : Bool) (out : List Int) (vin vw vb : vTensor α)
    (s0 s1 p0 p1 : Int) (mn mx : FloatValue) (ds : List (Dispatch α))
    (h : conv2d_pointwise images out vin vw vb [s0, s1] [p0, p1] mn mx = .ok ds) :
    ds = [] := by
  cases images
  · unfold conv2d_pointwise at h
    simp only [Bool.false_eq_true, if_false] at h
    cases h
  · unfold conv2d_pointwise at h
    simp only [if_true, Layout.Parameter.height, Layout.Parameter.width, at_index_zero,
      at_index_one, ok_bind] at h
    by_cases h1 : fits_int32 s1
    swap
    · simp only [safe_downcast_overflow _ h1, error_bind] at h
      cases h
    simp only [safe_downcast_fits _ h1, ok_bind] at h
    by_cases h2 : fits_int32 s0
    swap
    · simp only [safe_downcast_overflow _ h2, error_bind] at h
      cases h
    simp only [safe_downcast_fits _ h2, ok_bind] at h
    by_cases h3 : fits_int32 p1
    swap
    · simp only [safe_downcast_overflow _ h3, error_bind] at h
      cases h
    simp only [safe_downcast_fits _ h3, ok_bind] at h
    by_cases h4 : fits_int32 p0
    swap
    · simp only [safe_downcast_overflow _ h4, error_bind] at h
      cases h
    simp only [safe_downcast_fits _ h4, ok_bind] at h
    exact (Except.ok.inj h).symm

/-- C29: for every context that `Context::create` returns on a host-resident
weight of shape (OC, IC, KH, KW) with groups ≤ 2^31 - 1, and every input that
is usable after device coercion, `run` tests `is_depthwise` on the same values
as `pack_weights` did.  When OC = groups the packed weight is the verbatim
copy, of sizes (OC, IC, KH, KW), and `run` calls `conv2d_depthwise` on it;
when OC ≠ groups the packed weight is the tiled buffer of the general path, of
sizes (ceil(OC/4), 4*IC, KH, KW), and `run` calls `conv2d_pointwise` or
`conv2d` on it.  The two shapes differ, and every dispatch that `run` issues
binds the packed weight, with the depthwise kernel exactly when the buffer is
the verbatim copy. -/
theorem run_kernel_agrees_with_packing [Zero α] (api : Bool) (pool : Pool α) (w : Tensor α)
    (bias : Option (Tensor α)) (stride_arg padding_arg dilation_arg : List Int) (tr : Bool)
    (op : List Int) (g : Int) (mn mx : Option Scalar) (c : Context α) (images : Bool)
    (input_arg : Tensor α) (OC IC KH KW : Nat)
    (hc : Context.create api pool w bias stride_arg padding_arg dilation_arg tr op g mn mx =
      .ok c)
    (hw : w.sizes = [OC, IC, KH, KW]) (hdev : w.device = DeviceType.CPU)
    (hg : g ≤ 2147483647)
    (hu : usable (if input_arg.is_vulkan then input_arg else input_arg.vulkan) = .ok true) :
    pack_weights pool w g = .ok c.packed_.v_weight ∧
    is_depthwise c.unpacked_.filter c.packed_.groups = is_depthwise w.sizes g ∧
    [OC, IC, KH, KW] ≠ [div_up OC 4, 4 * IC, KH, KW] ∧
    ((OC : Int) = g →
      c.packed_.v_weight = vTensor.of_mem [OC, IC, KH, KW]
        (memcpy (pool.fresh [OC, IC, KH, KW]) 0 w.data_ptr 0 (numel [OC, IC, KH, KW])) ∧
      ∃ out : List Int, c.run images input_arg = Except.map (fun ds => RunResult.mk out ds)
        (conv2d_depthwise images out
          (convert (if input_arg.is_vulkan then input_arg else input_arg.vulkan))
          c.packed_.v_weight c.packed_.v_bias c.packed_.filter c.packed_.stride
          c.packed_.padding c.packed_.dilation c.packed_.output_min c.packed_.output_max)) ∧
    ((OC : Int) ≠ g →
      pack_weights_general pool w = .ok c.packed_.v_weight ∧
      c.packed_.v_weight.sizes = [div_up OC 4, 4 * IC, KH, KW] ∧
      ∃ out : List Int, c.run images input_arg = Except.map (fun ds => RunResult.mk out ds)
        (if KH = 1 ∧ KW = 1 then
          conv2d_pointwise images out
            (convert (if input_arg.is_vulkan then input_arg else input_arg.vulkan))
            c.packed_.v_weight c.packed_.v_bias c.packed_.stride
            c.packed_.padding c.packed_.output_min c.packed_.output_max
        else
          conv2d images out
            (convert (if input_arg.is_vulkan then input_arg else input_arg.vulkan))
            c.packed_.v_weight c.packed_.v_bias c.packed_.filter c.packed_.stride
            c.packed_.padding c.packed_.dilation c.packed_.output_min c.packed_.output_max)) ∧
    (∀ r : RunResult α, c.run images input_arg = .ok r → ∀ d ∈ r.dispatched,
      d.v_weight = c.packed_.v_weight ∧
      (d.kernel = Kernel.conv2d_dw ↔ (OC : Int) = g) ∧
      (d.kernel = Kernel.conv2d_dw → d.v_weight.sizes = [OC, IC, KH, KW]) ∧
      (d.kernel ≠ Kernel.conv2d_dw → d.v_weight.sizes = [div_up OC 4, 4 * IC, KH, KW])) := by
  have hvw := create_weight api pool w bias stride_arg padding_arg dilation_arg tr op g mn mx
    c hc
  obtain ⟨OC1, IC1, KH1, KW1, sh, sw, ph, pw, dh, dw, hw1, -, -, -, hspec, hfl, hst, hpd, hdl,
    hgr, -, -, hun⟩ :=
    create_shape api pool w bias stride_arg padding_arg dilation_arg tr op g mn mx c hc
  rw [hw] at hw1
  simp only [List.cons.injEq, and_true] at hw1
  obtain ⟨rfl, rfl, rfl, rfl⟩ := hw1
  have hic : 0 < IC := by
    obtain ⟨OC2, IC2, KH2, KW2, hw2, -, -, hic, -⟩ := hspec.2.1
    rw [hw] at hw2
    simp only [List.cons.injEq, and_true] at hw2
    obtain ⟨-, rfl, -, -⟩ := hw2
    exact hic
  obtain ⟨-, -, -, -, hsh, hsw, -, -, -, -, hg0, -⟩ := hspec
  obtain ⟨N, C, H, W, hin⟩ := usable_sizes _ hu
  have hf : c.unpacked_.filter = [OC, IC, KH, KW] := by rw [hun, ← hw]
  have hgg : c.packed_.groups = g := by
    rw [hgr]
    exact to_int32_of_range g (by omega) hg
  have hrun := run_eq c images input_arg N C H W OC IC KH KW sh sw ph pw dh dw hu hin hf hst
    hpd hdl (by omega) (by omega)
  rw [hgg] at hrun
  have hdwv : (OC : Int) = g → c.packed_.v_weight = vTensor.of_mem [OC, IC, KH, KW]
      (memcpy (pool.fresh [OC, IC, KH, KW]) 0 w.data_ptr 0 (numel [OC, IC, KH, KW])) := by
    intro h
    rw [pack_weights_eq_depthwise pool w g OC IC KH KW hdev hw h] at hvw
    exact (Except.ok.inj hvw).symm
  have hgen : (OC : Int) ≠ g → pack_weights_general pool w = .ok c.packed_.v_weight := by
    intro h
    rw [← pack_weights_eq_general pool w g OC IC KH KW hdev hw h]
    exact hvw
  have hgens : (OC : Int) ≠ g → c.packed_.v_weight.sizes = [div_up OC 4, 4 * IC, KH, KW] := by
    intro h
    have h2 := hgen h
    rw [pack_weights_general_eq pool w OC IC KH KW hw] at h2
    rw [← Except.ok.inj h2]
    exact of_mem_sizes _ _
  refine ⟨hvw, by rw [hf, hgg, hw], ?_, ?_, ?_, ?_⟩
  · intro e
    simp only [List.cons.injEq, and_true] at e
    omega
  · intro h
    exact ⟨hdwv h, _, by rw [hrun, if_pos h]⟩
  · intro h
    exact ⟨hgen h, hgens h, _, by rw [hrun, if_neg h]⟩
  · intro r hr d hd
    rw [hrun, hfl, hst, hpd, hdl] at hr
    by_cases h : (OC : Int) = g
    · rw [if_pos h] at hr
      rcases hds : conv2d_depthwise images [(N : Int), (OC : Int),
          Int.tdiv ((H : Int) + 2 * ph - (dh * ((KH : Int) - 1) + 1)) sh + 1,
          Int.tdiv ((W : Int) + 2 * pw - (dw * ((KW : Int) - 1) + 1)) sw + 1]
          (convert (if input_arg.is_vulkan then input_arg else input_arg.vulkan))
          c.packed_.v_weight c.packed_.v_bias
          [((align_up OC 4 : Nat) : Int), (IC : Int),
            wrap_int64 ((KH : Int) + ((KH : Int) - 1) * (dh - 1)),
            wrap_int64 ((KW : Int) + ((KW : Int) - 1) * (dw - 1))]
          [sh, sw] [ph, pw] [dh, dw] c.packed_.output_min c.packed_.output_max with e | ds
      · rw [hds] at hr
        cases hr
      · rw [hds] at hr
        have hr2 := Except.ok.inj hr
        subst hr2
        rw [conv2d_depthwise_ok_inv _ _ _ _ _ _ _ _ _ _ _ _ _ _ _ _ _ _ hds] at hd
        simp only [List.mem_singleton] at hd
        subst hd
        refine ⟨rfl, ⟨fun _ => h, fun _ => rfl⟩, fun _ => ?_, fun hk => absurd rfl hk⟩
        show c.packed_.v_weight.sizes = [OC, IC, KH, KW]
        rw [hdwv h]
        exact of_mem_sizes _ _
    · rw [if_neg h] at hr
      by_cases hk : KH = 1 ∧ KW = 1
      · rw [if_pos hk] at hr
        rcases hds : conv2d_pointwise images [(N : Int), (OC : Int),
            Int.tdiv ((H : Int) + 2 * ph - (dh * ((KH : Int) - 1) + 1)) sh + 1,
            Int.tdiv ((W : Int) + 2 * pw - (dw * ((KW : Int) - 1) + 1)) sw + 1]
            (convert (if input_arg.is_vulkan then input_arg else input_arg.vulkan))
            c.packed_.v_weight c.packed_.v_bias
            [sh, sw] [ph, pw] c.packed_.output_min c.packed_.output_max with e | ds
        · rw [hds] at hr
          cases hr
        · rw [hds] at hr
          have hr2 := Except.ok.inj hr
          subst hr2
          rw [conv2d_pointwise_ok_inv _ _ _ _ _ _ _ _ _ _ _ _ hds] at hd
          cases hd
      · rw [if_neg hk] at hr
        rcases hds : conv2d images [(N : Int), (OC : Int),
            Int.tdiv ((H : Int) + 2 * ph - (dh * ((KH : Int) - 1) + 1)) sh + 1,
            Int.tdiv ((W : Int) + 2 * pw - (dw * ((KW : Int) - 1) + 1)) sw + 1]
            (convert (if input_arg.is_vulkan then input_arg else input_arg.vulkan))
            c.packed_.v_weight c.packed_.v_bias
            [((align_up OC 4 : Nat) : Int), (IC : Int),
              wrap_int64 ((KH : Int) + ((KH : Int) - 1) * (dh - 1)),
              wrap_int64 ((KW : Int) + ((KW : Int) - 1) * (dw - 1))]
            [sh, sw] [ph, pw] [dh, dw] c.packed_.output_min c.packed_.output_max with e | ds
        · rw [hds] at hr
          cases hr
        · rw [hds] at hr
          have hr2 := Except.ok.inj hr
          subst hr2
          rw [conv2d_ok_inv _ _ _ _ _ _ _ _ _ _ _ _ _ _ _ _ _ _ hds] at hd
          simp only [List.mem_singleton] at hd
          subst hd
          refine ⟨rfl, ⟨fun hk2 => ?_, fun hk2 => absurd hk2 h⟩, fun hk2 => ?_, fun _ => ?_⟩
          · cases hk2
          · cases hk2
          · exact hgens h

/-- Witness of C29: in the context of the weight (2,4,3,3) with groups 1 the
packed weight is tiled, of sizes (1,16,3,3), and the only dispatch of `run` on
the input (1,4,3,3) is the general kernel bound to that buffer. -/
theorem run_kernel_agrees_with_packing_witness :
    ∃ c : Context Nat,
      Context.create true (stale_pool 7) (host_tensor [2, 4, 3, 3] (List.replicate 72 1)) none
        [1, 1] [0, 0] [1, 1] false [] 1 none none = .ok c ∧
      c.packed_.v_weight.sizes = [div_up 2 4, 4 * 4, 3, 3] ∧
      is_depthwise c.unpacked_.filter c.packed_.groups =
        is_depthwise (host_tensor [2, 4, 3, 3] (List.replicate 72 1)).sizes 1 :=
  (create_of_available true (stale_pool 7) (host_tensor [2, 4, 3, 3] (List.replicate 72 1))
    none [1, 1] [0, 0] [1, 1] false [] 1 none none 1 1 0 0 1 1 rfl rfl rfl
    (by decide)).elim fun c hc => ⟨c, hc,
      ((run_kernel_agrees_with_packing true (stale_pool 7)
        (host_tensor [2, 4, 3, 3] (List.replicate 72 1)) none [1, 1] [0, 0] [1, 1] false []
        1 none none c true (host_tensor [1, 4, 3, 3] (List.replicate 36 1)) 2 4 3 3 hc rfl rfl
        (by decide) (by decide)).2.2.2.2.1 (by decide)).2.1,
      (run_kernel_agrees_with_packing true (stale_pool 7)
        (host_tensor [2, 4, 3, 3] (List.replicate 72 1)) none [1, 1] [0, 0] [1, 1] false []
        1 none none c true (host_tensor [1, 4, 3, 3] (List.replicate 36 1)) 2 4 3 3 hc rfl rfl
        (by decide) (by decide)).2.1⟩

/-! ## Totality of the validation -/

/-- C30: on every weight, 4-D ones included, and two-element stride, padding
and dilation, `available` returns a boolean; for groups ≤ 0 it returns false,
although the remainder `output_channels % groups` has no value for
groups = 0: the clause `groups > 0` stands before it in the chain, and for
groups > 0 the remainder is defined. -/
theorem available_total_for_all_groups (api : Bool) (w : Tensor α) (bias : Option (Tensor α))
    (sh sw ph pw dh dw : Int) (tr : Bool) (op : List Int) (g : Int) (mn mx : Option Scalar) :
    (∃ r : Bool, available api w bias [sh, sw] [ph, pw] [dh, dw] tr op g mn mx = .ok r) ∧
    (g ≤ 0 → available api w bias [sh, sw] [ph, pw] [dh, dw] tr op g mn mx = .ok false) ∧
    (∀ OC : Nat, int_rem (OC : Int) 0 = .error Error.undefined) ∧
    (∀ OC : Nat, 0 < g → int_rem (OC : Int) g = .ok ((OC : Int) % g)) := by
  obtain ⟨r, hr⟩ := available_total api w bias sh sw ph pw dh dw tr op g mn mx
  refine ⟨⟨r, hr⟩, ?_, fun _ => rfl, fun OC => int_rem_pos OC g⟩
  intro hg
  cases r
  · exact hr
  · have hspec := (available_true_iff api w bias sh sw ph pw dh dw tr op g mn mx).mp hr
    obtain ⟨-, -, -, -, -, -, -, -, -, -, hg0, -⟩ := hspec
    omega

/-- Witness of C30: the weight (2,4,3,3) with groups 0 and with groups -1 is
rejected with the value false. -/
theorem available_total_for_all_groups_witness :
    available true (host_tensor [2, 4, 3, 3] (List.replicate 72 1)) none [1, 1] [0, 0] [1, 1]
      false [] 0 none none = .ok false ∧
    available true (host_tensor [2, 4, 3, 3] (List.replicate 72 1)) none [1, 1] [0, 0] [1, 1]
      false [] (-1) none none = .ok false :=
  ⟨(available_total_for_all_groups true (host_tensor [2, 4, 3, 3] (List.replicate 72 1)) none
      1 1 0 0 1 1 false [] 0 none none).2.1 (by decide),
    (available_total_for_all_groups true (host_tensor [2, 4, 3, 3] (List.replicate 72 1)) none
      1 1 0 0 1 1 false [] (-1) none none).2.1 (by decide)⟩

/-! ## The consistency assertion of the general path -/

/-- The general path up to the bulk copy either returns the tiled sizes with
a memory or stops at a read of the sizes that has no value (sizes with fewer
than four entries); the comparison of the two kernel sizes never fails. -/
theorem pack_weights_general_bulk_cases [Zero α] (pool : Pool α) (w : Tensor α) :
    (∃ (a b c d : Nat) (l : List Nat) (mem : Mem α), w.sizes = a :: b :: c :: d :: l ∧
        pack_weights_general_bulk pool w = .ok ([div_up a 4, 4 * b, c, d], mem)) ∨
      pack_weights_general_bulk pool w = .error Error.undefined := by
  rcases hs : w.sizes with _ | ⟨a, _ | ⟨b, _ | ⟨c, _ | ⟨d, l⟩⟩⟩⟩
  · right
    simp only [pack_weights_general_bulk, hs, at_index, Layout.Filter.output]
    rfl
  · right
    simp only [pack_weights_general_bulk, hs, at_index_zero, Layout.Filter.output, ok_bind,
      Layout.Filter.input, at_index]
    rfl
  · right
    simp only [pack_weights_general_bulk, hs, at_index_zero, at_index_one, Layout.Filter.output,
      ok_bind, Layout.Filter.input, Layout.Filter.height, at_index]
    rfl
  · right
    simp only [pack_weights_general_bulk, hs, at_index_zero, at_index_one, at_index_two,
      Layout.Filter.output, ok_bind, Layout.Filter.input, Layout.Filter.height,
      Layout.Filter.width, at_index]
    rfl
  · left
    simp only [pack_weights_general_bulk, pack_weights_bulk, hs, at_index_zero, at_index_one,
      at_index_two, at_index_three, Layout.Filter.output, Layout.Filter.input,
      Layout.Filter.height, Layout.Filter.width, ok_bind, if_true]
    exact ⟨a, b, c, d, l, _, rfl, rfl⟩

/-- The general path either returns a buffer or stops at a read of the sizes
that has no value. -/
theorem pack_weights_general_cases [Zero α] (pool : Pool α) (w : Tensor α) :
    (∃ v, pack_weights_general pool w = .ok v) ∨
      pack_weights_general pool w = .error Error.undefined := by
  rcases pack_weights_general_bulk_cases pool w with ⟨a, b, c, d, l, mem, hs, hb⟩ | hb
  · left
    simp only [pack_weights_general, hb, ok_bind, pack_weights_remainder, hs, at_index_zero,
      at_index_one, at_index_two, at_index_three, Layout.Filter.output, Layout.Filter.input,
      Layout.Filter.height, Layout.Filter.width]
    exact ⟨_, rfl⟩
  · right
    simp only [pack_weights_general, hb, error_bind]

/-- The function `pack_weights` either returns a buffer or stops at a read of
the sizes that has no value. -/
theorem pack_weights_cases [Zero α] (pool : Pool α) (w : Tensor α) (g : Int) :
    (∃ v, pack_weights pool w g = .ok v) ∨ pack_weights pool w g = .error Error.undefined := by
  by_cases hv : w.is_vulkan = true
  · left
    simp only [pack_weights, hv, if_true]
    exact ⟨_, rfl⟩
  · rcases hs : w.sizes with _ | ⟨a, l⟩
    · right
      simp only [pack_weights, hv, Bool.false_eq_true, if_false, Tensor.contiguous, is_depthwise,
        hs, at_index, Layout.Filter.output]
      rfl
    · by_cases hg : (a : Int) = g
      · left
        simp only [pack_weights, hv, Bool.false_eq_true, if_false, Tensor.contiguous,
          is_depthwise, hs, at_index_zero, Layout.Filter.output, ok_bind, hg]
        simp only [pure, Except.pure, decide_True, if_true, bind, Except.bind]
        exact ⟨_, rfl⟩
      · have he : pack_weights pool w g = pack_weights_general pool w := by
          simp only [pack_weights, hv, Bool.false_eq_true, if_false, Tensor.contiguous,
            is_depthwise, hs, at_index_zero, Layout.Filter.output, ok_bind, hg]
          simp only [pure, Except.pure, decide_False, Bool.false_eq_true, if_false, bind,
            Except.bind]
        rw [he]
        exact pack_weights_general_cases pool w

/-- C31: for every source weight, the kernel size read off the sizes of the
packed buffer (height times width) is the kernel size of the source, so the
assertion `src_kernel == dst_kernel` of the general path holds: neither the
general path, in whole or up to the bulk copy, nor `pack_weights` fails with
the internal error, and on every 4-D weight the general path returns a
buffer. -/
theorem pack_weights_internal_error_unreachable [Zero α] (pool : Pool α) (w : Tensor α)
    (g : Int) :
    pack_weights_general_bulk pool w ≠ .error Error.internal_error ∧
    pack_weights_general pool w ≠ .error Error.internal_error ∧
    pack_weights pool w g ≠ .error Error.internal_error ∧
    (∀ OC IC KH KW : Nat, w.sizes = [OC, IC, KH, KW] →
      (at_index [div_up OC 4, 4 * IC, KH, KW] Layout.Filter.height >>= fun kh =>
        at_index [div_up OC 4, 4 * IC, KH, KW] Layout.Filter.width >>= fun kw =>
        (pure (kh * kw) : Except Error Nat)) =
      (at_index w.sizes Layout.Filter.height >>= fun kh =>
        at_index w.sizes Layout.Filter.width >>= fun kw =>
        (pure (kh * kw) : Except Error Nat)) ∧
      (∃ mem : Mem α,
        pack_weights_general_bulk pool w = .ok ([div_up OC 4, 4 * IC, KH, KW], mem)) ∧
      (∃ v : vTensor α, pack_weights_general pool w = .ok v ∧
        v.sizes = [div_up OC 4, 4 * IC, KH, KW])) := by
  refine ⟨?_, ?_, ?_, ?_⟩
  · rcases pack_weights_general_bulk_cases pool w with ⟨a, b, c, d, l, mem, -, hb⟩ | hb
    · rw [hb]
      exact fun e => Except.noConfusion e
    · rw [hb]
      exact fun e => Error.noConfusion (Except.error.inj e)
  · rcases pack_weights_general_cases pool w with ⟨v, hb⟩ | hb
    · rw [hb]
      exact fun e => Except.noConfusion e
    · rw [hb]
      exact fun e => Error.noConfusion (Except.error.inj e)
  · rcases pack_weights_cases pool w g with ⟨v, hb⟩ | hb
    · rw [hb]
      exact fun e => Except.noConfusion e
    · rw [hb]
      exact fun e => Error.noConfusion (Except.error.inj e)
  · intro OC IC KH KW hw
    refine ⟨?_, ⟨_, pack_weights_general_bulk_eq pool w OC IC KH KW hw⟩, ⟨_,
      pack_weights_general_eq pool w OC IC KH KW hw, of_mem_sizes _ _⟩⟩
    simp only [hw, at_index_two, at_index_three, Layout.Filter.height, Layout.Filter.width,
      ok_bind]

/-- Witness of C31: on the weight (2,5,3,3) the general path returns a buffer
of sizes (1,20,3,3). -/
theorem pack_weights_internal_error_unreachable_witness :
    ∃ v : vTensor Nat,
      pack_weights_general (stale_pool 7) (host_tensor [2, 5, 3, 3] (List.replicate 90 1)) =
        .ok v ∧ v.sizes = [div_up 2 4, 4 * 5, 3, 3] :=
  ((pack_weights_internal_error_unreachable (stale_pool 7)
    (host_tensor [2, 5, 3, 3] (List.replicate 90 1)) 1).2.2.2 2 5 3 3 rfl).2.2

/-! ## Serialization round trip -/

/-- On an input that is not usable, `run` fails with the usability error. -/
theorem run_not_usable (c : Context α) (images : Bool) (input_arg : Tensor α)
    (hu : usable (if input_arg.is_vulkan then input_arg else input_arg.vulkan) = .ok false) :
    c.run images input_arg = .error Error.not_usable := by
  unfold Context.run
  simp only [hu, ok_bind, Bool.false_eq_true, if_false]
  rfl

/-- Without image-backed tensors `conv2d_depthwise` fails with the
"Not implemented" error. -/
theorem conv2d_depthwise_no_images (out : List Int) (vin vw vb : vTensor α)
    (f s p d : List Int) (mn mx : FloatValue) :
    conv2d_depthwise false out vin vw vb f s p d mn mx = .error Error.not_implemented := by
  unfold conv2d_depthwise
  simp only [Bool.false_eq_true, if_false]
  rfl

/-- Without image-backed tensors `conv2d` fails with the "Not implemented"
error. -/
theorem conv2d_no_images (out : List Int) (vin vw vb : vTensor α)
    (f s p d : List Int) (mn mx : FloatValue) :
    conv2d false out vin vw vb f s p d mn mx = .error Error.not_implemented := by
  unfold conv2d
  simp only [Bool.false_eq_true, if_false]
  rfl

/-- What `conv2d_depthwise` hands to the kernel apart from the weight and bias
buffers does not depend on these buffers. -/
theorem conv2d_depthwise_buffers (images : Bool) (out : List Int)
    (vin vw vb vw2 vb2 : vTensor α) (f0 f1 f2 f3 s0 s1 p0 p1 d0 d1 : Int)
    (mn mx : FloatValue) :
    (conv2d_depthwise images out vin vw vb [f0, f1, f2, f3] [s0, s1] [p0, p1] [d0, d1]
        mn mx).map (fun ds => ds.map (fun d => (d.kernel, d.extents, d.v_input, d.block))) =
      (conv2d_depthwise images out vin vw2 vb2 [f0, f1, f2, f3] [s0, s1] [p0, p1] [d0, d1]
        mn mx).map (fun ds => ds.map (fun d => (d.kernel, d.extents, d.v_input, d.block))) := by
  cases images
  · rw [conv2d_depthwise_no_images, conv2d_depthwise_no_images]
  · by_cases hfit : fits_int32 f3 ∧ fits_int32 f2 ∧ fits_int32 s1 ∧
      fits_int32 s0 ∧ fits_int32 p1 ∧ fits_int32 p0 ∧ fits_int32 d1 ∧ fits_int32 d0
    · obtain ⟨h1, h2, h5, h6, h7, h8, h9, h10⟩ := hfit
      rw [conv2d_depthwise_fits out vin vw vb f0 f1 f2 f3 s0 s1 p0 p1 d0 d1 mn mx h1 h2 h5 h6
          h7 h8 h9 h10,
        conv2d_depthwise_fits out vin vw2 vb2 f0 f1 f2 f3 s0 s1 p0 p1 d0 d1 mn mx h1 h2 h5 h6
          h7 h8 h9 h10]
      rfl
    · rw [conv2d_depthwise_overflow out vin vw vb f0 f1 f2 f3 s0 s1 p0 p1 d0 d1 mn mx hfit,
        conv2d_depthwise_overflow out vin vw2 vb2 f0 f1 f2 f3 s0 s1 p0 p1 d0 d1 mn mx hfit]

/-- What `conv2d` hands to the kernel apart from the weight and bias buffers
does not depend on these buffers. -/
theorem conv2d_buffers (images : Bool) (out : List Int)
    (vin vw vb vw2 vb2 : vTensor α) (f0 f1 f2 f3 s0 s1 p0 p1 d0 d1 : Int)
    (mn mx : FloatValue) :
    (conv2d images out vin vw vb [f0, f1, f2, f3] [s0, s1] [p0, p1] [d0, d1]
        mn mx).map (fun ds => ds.map (fun d => (d.kernel, d.extents, d.v_input, d.block))) =
      (conv2d images out vin vw2 vb2 [f0, f1, f2, f3] [s0, s1] [p0, p1] [d0, d1]
        mn mx).map (fun ds => ds.map (fun d => (d.kernel, d.extents, d.v_input, d.block))) := by
  cases images
  · rw [conv2d_no_images, conv2d_no_images]
  · by_cases hfit : fits_int32 f3 ∧ fits_int32 f2 ∧ fits_int32 f1 ∧ fits_int32 f0 ∧
      fits_int32 s1 ∧ fits_int32 s0 ∧ fits_int32 p1 ∧ fits_int32 p0 ∧ fits_int32 d1 ∧
      fits_int32 d0
    · obtain ⟨h1, h2, h3, h4, h5, h6, h7, h8, h9, h10⟩ := hfit
      rw [conv2d_fits out vin vw vb f0 f1 f2 f3 s0 s1 p0 p1 d0 d1 mn mx h1 h2 h3 h4 h5 h6
          h7 h8 h9 h10,
        conv2d_fits out vin vw2 vb2 f0 f1 f2 f3 s0 s1 p0 p1 d0 d1 mn mx h1 h2 h3 h4 h5 h6
          h7 h8 h9 h10]
      rfl
    · rw [conv2d_overflow out vin vw vb f0 f1 f2 f3 s0 s1 p0 p1 d0 d1 mn mx hfit,
        conv2d_overflow out vin vw2 vb2 f0 f1 f2 f3 s0 s1 p0 p1 d0 d1 mn mx hfit]

/-- The sizes and dispatch parameters of a run result are determined by the
sizes and the dispatch parameters of the list it was built from. -/
theorem run_result_congr (out : List Int) (x y : Except Error (List (Dispatch α)))
    (h : x.map (fun ds => ds.map (fun d => (d.kernel, d.extents, d.v_input, d.block))) =
      y.map (fun ds => ds.map (fun d => (d.kernel, d.extents, d.v_input, d.block)))) :
    (Except.map (fun ds => RunResult.mk out ds) x).map (fun r => (r.output_sizes,
        r.dispatched.map (fun d => (d.kernel, d.extents, d.v_input, d.block)))) =
      (Except.map (fun ds => RunResult.mk out ds) y).map (fun r => (r.output_sizes,
        r.dispatched.map (fun d => (d.kernel, d.extents, d.v_input, d.block)))) := by
  rcases x with e | ds <;> rcases y with e2 | ds2
  · simp only [Except.map, Except.error.injEq] at h ⊢
    exact h
  · simp only [Except.map] at h
    cases h
  · simp only [Except.map] at h
    cases h
  · simp only [Except.map, Except.ok.injEq] at h ⊢
    rw [h]

/-- C13: every context that can reach `__getstate__` is one returned by
`conv2_clamp_prepack` (the class is local to the file and only that function
hands out a reference to a context).  For every such context c, `getstate`
returns the arguments of that call with output_min in both clamp positions;
`setstate` on this state, with the same pool, returns c itself; and with any
pool it returns a context with the same unpacked state, the same packed
filter, stride, padding, dilation, groups, clamp minimum and clamp maximum,
whose `run` computes the same output sizes and issues the same kernels with
the same extents, inputs and parameter blocks as that of c. -/
theorem setstate_getstate_roundtrip [Zero α] (api : Bool) (pool : Pool α) (w : Tensor α)
    (bias : Option (Tensor α)) (stride padding dilation : List Int) (g : Int)
    (mn mx : Option Scalar) (c : Context α)
    (hc : conv2_clamp_prepack api pool w bias stride padding dilation g mn mx = .ok c) :
    getstate c = (w, bias, stride, padding, dilation, g, mn, mn) ∧
    setstate api pool (getstate c) = .ok c ∧
    ∀ pool2 : Pool α, ∃ c2 : Context α,
      setstate api pool2 (getstate c) = .ok c2 ∧
      getstate c2 = getstate c ∧
      c2.unpacked_ = c.unpacked_ ∧
      c2.packed_.filter = c.packed_.filter ∧ c2.packed_.stride = c.packed_.stride ∧
      c2.packed_.padding = c.packed_.padding ∧ c2.packed_.dilation = c.packed_.dilation ∧
      c2.packed_.groups = c.packed_.groups ∧ c2.packed_.output_min = c.packed_.output_min ∧
      c2.packed_.output_max = c.packed_.output_max ∧
      ∀ (images : Bool) (input_arg : Tensor α),
        (c2.run images input_arg).map (fun r => (r.output_sizes,
            r.dispatched.map (fun d => (d.kernel, d.extents, d.v_input, d.block)))) =
          (c.run images input_arg).map (fun r => (r.output_sizes,
            r.dispatched.map (fun d => (d.kernel, d.extents, d.v_input, d.block)))) := by
  have hc1 : Context.create api pool w bias stride padding dilation false [] g mn mn =
      .ok c := hc
  obtain ⟨OC, IC, KH, KW, sh, sw, ph, pw, dh, dw, hw, hs, hp, hd, hspec, hfl, hst, hpd, hdl,
    hgr, hmn, hmx, hun⟩ :=
    create_shape api pool w bias stride padding dilation false [] g mn mn c hc1
  have hstate : getstate c = (w, bias, stride, padding, dilation, g, mn, mn) := by
    simp only [getstate, Context.unpack, hun]
  refine ⟨hstate, ?_, ?_⟩
  · rw [hstate]
    exact hc1
  · intro pool2
    obtain ⟨sh0, sw0, ph0, pw0, dh0, dw0, hs0, hp0, hd0, hav, -⟩ :=
      create_ok_inv api pool w bias stride padding dilation false [] g mn mn c hc1
    obtain ⟨c2, hc2⟩ := create_of_available api pool2 w bias stride padding dilation false []
      g mn mn sh0 sw0 ph0 pw0 dh0 dw0 hs0 hp0 hd0 hav
    obtain ⟨OC2, IC2, KH2, KW2, sh2, sw2, ph2, pw2, dh2, dw2, hw2, hs2, hp2, hd2, -, hfl2, hst2,
      hpd2, hdl2, hgr2, hmn2, hmx2, hun2⟩ :=
      create_shape api pool2 w bias stride padding dilation false [] g mn mn c2 hc2
    rw [hw] at hw2
    simp only [List.cons.injEq, and_true] at hw2
    obtain ⟨rfl, rfl, rfl, rfl⟩ := hw2
    rw [hs] at hs2
    rw [hp] at hp2
    rw [hd] at hd2
    simp only [Except.ok.injEq, List.cons.injEq, and_true] at hs2 hp2 hd2
    obtain ⟨rfl, rfl⟩ := hs2
    obtain ⟨rfl, rfl⟩ := hp2
    obtain ⟨rfl, rfl⟩ := hd2
    have hstate2 : getstate c2 = (w, bias, stride, padding, dilation, g, mn, mn) := by
      simp only [getstate, Context.unpack, hun2]
    refine ⟨c2, ?_, by rw [hstate2, hstate], by rw [hun2, hun], by rw [hfl2, hfl],
      by rw [hst2, hst], by rw [hpd2, hpd], by rw [hdl2, hdl], by rw [hgr2, hgr],
      by rw [hmn2, hmn], by rw [hmx2, hmx], ?_⟩
    · rw [hstate]
      exact hc2
    · intro images input_arg
      obtain ⟨r, hu⟩ := usable_total (if input_arg.is_vulkan then input_arg else input_arg.vulkan)
      cases r
      · rw [run_not_usable c2 images input_arg hu, run_not_usable c images input_arg hu]
      · obtain ⟨N, C, H, W, hin⟩ := usable_sizes _ hu
        obtain ⟨-, -, -, -, hsh, hsw, -⟩ := hspec
        have hf : c.unpacked_.filter = [OC, IC, KH, KW] := by rw [hun, ← hw]
        have hf2 : c2.unpacked_.filter = [OC, IC, KH, KW] := by rw [hun2, ← hw]
        rw [run_eq c images input_arg N C H W OC IC KH KW sh sw ph pw dh dw hu hin hf hst
            hpd hdl (by omega) (by omega),
          run_eq c2 images input_arg N C H W OC IC KH KW sh sw ph pw dh dw hu hin hf2 hst2
            hpd2 hdl2 (by omega) (by omega)]
        apply run_result_congr
        rw [hgr2, hgr, hfl2, hfl, hst2, hst, hpd2, hpd, hdl2, hdl, hmn2, hmn, hmx2, hmx]
        by_cases hgd : (OC : Int) = to_int32 g
        · rw [if_pos hgd, if_pos hgd]
          exact conv2d_depthwise_buffers _ _ _ _ _ _ _ _ _ _ _ _ _ _ _ _ _ _ _
        · rw [if_neg hgd, if_neg hgd]
          by_cases hk : KH = 1 ∧ KW = 1
          · rw [if_pos hk, if_pos hk]
            rfl
          · rw [if_neg hk, if_neg hk]
            exact conv2d_buffers _ _ _ _ _ _ _ _ _ _ _ _ _ _ _ _ _ _ _

/-- Witness of C13: the context prepacked from the weight (2,4,3,3) with
output_min 0.0 and output_max 6.0 (bit patterns 0 and 4618441417868443648) is
returned unchanged by `setstate` on its `getstate`. -/
theorem setstate_getstate_roundtrip_witness :
    ∃ c : Context Nat,
      conv2_clamp_prepack true (stale_pool 7) (host_tensor [2, 4, 3, 3] (List.replicate 72 1))
        none [1, 1] [0, 0] [1, 1] 1 (some (Scalar.floating 0))
        (some (Scalar.floating 4618441417868443648)) = .ok c ∧
      setstate true (stale_pool 7) (getstate c) = .ok c :=
  (create_of_available true (stale_pool 7) (host_tensor [2, 4, 3, 3] (List.replicate 72 1))
    none [1, 1] [0, 0] [1, 1] false [] 1 (some (Scalar.floating 0)) (some (Scalar.floating 0))
    1 1 0 0 1 1 rfl rfl rfl (by decide)).elim fun c hc => ⟨c, hc,
      (setstate_getstate_roundtrip true (stale_pool 7)
        (host_tensor [2, 4, 3, 3] (List.replicate 72 1)) none [1, 1] [0, 0] [1, 1] 1
        (some (Scalar.floating 0)) (some (Scalar.floating 4618441417868443648)) c hc).2.1⟩

end Conv
